import Mathlib

/-!
# Time-Travel-Radio: broadcast continuity and playback orchestration

A shallow embedding of the client-side state machine of
`src/frontend/js/app.js` (class `RetroRadioApp`), of the parts of
`src/frontend/js/audio.js` (class `AudioSystem`) and `src/frontend/js/utils.js`
it drives, and of the file paths of `src/backend/routes/musicRoutes.js`.

Conventions of the embedding:

* JavaScript numbers that hold seconds or volumes are rationals (`ℚ`). The
  arithmetic is exact, except in the volume fade (`fadeVolume`, `duckMainAudio`),
  where every operation is rounded to the nearest double (`roundDouble`).
* `Date.now()` is an explicit argument `now : Int` (milliseconds).
* `Math.random()` is an explicit argument `r : ℚ`.
* Indices and counters are natural numbers.
* `undefined` and `null` are `none`; the operator `||` on a timestamp takes its
  right operand when the left one is `none` or `0`.
* An `async` method is run to completion as one atomic step; the answer of a
  network request it awaits is an explicit argument.
* Calls that only touch the page (`Components.*`, `Animations.*`, `console.*`,
  `Utils.showToast`) are left out.
-/

namespace TimeTravelRadio

/-! ## Data model -/

/-- Element of a playlist as returned by `/music/playlist/:stationId`. -/
structure Track where
  stationId : String
  filename : String
deriving DecidableEq, Repr

/-- Station reference data (`this.currentStations` entries). -/
structure Station where
  id : String
  name : String
  host : String
  genre : String
deriving DecidableEq, Repr

/-- Entry of `this.stationStates`, the per-station broadcast state. The fields
`lastLeftTime` and `powerOffTime` do not exist until first written. -/
structure BroadcastState where
  currentTrackIndex : Nat
  trackPositionSeconds : ℚ
  broadcastStartTime : Int
  playlist : List Track
  playlistLoaded : Bool
  djTalkActive : Bool
  djTalkPosition : ℚ
  djTalkCounter : Nat
  lastLeftTime : Option Int
  powerOffTime : Option Int
deriving DecidableEq

/-- The observable part of an HTML media element. -/
structure AudioElement where
  src : Option String
  currentTime : ℚ
  duration : Option ℚ
  paused : Bool
  volume : ℚ
  muted : Bool
deriving DecidableEq

/-- State of `AudioSystem`. `playCommands` is a ghost log: the URLs handed to
`playTrack`, oldest first. -/
structure AudioSystem where
  mainAudio : AudioElement
  djAudio : AudioElement
  volume : ℚ
  isMuted : Bool
  isPlaying : Bool
  djEarlySongStarted : Bool
  playCommands : List String
deriving DecidableEq

/-- State of `RetroRadioApp`. `pendingSeeks` is a ghost field: the
`seekPosition` constants captured by the `attemptSeek` closures that
`playCurrentTrack` has scheduled, oldest first. `djTalksTriggered` is a ghost
counter of the calls of `triggerDJTalk`. -/
structure App where
  currentStation : Option Station
  currentStations : List Station
  playlist : List Track
  playlistIndex : Nat
  isPlaying : Bool
  djTalkCounter : Nat
  lastDJTalkType : Option String
  radioPowerOn : Bool
  seekToPosition : Option ℚ
  songStartedEarly : Bool
  stationStates : String → Option BroadcastState
  audioSystem : AudioSystem
  pendingSeeks : List ℚ
  djTalksTriggered : Nat

/-- Assignment `this.stationStates[id] = st`. -/
def setStationState (states : String → Option BroadcastState) (id : String)
    (st : BroadcastState) : String → Option BroadcastState :=
  fun k => if k = id then some st else states k

/-- JavaScript `t || Date.now()` for a timestamp field. -/
def orNow (t : Option Int) (now : Int) : Int :=
  match t with
  | some v => if v = 0 then now else v
  | none => now

/-- JavaScript truthiness of a number-or-null field such as `seekToPosition`. -/
def truthy (x : Option ℚ) : Bool :=
  match x with
  | some v => decide (v ≠ 0)
  | none => false

/-- JavaScript `a % b` on numbers: the remainder has the sign of `a`. -/
def jsRem (a b : ℚ) : ℚ :=
  let q := a / b
  a - b * (if 0 ≤ q then (⌊q⌋ : ℚ) else (⌈q⌉ : ℚ))

/-- Constant `AVG_TRACK_LENGTH` of `restoreStationState` and
`initializeStationStates`. -/
abbrev AVG_TRACK_LENGTH : ℚ := 210

/-! ## Station state store -/

/-- The `while (currentPosition > AVG_TRACK_LENGTH)` loop of
`restoreStationState`, for a playlist of length `len`. The third component
counts the iterations performed (ghost). -/
def wrapLoop (len : Nat) (currentPosition : ℚ) (currentTrackIndex : Nat)
    (iterations : Nat) : ℚ × Nat × Nat :=
  if AVG_TRACK_LENGTH < currentPosition then
    wrapLoop len (currentPosition - AVG_TRACK_LENGTH)
      (if len ≤ currentTrackIndex + 1 then 0 else currentTrackIndex + 1)
      (iterations + 1)
  else (currentPosition, currentTrackIndex, iterations)
termination_by ⌈currentPosition⌉.toNat
decreasing_by
  rename_i h
  have h1 : ⌈currentPosition - AVG_TRACK_LENGTH⌉ = ⌈currentPosition⌉ - 210 := by
    have : (AVG_TRACK_LENGTH : ℚ) = ((210 : ℤ) : ℚ) := by norm_num
    rw [this, Int.ceil_sub_int]
  have h2 : (210 : ℤ) < ⌈currentPosition⌉ + 1 := by
    have := Int.le_ceil currentPosition
    have h3 : ((210 : ℤ) : ℚ) < (⌈currentPosition⌉ : ℚ) + 1 := by
      have : (AVG_TRACK_LENGTH : ℚ) = 210 := rfl
      push_cast
      linarith
    exact_mod_cast h3
  rw [h1]
  omega

/-- Projected position `trackPositionSeconds + elapsedSinceLeft` computed by
`restoreStationState` before the wrap loop. -/
def projectedPosition (state : BroadcastState) (now : Int) : ℚ :=
  state.trackPositionSeconds + ((now - orNow state.lastLeftTime now : Int) : ℚ) / 1000

/-- Method `restoreStationState(stationId)`: the new application state and the
returned boolean. -/
def restoreStationState (stationId : String) (now : Int) (a : App) : App × Bool :=
  match a.stationStates stationId with
  | none => (a, false)
  | some state =>
    if state.playlistLoaded && decide (0 < state.playlist.length) then
      let playlist := state.playlist
      let r := wrapLoop playlist.length (projectedPosition state now) state.currentTrackIndex 0
      ({ a with
          playlist := playlist
          playlistIndex := r.2.1
          djTalkCounter := state.djTalkCounter
          seekToPosition := some (min r.1 180) }, true)
    else (a, false)

/-- Method `saveStationState(stationId)`. -/
def saveStationState (stationId : String) (now : Int) (a : App) : App :=
  if stationId = "" then a else
  match a.stationStates stationId with
  | none => a
  | some state =>
    let dj := a.audioSystem.djAudio
    { a with
        stationStates := setStationState a.stationStates stationId
          { state with
            currentTrackIndex := a.playlistIndex
            trackPositionSeconds := a.audioSystem.mainAudio.currentTime
            playlist := a.playlist
            playlistLoaded := true
            djTalkCounter := a.djTalkCounter
            lastLeftTime := some now
            djTalkActive := !dj.paused
            djTalkPosition := if dj.paused then state.djTalkPosition else dj.currentTime } }

/-- The block `if (this.currentStation) ... this.saveStationState(...)` that
opens `tuneToRetroStation`, `tuneToStation` and `switchStation`. -/
def saveCurrentStation (now : Int) (a : App) : App :=
  match a.currentStation with
  | none => a
  | some cur =>
    let currentPosition := a.audioSystem.mainAudio.currentTime
    let a1 :=
      match a.stationStates cur.id with
      | none => a
      | some state =>
        { a with
            stationStates := setStationState a.stationStates cur.id
              { state with trackPositionSeconds := currentPosition } }
    saveStationState cur.id now a1

/-- Method `updateStationState(stationId)`. -/
def updateStationState (stationId : String) (now : Int) (a : App) : App :=
  match a.stationStates stationId with
  | none => a
  | some state =>
    { a with
        stationStates := setStationState a.stationStates stationId
          { state with
            currentTrackIndex := a.playlistIndex
            trackPositionSeconds := a.audioSystem.mainAudio.currentTime
            lastLeftTime := some now } }

/-- The callback that `startBroadcastSimulation` runs every second. -/
def broadcastTick (a : App) : App :=
  match a.currentStation with
  | none => a
  | some cur =>
    match a.stationStates cur.id with
    | none => a
    | some state =>
      { a with
          stationStates := setStationState a.stationStates cur.id
            { state with trackPositionSeconds := a.audioSystem.mainAudio.currentTime } }

/-- Method `calculateBroadcastPosition(stationId)`. -/
def calculateBroadcastPosition (stationId : String) (a : App) : App :=
  match a.stationStates stationId with
  | none => a
  | some state =>
    if 0 < a.playlist.length then
      { a with playlistIndex := state.currentTrackIndex % a.playlist.length }
    else a

/-- Method `loadPlaylist(stationId)`. `response` is the answer of the playlist
request: `none` when the request fails or is not OK, `some tracks` otherwise. -/
def loadPlaylist (stationId : String) (response : Option (List Track)) (a : App) : App :=
  match response with
  | some tracks =>
    calculateBroadcastPosition stationId { a with playlist := tracks, playlistIndex := 0 }
  | none => { a with playlist := [] }

/-! ## Audio engine -/

/-- Constant `CONFIG.AUDIO_CONFIG.musicDuckVolume`. -/
abbrev musicDuckVolume : ℚ := 15 / 100

/-- Constant `CONFIG.AUDIO_CONFIG.djVolumeBoost`. -/
abbrev djVolumeBoost : ℚ := 13 / 10

/-- Method `AudioSystem.isDJPlaying()`. -/
def AudioSystem.isDJPlaying (s : AudioSystem) : Bool :=
  !s.djAudio.paused && decide (0 < s.djAudio.currentTime)

/-- Method `AudioSystem.playTrack(url)`, on the path where `play()` resolves.
Assigning `src` loads a new resource: position `0`, duration not yet known. -/
def AudioSystem.playTrack (url : String) (s : AudioSystem) : AudioSystem :=
  { s with
      mainAudio :=
        { s.mainAudio with
            src := some url
            currentTime := 0
            duration := none
            volume := if s.isDJPlaying then s.volume * musicDuckVolume else s.volume
            paused := false }
      isPlaying := true
      playCommands := s.playCommands ++ [url] }

/-- Method `AudioSystem.playDJ(audioData)`, on the path where `play()` resolves;
`url` is the object URL of the announcer audio. The animated volume fade that
`duckMainAudio` starts is not part of this step. -/
def AudioSystem.playDJ (url : String) (s : AudioSystem) : AudioSystem :=
  { s with
      djAudio :=
        { s.djAudio with src := some url, currentTime := 0, duration := none, paused := false }
      djEarlySongStarted := false }

/-- Method `AudioSystem.stop()`. -/
def AudioSystem.stop (s : AudioSystem) : AudioSystem :=
  { s with
      mainAudio := { s.mainAudio with paused := true, currentTime := 0 }
      djAudio := { s.djAudio with paused := true, currentTime := 0 }
      isPlaying := false }

/-- Method `AudioSystem.pauseForSwitch()`: the new state and the returned
position. -/
def AudioSystem.pauseForSwitch (s : AudioSystem) : AudioSystem × ℚ :=
  ({ s with
      mainAudio := { s.mainAudio with paused := true }
      djAudio := { s.djAudio with paused := true }
      isPlaying := false }, s.mainAudio.currentTime)

/-! ## Playback orchestrator -/

/-- Constant `CONFIG.API_BASE_URL`. -/
def API_BASE_URL : String := "http://localhost:3000/api"

/-- The stream URL built by `playCurrentTrack` and `playNextTrackEarly`. -/
def streamUrl (track : Track) : String :=
  API_BASE_URL ++ "/music/stream/" ++ track.stationId ++ "/" ++ track.filename

/-- Method `playCurrentTrack()`. -/
def playCurrentTrack (a : App) : App :=
  let a1 := if a.playlist.length ≤ a.playlistIndex then { a with playlistIndex := 0 } else a
  match a1.playlist.get? a1.playlistIndex with
  | none => a1
  | some track =>
    let a2 := { a1 with audioSystem := a1.audioSystem.playTrack (streamUrl track) }
    match a2.seekToPosition with
    | none => a2
    | some seekPosition =>
      if 0 < seekPosition then
        { a2 with seekToPosition := none, pendingSeeks := a2.pendingSeeks ++ [seekPosition] }
      else a2

/-- Method `startBroadcast()`. -/
def startBroadcast (a : App) : App :=
  if a.playlist.length = 0 then a else
  let a1 := { a with isPlaying := true }
  let a2 := if truthy a1.seekToPosition then a1 else { a1 with djTalkCounter := 0 }
  playCurrentTrack a2

/-- Method `stopPlayback()`. -/
def stopPlayback (a : App) : App :=
  { a with isPlaying := false, audioSystem := a.audioSystem.stop }

/-- Method `pauseForStationSwitch()`. -/
def pauseForStationSwitch (a : App) : App :=
  { a with isPlaying := false, audioSystem := a.audioSystem.pauseForSwitch.1 }

/-- The seek position `newPosition` that `toggleRadioPower` computes on
power-on from the stored state. -/
def powerOnPosition (state : BroadcastState) (now : Int) : ℚ :=
  let elapsedMs : Int := now - orNow state.powerOffTime now
  let elapsedSec : ℚ := (elapsedMs : ℚ) / 1000
  jsRem (state.trackPositionSeconds + elapsedSec) 300

/-- Method `toggleRadioPower()`. -/
def toggleRadioPower (now : Int) (a : App) : App :=
  let a0 := { a with radioPowerOn := !a.radioPowerOn }
  if a0.radioPowerOn then
    match a0.currentStation with
    | none => a0
    | some cur =>
      match a0.stationStates cur.id with
      | some state =>
        startBroadcast { a0 with seekToPosition := some (powerOnPosition state now) }
      | none => startBroadcast a0
  else
    let a1 :=
      match a0.currentStation with
      | none => a0
      | some cur =>
        match a0.stationStates cur.id with
        | none => a0
        | some state =>
          { a0 with
              stationStates := setStationState a0.stationStates cur.id
                { state with
                  trackPositionSeconds := a0.audioSystem.mainAudio.currentTime
                  powerOffTime := some now
                  lastLeftTime := some now } }
    stopPlayback a1

/-- Method `tuneToRetroStation(stationId, stationIndex)`. `nowLeave` is the
clock when the current station is saved, `now` the clock when the target is
restored, `response` the answer of the playlist request (used on a first
visit). -/
def tuneToRetroStation (stationId : String) (nowLeave now : Int)
    (response : Option (List Track)) (a : App) : App :=
  let a1 := saveCurrentStation nowLeave a
  let a2 := { a1 with audioSystem := a1.audioSystem.pauseForSwitch.1 }
  match a2.currentStations.find? (fun s => s.id = stationId) with
  | none => a2
  | some station =>
    let a3 := { a2 with currentStation := some station }
    let restored := restoreStationState stationId now a3
    let a4 := if restored.2 then restored.1 else loadPlaylist stationId response restored.1
    startBroadcast a4

/-- Method `tuneToStation(stationId, decade)`; a missing station throws and the
`catch` block only reports it. -/
def tuneToStation (stationId : String) (nowLeave now : Int)
    (response : Option (List Track)) (a : App) : App :=
  let a1 := saveCurrentStation nowLeave a
  let a2 := { a1 with audioSystem := a1.audioSystem.pauseForSwitch.1 }
  match a2.currentStations.find? (fun s => s.id = stationId) with
  | none => a2
  | some station =>
    let a3 := { a2 with currentStation := some station }
    let restored := restoreStationState stationId now a3
    let a4 := if restored.2 then restored.1 else loadPlaylist stationId response restored.1
    startBroadcast a4

/-- Method `switchStation(stationId)`. `nowSwitch` is the clock of its own
save, `nowLeave` and `now` are those of the `tuneToStation` call it ends with. -/
def switchStation (stationId : String) (nowSwitch nowLeave now : Int)
    (response : Option (List Track)) (a : App) : App :=
  match a.currentStations.find? (fun s => s.id = stationId) with
  | none => a
  | some _ =>
    let a1 := saveCurrentStation nowSwitch a
    let a2 := pauseForStationSwitch a1
    tuneToStation stationId nowLeave now response a2

/-! ## Track end and announcer -/

/-- The object `CONFIG.DJ_TALK_CONFIG` (the two bounds that `onTrackEnd` reads). -/
structure DJTalkConfig where
  minSongsBetweenTalk : Int
  maxSongsBetweenTalk : Int
deriving DecidableEq, Repr

/-- The configured `CONFIG.DJ_TALK_CONFIG` of `config.js`. -/
def DJ_TALK_CONFIG : DJTalkConfig :=
  { minSongsBetweenTalk := 1, maxSongsBetweenTalk := 3 }

/-- Function `Utils.getRandomInt(min, max)` with `Math.random()` returning `r`. -/
def getRandomInt (r : ℚ) (min max : Int) : Int :=
  ⌊r * (((max - min + 1 : Int)) : ℚ)⌋ + min

/-- Answer of the `/ai-host/banter` request awaited by `triggerDJTalk`:
`failed` when the request rejects or is not OK, `textOnly` when the answer
carries no `audioBase64`, `withAudio url` when it does (`url` is the object URL
created for the decoded announcer audio). -/
inductive BanterResponse where
  | failed
  | textOnly
  | withAudio (url : String)
deriving DecidableEq, Repr

/-- Method `onDJEnd()`. -/
def onDJEnd (a : App) : App :=
  let a1 :=
    if a.isPlaying && decide (a.lastDJTalkType = some "track_transition") && !a.songStartedEarly then
      playCurrentTrack a
    else a
  { a1 with songStartedEarly := false }

/-- Method `playNextTrackEarly()`. -/
def playNextTrackEarly (a : App) : App :=
  let a1 := if a.playlist.length ≤ a.playlistIndex then { a with playlistIndex := 0 } else a
  match a1.playlist.get? a1.playlistIndex with
  | none => a1
  | some track => { a1 with audioSystem := a1.audioSystem.playTrack (streamUrl track) }

/-- Method `onEarlySongStart()`. -/
def onEarlySongStart (a : App) : App :=
  if !a.isPlaying || decide (a.lastDJTalkType ≠ some "track_transition") then a
  else playNextTrackEarly { a with songStartedEarly := true }

/-- Method `triggerDJTalk(eventType)` up to the point where it awaits the
banter request. -/
def triggerDJTalkRequest (eventType : String) (a : App) : App :=
  { a with lastDJTalkType := some eventType }

/-- Method `triggerDJTalk(eventType)` from the answer of the banter request
on: announcer audio is played when there is some, otherwise (text only, or the
`catch` block) `onDJEnd` is called after the fixed sleep. With no current
station left, `this.currentStation.host` throws before the audio is played
and the `catch` block runs. -/
def triggerDJTalkResponse (response : BanterResponse) (a : App) : App :=
  match response with
  | BanterResponse.withAudio url =>
    match a.currentStation with
    | some _ => { a with audioSystem := a.audioSystem.playDJ url }
    | none => onDJEnd a
  | BanterResponse.textOnly => onDJEnd a
  | BanterResponse.failed => onDJEnd a

/-- Method `triggerDJTalk(eventType)`. -/
def triggerDJTalk (eventType : String) (response : BanterResponse) (a : App) : App :=
  let a0 := { a with djTalksTriggered := a.djTalksTriggered + 1 }
  match a0.currentStation with
  | none => a0
  | some _ => triggerDJTalkResponse response (triggerDJTalkRequest eventType a0)

/-- The first statements of `onTrackEnd()` after its guard: both increments and
the `updateStationState` call. -/
def onTrackEndAdvance (now : Int) (a : App) : App :=
  let a1 := { a with playlistIndex := a.playlistIndex + 1, djTalkCounter := a.djTalkCounter + 1 }
  match a1.currentStation with
  | none => a1
  | some cur => updateStationState cur.id now a1

/-- The decision `shouldDJTalk` of `onTrackEnd()`, taken on the state left by
the increments, with the threshold drawn from `r`. -/
def shouldDJTalk (cfg : DJTalkConfig) (r : ℚ) (a : App) : Bool :=
  decide (getRandomInt r cfg.minSongsBetweenTalk cfg.maxSongsBetweenTalk ≤ (a.djTalkCounter : Int))

/-- Method `onTrackEnd()`. -/
def onTrackEnd (cfg : DJTalkConfig) (r : ℚ) (response : BanterResponse) (now : Int)
    (a : App) : App :=
  if !a.isPlaying then a else
  let a1 := onTrackEndAdvance now a
  if shouldDJTalk cfg r a1 then
    { triggerDJTalk "track_transition" response a1 with djTalkCounter := 0 }
  else playCurrentTrack a1

/-! ## Auxiliary functions used to state the properties -/

/-- One index step of the wrap loop of `restoreStationState`. -/
def wrapStep (len i : Nat) : Nat := if len ≤ i + 1 then 0 else i + 1

/-- Number of iterations the wrap loop performs from position `p`, in closed
form. -/
def wrapCount (p : ℚ) : Nat := (⌈p / 210⌉ - 1).toNat

/-! ## Example data -/

/-- A media element with nothing loaded. -/
def idleAudio : AudioElement :=
  { src := none, currentTime := 0, duration := none, paused := true, volume := 3 / 4,
    muted := false }

/-- An `AudioSystem` right after construction with no saved volume: `init()`
leaves the music element at volume 0.75 and the announcer element at
0.75 · 1.3. -/
def idleAudioSystem : AudioSystem :=
  { mainAudio := idleAudio, djAudio := { idleAudio with volume := 39 / 40 }, volume := 3 / 4,
    isMuted := false, isPlaying := false, djEarlySongStarted := false, playCommands := [] }

/-- Station `S1` of the scenarios. -/
def stationS1 : Station := { id := "S1", name := "Station One", host := "Host One", genre := "pop" }

/-- Station `S2` of the scenarios. -/
def stationS2 : Station := { id := "S2", name := "Station Two", host := "Host Two", genre := "rock" }

/-- A playlist of `n` tracks of station `S1`, named after their index. -/
def tracksS1 (n : Nat) : List Track :=
  (List.range n).map (fun i => { stationId := "S1", filename := toString i ++ ".mp3" })

/-- A stored state of a visited station: track index `i`, position `pos`,
playlist `tracks`, left at clock `left`. -/
def visitedState (i : Nat) (pos : ℚ) (tracks : List Track) (left : Int) : BroadcastState :=
  { currentTrackIndex := i, trackPositionSeconds := pos, broadcastStartTime := 0,
    playlist := tracks, playlistLoaded := true, djTalkActive := false, djTalkPosition := 0,
    djTalkCounter := 0, lastLeftTime := some left, powerOffTime := none }

/-- A stored state as `initializeStationStates` leaves it: nothing loaded, no
`lastLeftTime` yet. -/
def freshState (i : Nat) (pos : ℚ) (start : Int) : BroadcastState :=
  { currentTrackIndex := i, trackPositionSeconds := pos, broadcastStartTime := start,
    playlist := [], playlistLoaded := false, djTalkActive := false, djTalkPosition := 0,
    djTalkCounter := 0, lastLeftTime := none, powerOffTime := none }

/-- An application in which nothing is tuned yet and only station `S1` has a
stored state `st`. -/
def appWithS1 (st : BroadcastState) : App :=
  { currentStation := none, currentStations := [stationS1, stationS2], playlist := [],
    playlistIndex := 0, isPlaying := false, djTalkCounter := 0, lastDJTalkType := none,
    radioPowerOn := true, seekToPosition := none, songStartedEarly := false,
    stationStates := fun k => if k = "S1" then some st else none,
    audioSystem := idleAudioSystem, pendingSeeks := [], djTalksTriggered := 0 }

/-- The fields of the stored state of the current station that a commit at
clock `now` writes from the live state `a`. -/
def Committed (a : App) (now : Int) (st : BroadcastState) : Prop :=
  st.currentTrackIndex = a.playlistIndex ∧
  st.trackPositionSeconds = a.audioSystem.mainAudio.currentTime ∧
  st.lastLeftTime = some now ∧
  st.playlist = a.playlist ∧
  st.playlistLoaded = true ∧
  st.djTalkCounter = a.djTalkCounter


/-- Station `S1` on air: track 1 of three at 80 s, one song since the announcer
last spoke; `S1` has been visited before, `S2` never. -/
def appPlayingS1 : App :=
  { currentStation := some stationS1, currentStations := [stationS1, stationS2],
    playlist := tracksS1 3, playlistIndex := 1, isPlaying := true, djTalkCounter := 1,
    lastDJTalkType := none, radioPowerOn := true, seekToPosition := none,
    songStartedEarly := false,
    stationStates := fun k =>
      if k = "S1" then some (visitedState 0 0 (tracksS1 3) 1000)
      else if k = "S2" then some (freshState 3 45 0) else none,
    audioSystem :=
      { idleAudioSystem with
        mainAudio := { idleAudio with src := some "s1-track-1", currentTime := 80, paused := false }
        isPlaying := true },
    pendingSeeks := [], djTalksTriggered := 0 }

/-- The index normalisation that opens `playCurrentTrack` and
`playNextTrackEarly`: an index at or past the end of a playlist of length `n`
becomes 0. -/
def normalIndex (n idx : Nat) : Nat := if n ≤ idx then 0 else idx

/-- Station `S1` powered off at clock 5000 while on air (track 1 at 80 s), one
periodic tick later. -/
def appPoweredOffS1 : App := broadcastTick (toggleRadioPower 5000 appPlayingS1)

/-- Station `S1` on its last track (index 2 of three); the track ends at clock
4000, the announcer is due and starts to talk, and the radio is powered off at
clock 5000 while the announcer talks. -/
def appPoweredOffDuringTalk : App :=
  toggleRadioPower 5000
    (onTrackEnd DJ_TALK_CONFIG 0 (BanterResponse.withAudio "blob:announcer") 4000
      { appPlayingS1 with playlistIndex := 2 })

/-- The application after `j` consecutive track ends with no other event in
between: the `i`-th track end draws `rs i`, is answered `responses i` should the
announcer be asked, and reads the clock `nows i`. -/
def afterTrackEnds (cfg : DJTalkConfig) (rs : Nat → ℚ) (responses : Nat → BanterResponse)
    (nows : Nat → Int) (a : App) : Nat → App
  | 0 => a
  | j + 1 => onTrackEnd cfg (rs j) (responses j) (nows j) (afterTrackEnds cfg rs responses nows a j)

/-! ## Second part of the model: announcer end, early-start check, fallback,
seek attempts, in-flight banter requests, volume fade -/

/-- Method `AudioSystem.handleDJEnd()` with the `onDJEnd` callback that `init`
wires to the application. The call `duckMainAudio(false)` only schedules the
animated fade back to the base volume (`fadeVolumeAt`), which runs on later
animation frames and is not part of this step. The method does not touch the
announcer element: that the browser has paused it before `ended` fires is
`announcerPlaybackEnds`. -/
def handleDJEnd (a : App) : App := onDJEnd a

/-- What the browser does to the announcer element when its playback reaches
the end, before it fires `ended`: the position is the duration and the element
is paused. -/
def announcerPlaybackEnds (a : App) : App :=
  { a with
    audioSystem :=
      { a.audioSystem with
        djAudio :=
          { a.audioSystem.djAudio with
            paused := true
            currentTime := a.audioSystem.djAudio.duration.getD a.audioSystem.djAudio.currentTime } } }

/-- The `ended` event of the announcer element: the browser's own steps, then
the `onended` handler of `playDJ`, which calls `handleDJEnd`. -/
def announcerEnded (a : App) : App := handleDJEnd (announcerPlaybackEnds a)

/-- Method `AudioSystem.checkEarlySongStart()` with the `onEarlySongStart`
callback that `init` wires to the application. An unknown duration (`NaN`) is
`none`. The boolean tells whether the callback was invoked. -/
def checkEarlySongStart (a : App) : App × Bool :=
  if a.audioSystem.djEarlySongStarted then (a, false) else
  match a.audioSystem.djAudio.duration with
  | none => (a, false)
  | some duration =>
    let currentTime := a.audioSystem.djAudio.currentTime
    let remaining := duration - currentTime
    if 0 < duration ∧ remaining ≤ 4 ∧ 0 < remaining then
      (onEarlySongStart
        { a with audioSystem := { a.audioSystem with djEarlySongStarted := true } }, true)
    else (a, false)

/-- A `timeupdate` event of the announcer element: the element reports
`duration` and `currentTime`, then the listener `checkEarlySongStart` runs. -/
def djTimeUpdate (duration : Option ℚ) (currentTime : ℚ) (a : App) : App × Bool :=
  checkEarlySongStart
    { a with
      audioSystem :=
        { a.audioSystem with
          djAudio := { a.audioSystem.djAudio with duration := duration, currentTime := currentTime } } }

/-- A sequence of `timeupdate` events of the announcer element, oldest first:
the final state and the events at which the `onEarlySongStart` callback was
invoked. -/
def djTimeUpdates : List (Option ℚ × ℚ) → App → App × List (Option ℚ × ℚ)
  | [], a => (a, [])
  | e :: es, a =>
    let r := djTimeUpdate e.1 e.2 a
    let rest := djTimeUpdates es r.1
    (rest.1, if r.2 then e :: rest.2 else rest.2)

/-- The table `CONFIG.WEATHER_REPORTS` of `config.js`. -/
def WEATHER_REPORTS (decade : String) : Option (List String) :=
  if decade = "70s" then
    some ["Groovy weather out there, baby! Perfect for roller disco!",
      "It's hotter than a disco ball under the lights!",
      "Funky fresh temperatures, ideal for cruising in your van!",
      "Far out forecast - sunny with a chance of boogie!"]
  else if decade = "80s" then
    some ["Totally tubular weather! Grab your Walkman and hit the beach!",
      "Like, totally gnarly conditions for skateboarding!",
      "Radical temps outside - perfect for mall hopping!",
      "The forecast is most excellent, dude!"]
  else if decade = "90s" then
    some ["Weather's all that and a bag of chips today!",
      "It's da bomb outside - perfect for rollerblading!",
      "Talk to the hand if you don't like this weather!",
      "Whatever, the weather's actually pretty cool today!"]
  else none

/-- The list `fallbackTexts` of the `catch` block of `triggerDJTalk`, for
`this.selectedDecade = selectedDecade`. -/
def fallbackTexts (selectedDecade : Option String) : List String :=
  match selectedDecade.bind WEATHER_REPORTS with
  | some texts => texts
  | none => ["Great vibes coming your way! Stay tuned for more hits!"]

/-- Function `Utils.getRandomItem(array)` with `Math.random()` returning `r`. -/
def getRandomItem (r : ℚ) (array : List String) : Option String :=
  array.get? ⌊r * (array.length : ℚ)⌋.toNat

/-- The object `startBroadcast` hands to `Components.updateNowPlaying`. -/
structure NowPlayingInfo where
  title : String
  artist : String
  album : String
deriving DecidableEq, Repr

/-- The now-playing notice that `startBroadcast` itself reports: the fixed
object of its empty-playlist branch, and nothing on a non-empty playlist
(there `playCurrentTrack` reports the metadata of the track). -/
def startBroadcastNowPlaying (a : App) : Option NowPlayingInfo :=
  if a.playlist.length = 0 then
    some { title := "No tracks available", artist := "Please add music files", album := "" }
  else none

/-- The closure `attemptSeek` of `playCurrentTrack` with its captured
`seekPosition`; an unknown duration (`NaN`) is `none`. The boolean tells
whether the closure rescheduled itself (`setTimeout(attemptSeek, 200)`). -/
def attemptSeek (seekPosition : ℚ) (a : App) : App × Bool :=
  match a.audioSystem.mainAudio.duration with
  | none => (a, true)
  | some duration =>
    if 0 < duration then
      let seekTo := min seekPosition (duration - 5)
      if 0 < seekTo then
        ({ a with
            audioSystem :=
              { a.audioSystem with
                mainAudio := { a.audioSystem.mainAudio with currentTime := seekTo } } }, false)
      else (a, false)
    else (a, true)

/-- The timer of the oldest scheduled `attemptSeek` closure fires: the closure
runs and stays scheduled exactly when it rescheduled itself. -/
def seekTimerFires (a : App) : App :=
  match a.pendingSeeks with
  | [] => a
  | seekPosition :: rest =>
    let r := attemptSeek seekPosition { a with pendingSeeks := rest }
    if r.2 then { r.1 with pendingSeeks := r.1.pendingSeeks ++ [seekPosition] } else r.1

/-- Number of times `attemptSeek` reschedules itself during the first `n`
firings of the seek timer, when nothing else happens in between. -/
def retriesWithin : Nat → App → Nat
  | 0, _ => 0
  | n + 1, a =>
    match a.pendingSeeks with
    | [] => 0
    | seekPosition :: rest =>
      (if (attemptSeek seekPosition { a with pendingSeeks := rest }).2 then 1 else 0)
        + retriesWithin n (seekTimerFires a)

/-- Method `onTrackEnd()` up to the point where `triggerDJTalk` awaits the
banter request: the state in which the request is in flight, or `none` when no
request is issued (not playing, announcer not due, or no current station). -/
def onTrackEndUntilRequest (cfg : DJTalkConfig) (r : ℚ) (now : Int) (a : App) : Option App :=
  if !a.isPlaying then none else
  let a1 := onTrackEndAdvance now a
  if shouldDJTalk cfg r a1 then
    let a2 := { a1 with djTalksTriggered := a1.djTalksTriggered + 1 }
    match a2.currentStation with
    | none => none
    | some _ => some (triggerDJTalkRequest "track_transition" a2)
  else none

/-- The answer of the banter request arrives: the rest of `triggerDJTalk` runs,
then `onTrackEnd` resumes with `this.djTalkCounter = 0`. -/
def banterResponseArrives (response : BanterResponse) (a : App) : App :=
  { triggerDJTalkResponse response a with djTalkCounter := 0 }

/-! ## JavaScript numbers

The arithmetic of `fadeVolume` is embedded with its rounding: a JavaScript
number is an IEEE 754 double, and every arithmetic operation returns the double
nearest to the exact result (ties to even). Doubles are taken as the rationals
they denote; overflow to `Infinity` (magnitudes from `2^1024` on) is outside
this embedding, and `-0` is `0`. -/

/-- Exponent of the spacing of the doubles at the magnitude of `x`: `e - 52`
for `2^e ≤ |x| < 2^(e+1)`, and `-1074` in the subnormal range. -/
def doubleSpacingExp (x : ℚ) : Int := max (Int.log 2 |x|) (-1022) - 52

/-- The integer nearest to `y`, the even one of the two on a tie. -/
def roundHalfEven (y : ℚ) : Int :=
  if y - ⌊y⌋ < 1 / 2 then ⌊y⌋
  else if 1 / 2 < y - ⌊y⌋ then ⌊y⌋ + 1
  else if ⌊y⌋ % 2 = 0 then ⌊y⌋ else ⌊y⌋ + 1

/-- The double nearest to `x` (round to nearest, ties to even). -/
def roundDouble (x : ℚ) : ℚ :=
  (roundHalfEven (x / 2 ^ doubleSpacingExp x) : ℚ) * 2 ^ doubleSpacingExp x

/-- JavaScript `a + b` on numbers. -/
def jsAdd (a b : ℚ) : ℚ := roundDouble (a + b)

/-- JavaScript `a - b` on numbers. -/
def jsSub (a b : ℚ) : ℚ := roundDouble (a - b)

/-- JavaScript `a * b` on numbers. -/
def jsMul (a b : ℚ) : ℚ := roundDouble (a * b)

/-- JavaScript `a / b` on numbers, for `b ≠ 0`. -/
def jsDiv (a b : ℚ) : ℚ := roundDouble (a / b)

/-- A correctly rounded `Math.pow(x, 2)`. -/
def squareRounded (x : ℚ) : ℚ := roundDouble (x * x)

/-- The value `progress` of `fadeVolume`, `elapsed` milliseconds after the
start of a fade that lasts `duration` milliseconds. -/
def fadeProgress (elapsed duration : ℚ) : ℚ := min (jsDiv elapsed duration) 1

/-- The value `eased` of `fadeVolume` at `progress`, operation by operation;
`pow` is `Math.pow(x, 2)`, which the language leaves implementation-approximated. -/
def fadeEased (pow : ℚ → ℚ) (progress : ℚ) : ℚ :=
  if progress < 1 / 2 then jsMul (jsMul 2 progress) progress
  else jsSub 1 (jsDiv (pow (jsAdd (jsMul (-2) progress) 2)) 2)

/-- The volume `fadeVolume(audio, from, to, duration)` assigns at `progress`:
`from + (diff * eased)` with `diff = to - from`. -/
def fadeVolumeAt (pow : ℚ → ℚ) (fromVolume toVolume progress : ℚ) : ℚ :=
  jsAdd fromVolume (jsMul (jsSub toVolume fromVolume) (fadeEased pow progress))

/-- The target volume of `duckMainAudio(duck)` for base volume `volume`; the
constant `0.15` is the double nearest to 15/100. -/
def duckTargetVolume (duck : Bool) (volume : ℚ) : ℚ :=
  if duck then jsMul volume (roundDouble musicDuckVolume) else volume

/-- Station `S1` right after a rejoin: `playCurrentTrack` has started track 1
with the seek position 55 s pending, and the duration of the new resource is
not known yet. -/
def appSeekPending : App := playCurrentTrack { appPlayingS1 with seekToPosition := some 55 }

/-- A playlist of `n` tracks of station `S2`, named after their index. -/
def tracksS2 (n : Nat) : List Track :=
  (List.range n).map (fun i => { stationId := "S2", filename := toString i ++ ".mp3" })

/-- Station `S1` on air (track 1 of three); the track has ended at clock 4000
with the announcer due, and the banter request is in flight. -/
def appRequestInFlight : App :=
  triggerDJTalkRequest "track_transition"
    { onTrackEndAdvance 4000 appPlayingS1 with djTalksTriggered := 1 }

/-- The listener tunes from `S1` to `S2` (first visit, four tracks) while the
banter request for `S1` is in flight. -/
def appSwitchedDuringRequest : App :=
  tuneToRetroStation "S2" 5000 5800 (some (tracksS2 4)) appRequestInFlight

/-- The listener powers the radio off while the banter request for `S1` is in
flight. -/
def appPoweredOffDuringRequest : App := toggleRadioPower 5000 appRequestInFlight

/-! ## Third part of the model: volume, initial states, banter context,
track names, music routes -/

/-- Method `AudioSystem.setVolume(value)`: the assignments it makes, in order.
The element fields hold the values the method assigns. -/
def AudioSystem.setVolume (value : ℚ) (s : AudioSystem) : AudioSystem :=
  let s1 := { s with volume := max 0 (min 1 value) }
  if !s1.isMuted then
    { s1 with
      mainAudio := { s1.mainAudio with volume := s1.volume }
      djAudio := { s1.djAudio with volume := s1.volume * djVolumeBoost } }
  else s1

/-- Method `AudioSystem.toggleMute()`: the new state and the returned flag. -/
def AudioSystem.toggleMute (s : AudioSystem) : AudioSystem × Bool :=
  let s1 := { s with isMuted := !s.isMuted }
  ({ s1 with
      mainAudio := { s1.mainAudio with muted := s1.isMuted }
      djAudio := { s1.djAudio with muted := s1.isMuted } }, s1.isMuted)

/-- Constant `CONFIG.AUDIO_CONFIG.defaultVolume`. -/
abbrev defaultVolume : ℚ := 3 / 4

/-- Method `AudioSystem.init()` for the volumes: `savedVolume` is the stored
`radioVolume`, `none` when nothing is stored (then `Utils.storage.get` returns
`this.volume`). -/
def AudioSystem.init (savedVolume : Option ℚ) (s : AudioSystem) : AudioSystem :=
  let s1 :=
    { s with
      mainAudio := { s.mainAudio with volume := s.volume }
      djAudio := { s.djAudio with volume := s.volume * djVolumeBoost } }
  s1.setVolume (savedVolume.getD s1.volume)

/-- The range an HTML media element accepts for its `volume` attribute; an
assignment of a value outside it throws `IndexSizeError`. -/
def validMediaVolume (v : ℚ) : Prop := 0 ≤ v ∧ v ≤ 1

/-- The station ids of `initializeStationStates`, in the order of its `forEach`. -/
def stationIds : List String :=
  ["70s-1", "70s-2", "70s-3", "70s-4",
   "80s-1", "80s-2", "80s-3", "80s-4",
   "90s-1", "90s-2", "90s-3", "90s-4"]

/-- The value `randomOffset` of `initializeStationStates` for the draw `r`. -/
def randomOffset (r : ℚ) : Int := ⌊r * 7200⌋

/-- The state that one round of the `forEach` of `initializeStationStates`
stores: `r` is the draw for the offset, `rCounter` the draw for the announcer
counter, `now` the clock. The fields `lastLeftTime` and `powerOffTime` are
absent from the new object. -/
def initialBroadcastState (r rCounter : ℚ) (now : Int) : BroadcastState :=
  let trackIndex : Int := ⌊(randomOffset r : ℚ) / AVG_TRACK_LENGTH⌋
  let trackPosition : ℚ := jsRem (randomOffset r : ℚ) AVG_TRACK_LENGTH
  { currentTrackIndex := trackIndex.toNat
    trackPositionSeconds := trackPosition
    broadcastStartTime := now - randomOffset r * 1000
    playlist := []
    playlistLoaded := false
    djTalkActive := false
    djTalkPosition := 0
    djTalkCounter := (⌊rCounter * 3⌋ : Int).toNat
    lastLeftTime := none
    powerOffTime := none }

/-- Method `initializeStationStates()`: round `k` of the `forEach` draws
`draws k` and `counterDraws k` and reads the clock `nows k`. -/
def initializeStationStates (draws counterDraws : Nat → ℚ) (nows : Nat → Int) (a : App) : App :=
  stationIds.enum.foldl
    (fun acc p =>
      { acc with
        stationStates := setStationState acc.stationStates p.2
          (initialBroadcastState (draws p.1) (counterDraws p.1) (nows p.1)) })
    a

/-- JavaScript `list[i]` for an integer index: `undefined` outside the list. -/
def jsIndex (l : List Track) (i : Int) : Option Track :=
  if i < 0 then none else l.get? i.toNat

/-- The tracks `prevTrack` and `nextTrack` that `triggerDJTalk` looks up in the
playlist; `none` is `undefined`. -/
def banterContextTracks (a : App) : Option Track × Option Track :=
  let prevIndex : Int :=
    if 0 < a.playlistIndex then (a.playlistIndex : Int) - 1 else (a.playlist.length : Int) - 1
  (jsIndex a.playlist prevIndex, jsIndex a.playlist (a.playlistIndex : Int))

/-- The name that `triggerDJTalk` builds from a looked-up track: title, " by ",
artist, and the empty string for `undefined`; `info` is the answer of
`getTrackInfo`. -/
def trackDisplayName (info : Track → NowPlayingInfo) (t : Option Track) : String :=
  match t with
  | some track => (info track).title ++ " by " ++ (info track).artist
  | none => ""

/-- The pair `(previousTrack, nextTrack)` that `triggerDJTalk` sends to the
banter generator. -/
def banterContext (info : Track → NowPlayingInfo) (a : App) : String × String :=
  (trackDisplayName info (banterContextTracks a).1, trackDisplayName info (banterContextTracks a).2)

/-- Station `S1` on air on track 0 of three, 240 s into it. -/
def appLongTrackS1 : App :=
  { appPlayingS1 with
    playlistIndex := 0
    audioSystem :=
      { appPlayingS1.audioSystem with
        mainAudio := { appPlayingS1.audioSystem.mainAudio with currentTime := 240 } } }

/-- Station `S1` on air on its last track (index 2 of three). -/
def appLastTrackS1 : App := { appPlayingS1 with playlistIndex := 2 }

/-! ## Music routes of the server -/

/-- The pieces of a character list between occurrences of `sep`, as
`String.prototype.split(sep)` yields them. -/
def splitChars (sep : Char) : List Char → List (List Char)
  | [] => [[]]
  | c :: cs =>
    if c = sep then [] :: splitChars sep cs
    else
      match splitChars sep cs with
      | [] => [[c]]
      | seg :: rest => (c :: seg) :: rest

/-- The segments of a path string between slashes. -/
def pathSegments (p : String) : List String :=
  (splitChars '/' p.data).map String.mk

/-- Normalisation of the segments of an absolute POSIX path, as `path.join`
does it: empty and `.` segments are dropped, `..` removes the segment before
it (and nothing at the root). -/
def normalizeSegments (segs : List String) : List String :=
  segs.foldl
    (fun acc s =>
      if s = "" ∨ s = "." then acc
      else if s = ".." then acc.dropLast
      else acc ++ [s])
    []

/-- Function `path.join(base, ...parts)` on an absolute `base` given by its
segments: the result, by its segments. -/
def pathJoin (base : List String) (parts : List String) : List String :=
  normalizeSegments (base ++ parts.flatMap pathSegments)

/-- Constant `MUSIC_DIR` of `musicRoutes.js`; `dirname` holds the segments of
`__dirname`. -/
def MUSIC_DIR (dirname : List String) : List String :=
  pathJoin dirname ["../../music"]

/-- Constant `STATION_FOLDERS` of `musicRoutes.js`, as a lookup. -/
def STATION_FOLDERS (stationId : String) : Option String :=
  if stationId = "70s-1" then some "disco-fever"
  else if stationId = "70s-2" then some "classic-rock"
  else if stationId = "70s-3" then some "soul-train"
  else if stationId = "70s-4" then some "punk-pioneers"
  else if stationId = "80s-1" then some "synthwave-central"
  else if stationId = "80s-2" then some "pop-explosion"
  else if stationId = "80s-3" then some "rock-arena"
  else if stationId = "80s-4" then some "new-wave-paradise"
  else if stationId = "90s-1" then some "grunge-station"
  else if stationId = "90s-2" then some "hip-hop-headquarters"
  else if stationId = "90s-3" then some "boy-band-boulevard"
  else if stationId = "90s-4" then some "britpop-beats"
  else none

/-- The value `decade` of both routes: `stationId.split('-')[0]`. -/
def decadeOf (stationId : String) : String :=
  String.mk ((splitChars '-' stationId.data).headD [])

/-- The value `filePath` that the routes `/stream/:stationId/:filename` and
`/track-info/:stationId/:filename` check and open; `none` is the 404 answer for
an unknown station id. -/
def routeFilePath (dirname : List String) (stationId filename : String) : Option (List String) :=
  match STATION_FOLDERS stationId with
  | none => none
  | some stationFolder => some (pathJoin (MUSIC_DIR dirname) [decadeOf stationId, stationFolder, filename])

/-- The folder of a station, `MUSIC_DIR/<decade>/<stationFolder>`. -/
def stationFolderPath (dirname : List String) (stationId : String) : Option (List String) :=
  match STATION_FOLDERS stationId with
  | none => none
  | some stationFolder => some (pathJoin (MUSIC_DIR dirname) [decadeOf stationId, stationFolder])

/-! ## Track names from filenames

Strings are taken as lists of Unicode characters. The regular expressions of
`parseTrackFilename` are embedded piece by piece, each piece with the order in
which the backtracking matcher tries its alternatives. -/

/-- The result object of `parseTrackFilename`. -/
structure TrackName where
  title : String
  artist : String
deriving DecidableEq, Repr

/-- Line terminators: the characters that `.` does not match. -/
def isLineTerminator (c : Char) : Bool :=
  c.toNat = 10 || c.toNat = 13 || c.toNat = 8232 || c.toNat = 8233

/-- White space of JavaScript: the characters that `\s` matches and that
`trim` removes (white space and line terminators). -/
def isWhitespace (c : Char) : Bool :=
  [9, 10, 11, 12, 13, 32, 160, 5760, 8232, 8233, 8239, 8287, 12288, 65279].contains c.toNat
    || (decide (8192 ≤ c.toNat) && decide (c.toNat ≤ 8202))

/-- Digits: the characters that `\d` matches. -/
def isDigit (c : Char) : Bool := decide (48 ≤ c.toNat) && decide (c.toNat ≤ 57)

/-- Method `String.prototype.trim` on a character list. -/
def trim (s : List Char) : List Char :=
  ((s.dropWhile isWhitespace).reverse.dropWhile isWhitespace).reverse

/-- Whether the four characters `e` match `\.(mp3|wav|ogg|m4a)` under the `i`
flag. -/
def isAudioExtension (e : List Char) : Bool :=
  [".mp3".data, ".wav".data, ".ogg".data, ".m4a".data].contains (e.map Char.toLower)

/-- The replacement `filename.replace(/\.(mp3|wav|ogg|m4a)$/i, '')`: the match
can only be the last four characters. -/
def stripAudioExtension (s : List Char) : List Char :=
  if 4 ≤ s.length ∧ isAudioExtension (s.drop (s.length - 4)) = true then s.take (s.length - 4)
  else s

/-- The end `(.+)$` of all three patterns on the rest `s` of the input: the
group is the whole rest, which must be non-empty and free of line terminators. -/
def matchRest (s : List Char) : Option (List Char) :=
  if s ≠ [] ∧ s.all (fun c => !isLineTerminator c) = true then some s else none

/-- A greedy `\s*` followed by the continuation `k`: the longest run of white
space is tried first, then, on failure of what follows, one character less. -/
def greedySpaces {α : Type} (k : List Char → Option α) : List Char → Option α
  | [] => k []
  | c :: cs =>
    if isWhitespace c then
      match greedySpaces k cs with
      | some r => some r
      | none => k (c :: cs)
    else k (c :: cs)

/-- The part `\s*SEP\s*(.+)$` of the first two patterns on the input left
after group 1; the result is group 2. -/
def matchSeparator (sep : Char) (s : List Char) : Option (List Char) :=
  greedySpaces
    (fun s1 =>
      match s1 with
      | c :: s2 => if c = sep then greedySpaces matchRest s2 else none
      | [] => none)
    s

/-- The pattern `^(.+?)\s*SEP\s*(.+)$` with the lazy group 1 already holding
`g1` and the input `s` left: group 1 takes one more character and the rest of
the pattern is tried, before group 1 grows further. The result is groups 1
and 2. -/
def matchSplit (sep : Char) (g1 : List Char) : List Char → Option (List Char × List Char)
  | [] => none
  | c :: cs =>
    if isLineTerminator c then none
    else
      match matchSeparator sep cs with
      | some g2 => some (g1 ++ [c], g2)
      | none => matchSplit sep (g1 ++ [c]) cs

/-- The greedy tail `\d*` of group 1 of the third pattern, holding `g1`,
followed by `\s*(.+)$`: the longest run of digits is tried first. -/
def greedyDigits (g1 : List Char) : List Char → Option (List Char × List Char)
  | [] => (greedySpaces matchRest []).map (fun g2 => (g1, g2))
  | c :: cs =>
    if isDigit c then
      match greedyDigits (g1 ++ [c]) cs with
      | some r => some r
      | none => (greedySpaces matchRest (c :: cs)).map (fun g2 => (g1, g2))
    else (greedySpaces matchRest (c :: cs)).map (fun g2 => (g1, g2))

/-- The pattern `^(\d+)\s*(.+)$`; the result is groups 1 and 2. -/
def matchTrackNumber (s : List Char) : Option (List Char × List Char) :=
  match s with
  | c :: cs => if isDigit c then greedyDigits [c] cs else none
  | [] => none

/-- The en dash of the second pattern. -/
def enDash : Char := Char.ofNat 8211

/-- Function `Utils.parseTrackFilename(filename)`. -/
def parseTrackFilename (filename : String) : TrackName :=
  let name := stripAudioExtension filename.data
  match matchSplit '-' [] name with
  | some m => { title := String.mk (trim m.1), artist := String.mk (trim m.2) }
  | none =>
    match matchSplit enDash [] name with
    | some m => { title := String.mk (trim m.1), artist := String.mk (trim m.2) }
    | none =>
      match matchTrackNumber name with
      | some m => { title := String.mk (trim m.2), artist := "Unknown Artist" }
      | none => { title := String.mk name, artist := "Unknown Artist" }

/-! ## Lemmas on the wrap loop -/

theorem wrapStep_mod {len i : Nat} (hi : i < len) : wrapStep len i = (i + 1) % len := by
  unfold wrapStep
  split
  · have : i + 1 = len := by omega
    rw [this, Nat.mod_self]
  · rw [Nat.mod_eq_of_lt (by omega)]

theorem wrapStep_lt {len i : Nat} (hlen : 0 < len) : wrapStep len i < len := by
  unfold wrapStep
  split <;> omega

theorem wrapStep_iterate_mod {len : Nat} (k i : Nat) (hi : i < len) :
    (wrapStep len)^[k] i = (i + k) % len := by
  induction k generalizing i with
  | zero => simp [Nat.mod_eq_of_lt hi]
  | succ k ih =>
    rw [Function.iterate_succ_apply, ih _ (wrapStep_lt (by omega)), wrapStep_mod hi]
    rw [Nat.add_mod, Nat.mod_mod, ← Nat.add_mod]
    congr 1
    omega

/-- The wrap loop run from position `p`, index `i` and counter `c` stops after
the least `k` with `p - 210 k ≤ 210`. -/
theorem wrapLoop_eq (len : Nat) (k : Nat) :
    ∀ (p : ℚ) (i c : Nat), p - 210 * k ≤ 210 → (∀ j : Nat, j < k → 210 < p - 210 * j) →
      wrapLoop len p i c = (p - 210 * k, (wrapStep len)^[k] i, c + k) := by
  induction k with
  | zero =>
    intro p i c h _
    rw [wrapLoop]
    have : ¬ (AVG_TRACK_LENGTH < p) := by
      simp only [AVG_TRACK_LENGTH]
      push_cast at h
      linarith
    simp [this]
  | succ k ih =>
    intro p i c h hj
    rw [wrapLoop]
    have h0 : AVG_TRACK_LENGTH < p := by
      have := hj 0 (by omega)
      simp only [AVG_TRACK_LENGTH]
      push_cast at this
      linarith
    rw [if_pos h0]
    have := ih (p - AVG_TRACK_LENGTH) (wrapStep len i) (c + 1)
      (by simp only [AVG_TRACK_LENGTH]; push_cast at h ⊢; linarith)
      (by
        intro j hjk
        have := hj (j + 1) (by omega)
        simp only [AVG_TRACK_LENGTH]
        push_cast at this ⊢
        linarith)
    unfold wrapStep at this
    rw [this, Function.iterate_succ_apply]
    simp only [AVG_TRACK_LENGTH, wrapStep]
    push_cast
    refine Prod.ext ?_ (Prod.ext rfl ?_)
    · simp only; ring
    · simp only; omega

theorem wrapCount_le (p : ℚ) : p - 210 * (wrapCount p : ℚ) ≤ 210 := by
  unfold wrapCount
  have h1 : p / 210 ≤ (⌈p / 210⌉ : ℚ) := Int.le_ceil _
  have h2 : ((⌈p / 210⌉ - 1 : ℤ) : ℚ) ≤ (((⌈p / 210⌉ - 1).toNat : ℤ) : ℚ) := by
    exact_mod_cast Int.self_le_toNat _
  have h3 : (((⌈p / 210⌉ - 1).toNat : ℤ) : ℚ) = (((⌈p / 210⌉ - 1).toNat : ℕ) : ℚ) := by
    norm_cast
  rw [h3] at h2
  push_cast at h2
  have h4 : p ≤ 210 * (⌈p / 210⌉ : ℚ) := by
    have := mul_le_mul_of_nonneg_left h1 (by norm_num : (0 : ℚ) ≤ 210)
    rwa [mul_div_cancel₀ p (by norm_num : (210 : ℚ) ≠ 0)] at this
  linarith

theorem wrapCount_lt (p : ℚ) (j : Nat) (hj : j < wrapCount p) : 210 < p - 210 * (j : ℚ) := by
  unfold wrapCount at hj
  have h1 : (j : ℤ) < ⌈p / 210⌉ - 1 := by omega
  have h2 : (j : ℤ) + 1 < ⌈p / 210⌉ := by omega
  have h3 : (((j : ℤ) + 1 : ℤ) : ℚ) < p / 210 := Int.lt_ceil.mp h2
  push_cast at h3
  have h4 : ((j : ℚ) + 1) * 210 < p := by
    rwa [lt_div_iff₀ (by norm_num : (0 : ℚ) < 210)] at h3
  linarith

/-- The least `k` with `p - 210 k ≤ 210` is unique. -/
theorem wrapCount_unique (p : ℚ) (k : Nat) (h : p - 210 * (k : ℚ) ≤ 210)
    (hj : ∀ j : Nat, j < k → 210 < p - 210 * (j : ℚ)) : k = wrapCount p := by
  rcases Nat.lt_trichotomy k (wrapCount p) with hlt | heq | hgt
  · have := wrapCount_lt p k hlt
    linarith
  · exact heq
  · have := hj (wrapCount p) hgt
    have := wrapCount_le p
    linarith

/-- Outcome of the wrap loop in closed form. -/
theorem wrapLoop_closed (len : Nat) (p : ℚ) (i : Nat) :
    wrapLoop len p i 0 = (p - 210 * (wrapCount p : ℚ), (wrapStep len)^[wrapCount p] i, wrapCount p) := by
  have h := wrapLoop_eq len (wrapCount p) p i 0 (wrapCount_le p) (wrapCount_lt p)
  simpa using h

/-- What `restoreStationState` does on a loaded, non-empty stored state. -/
theorem restoreStationState_loaded (a : App) (stationId : String) (now : Int)
    (state : BroadcastState) (hs : a.stationStates stationId = some state)
    (hl : state.playlistLoaded = true) (hn : 0 < state.playlist.length) :
    restoreStationState stationId now a =
      ({ a with
          playlist := state.playlist
          playlistIndex :=
            (wrapLoop state.playlist.length (projectedPosition state now)
              state.currentTrackIndex 0).2.1
          djTalkCounter := state.djTalkCounter
          seekToPosition :=
            some (min (wrapLoop state.playlist.length (projectedPosition state now)
              state.currentTrackIndex 0).1 180) }, true) := by
  unfold restoreStationState
  rw [hs]
  simp [hl, hn]

/-! ## Restoring a station: the wrap loop, the seek position, idempotence -/

/-- C1 (amended). For a stored state with a loaded playlist of length `n` and a
stored track index `i < n`, `restoreStationState` subtracts 210 from the
projected position `p` exactly `k` times, where `k` is the least number with
`p - 210 k ≤ 210`, sets `playlistIndex` to `(i + k) mod n` and the seek position
to `min (p - 210 k) 180`; `p = 525` gives `k = 2` and remainder 105, and
`i = 3`, `p = 545`, `n > 5` gives index 5 and seek position 125. -/
theorem C1_restore_wraps_index (a : App) (stationId : String) (now : Int)
    (state : BroadcastState) (hs : a.stationStates stationId = some state)
    (hl : state.playlistLoaded = true)
    (hi : state.currentTrackIndex < state.playlist.length) :
    let p := projectedPosition state now
    let n := state.playlist.length
    let k := (wrapLoop n p state.currentTrackIndex 0).2.2
    let after := (restoreStationState stationId now a).1
    (wrapLoop n p state.currentTrackIndex 0).1 = p - 210 * (k : ℚ) ∧
    p - 210 * (k : ℚ) ≤ 210 ∧
    (∀ j : Nat, j < k → 210 < p - 210 * (j : ℚ)) ∧
    after.playlistIndex = (state.currentTrackIndex + k) % n ∧
    after.seekToPosition = some (min (p - 210 * (k : ℚ)) 180) ∧
    (p = 525 → k = 2 ∧ p - 210 * (k : ℚ) = 105) ∧
    (p = 545 → state.currentTrackIndex = 3 → 5 < n →
      after.playlistIndex = 5 ∧ after.seekToPosition = some 125) := by
  intro p n k after
  have hn : 0 < state.playlist.length := by omega
  have hr := restoreStationState_loaded a stationId now state hs hl hn
  have hc := wrapLoop_closed n p state.currentTrackIndex
  have hk : k = wrapCount p := by simp only [k, hc]
  have hidx : after.playlistIndex = (state.currentTrackIndex + k) % n := by
    simp only [after, hr, hk]
    show (wrapLoop n p state.currentTrackIndex 0).2.1 = _
    rw [hc]
    exact wrapStep_iterate_mod _ _ hi
  have hseek : after.seekToPosition = some (min (p - 210 * (k : ℚ)) 180) := by
    simp only [after, hr, hk]
    show some (min (wrapLoop n p state.currentTrackIndex 0).1 180) = _
    rw [hc]
  refine ⟨by rw [hk, hc], hk ▸ wrapCount_le p, fun j hj => wrapCount_lt p j (hk ▸ hj),
    hidx, hseek, ?_, ?_⟩
  · intro hp
    have h2 : 2 = wrapCount p :=
      wrapCount_unique p 2 (by rw [hp]; norm_num)
        (by intro j hj; rw [hp]; interval_cases j <;> norm_num)
    rw [hk, ← h2, hp]
    norm_num
  · intro hp h3 h5
    have h2 : 2 = wrapCount p :=
      wrapCount_unique p 2 (by rw [hp]; norm_num)
        (by intro j hj; rw [hp]; interval_cases j <;> norm_num)
    rw [hidx, hseek, hk, ← h2, hp, h3]
    refine ⟨Nat.mod_eq_of_lt (by omega), ?_⟩
    norm_num

/-- The long-absence scenario: station `S1` left at `T0 = 1000` on track 3 at
45 s with six tracks and re-tuned 500 s later resumes on track 5 at 125 s. -/
theorem C1_restore_wraps_index_witness :
    (restoreStationState "S1" 501000 (appWithS1 (visitedState 3 45 (tracksS1 6) 1000))).1.playlistIndex = 5 ∧
    (restoreStationState "S1" 501000 (appWithS1 (visitedState 3 45 (tracksS1 6) 1000))).1.seekToPosition
      = some 125 :=
  (C1_restore_wraps_index (appWithS1 (visitedState 3 45 (tracksS1 6) 1000)) "S1" 501000
    (visitedState 3 45 (tracksS1 6) 1000) rfl rfl (by decide)).2.2.2.2.2.2
    (by norm_num [projectedPosition, visitedState, orNow]) rfl (by decide)

/-- C1 (as stated) fails when the stored index equals the playlist length: with
two tracks, stored index 2 and projected position 250 the loop runs once
(`k = 1`) and `restoreStationState` sets `playlistIndex` to 0, not to
`(2 + 1) mod 2 = 1`. -/
theorem C1_counterexample :
    projectedPosition (visitedState 2 0 (tracksS1 2) 1000) 251000 = 250 ∧
    (wrapLoop 2 250 2 0).2.2 = 1 ∧
    (restoreStationState "S1" 251000 (appWithS1 (visitedState 2 0 (tracksS1 2) 1000))).1.playlistIndex = 0 ∧
    (2 + (wrapLoop 2 250 2 0).2.2) % 2 = 1 := by
  have hp : projectedPosition (visitedState 2 0 (tracksS1 2) 1000) 251000 = 250 := by
    norm_num [projectedPosition, visitedState, orNow]
  have hw : wrapLoop 2 250 2 0 = (40, 0, 1) := by
    have := wrapLoop_eq 2 1 250 2 0 (by norm_num) (by intro j hj; interval_cases j; norm_num)
    rw [this]
    norm_num [wrapStep]
  refine ⟨hp, by rw [hw], ?_, by rw [hw]; rfl⟩
  rw [restoreStationState_loaded _ "S1" 251000 (visitedState 2 0 (tracksS1 2) 1000) rfl rfl
    (by decide)]
  show (wrapLoop (visitedState 2 0 (tracksS1 2) 1000).playlist.length
    (projectedPosition (visitedState 2 0 (tracksS1 2) 1000) 251000) 2 0).2.1 = 0
  rw [hp]
  show (wrapLoop 2 250 2 0).2.1 = 0
  rw [hw]

/-- The projected position when `lastLeftTime` holds a timestamp. -/
theorem projectedPosition_of_left (state : BroadcastState) (now t : Int)
    (ht : state.lastLeftTime = some t) (h0 : t ≠ 0) :
    projectedPosition state now = state.trackPositionSeconds + ((now - t : Int) : ℚ) / 1000 := by
  simp [projectedPosition, orNow, ht, h0]

/-- The wrap loop does nothing on a position that does not exceed 210. -/
theorem wrapLoop_no_wrap (len : Nat) (p : ℚ) (i c : Nat) (hp : p ≤ 210) :
    wrapLoop len p i c = (p, i, c) := by
  have := wrapLoop_eq len 0 p i c (by simpa using hp) (by intro j hj; omega)
  simpa using this

/-- C2 (amended). For a stored state with a loaded non-empty playlist, left at
`lastLeftTime = t`, and every clock value `now` such that
`p = trackPositionSeconds + (now - t)/1000` does not exceed 210,
`restoreStationState` keeps the stored track index and sets `seekToPosition` to
`min p 180`, which is exactly `p` whenever `p ≤ 180`. -/
theorem C2_restore_without_wrap (a : App) (stationId : String) (now t : Int)
    (state : BroadcastState) (hs : a.stationStates stationId = some state)
    (hl : state.playlistLoaded = true) (hn : 0 < state.playlist.length)
    (ht : state.lastLeftTime = some t) (h0 : t ≠ 0)
    (hp : state.trackPositionSeconds + ((now - t : Int) : ℚ) / 1000 ≤ 210) :
    (restoreStationState stationId now a).2 = true ∧
    (restoreStationState stationId now a).1.playlistIndex = state.currentTrackIndex ∧
    (restoreStationState stationId now a).1.seekToPosition
      = some (min (state.trackPositionSeconds + ((now - t : Int) : ℚ) / 1000) 180) ∧
    (state.trackPositionSeconds + ((now - t : Int) : ℚ) / 1000 ≤ 180 →
      (restoreStationState stationId now a).1.seekToPosition
        = some (state.trackPositionSeconds + ((now - t : Int) : ℚ) / 1000)) := by
  have hr := restoreStationState_loaded a stationId now state hs hl hn
  have hpp := projectedPosition_of_left state now t ht h0
  have hw := wrapLoop_no_wrap state.playlist.length (projectedPosition state now)
    state.currentTrackIndex 0 (by rw [hpp]; exact hp)
  rw [hr, hw, hpp]
  refine ⟨rfl, rfl, rfl, ?_⟩
  intro h180
  show some (min _ _) = _
  rw [min_eq_left h180]

/-- The first scenario after a visit: left at `T0 = 1000` on track 3 at 45 s,
re-tuned 10 s later, resumes on track 3 at 55 s. -/
theorem C2_restore_without_wrap_witness :
    (restoreStationState "S1" 11000 (appWithS1 (visitedState 3 45 (tracksS1 6) 1000))).1.playlistIndex = 3 ∧
    (restoreStationState "S1" 11000 (appWithS1 (visitedState 3 45 (tracksS1 6) 1000))).1.seekToPosition
      = some 55 := by
  have h := C2_restore_without_wrap (appWithS1 (visitedState 3 45 (tracksS1 6) 1000)) "S1" 11000
    1000 (visitedState 3 45 (tracksS1 6) 1000) rfl rfl (by decide) rfl (by decide)
    (by norm_num [visitedState])
  refine ⟨h.2.1, ?_⟩
  rw [h.2.2.2 (by norm_num [visitedState])]
  norm_num [visitedState]

/-- C2 (as stated) fails above 180 s: a station left at 200 s and re-tuned at
the same clock value has `p = 200 ≤ 210`, and `restoreStationState` sets
`seekToPosition` to 180, not to 200. -/
theorem C2_counterexample :
    (visitedState 3 200 (tracksS1 6) 1000).trackPositionSeconds
      + (((1000 : Int) - 1000 : Int) : ℚ) / 1000 = 200 ∧
    (restoreStationState "S1" 1000 (appWithS1 (visitedState 3 200 (tracksS1 6) 1000))).1.seekToPosition
      = some 180 ∧
    (restoreStationState "S1" 1000 (appWithS1 (visitedState 3 200 (tracksS1 6) 1000))).1.seekToPosition
      ≠ some 200 := by
  have hp : projectedPosition (visitedState 3 200 (tracksS1 6) 1000) 1000 = 200 := by
    norm_num [projectedPosition, visitedState, orNow]
  have h180 : (restoreStationState "S1" 1000
      (appWithS1 (visitedState 3 200 (tracksS1 6) 1000))).1.seekToPosition = some 180 := by
    rw [restoreStationState_loaded _ "S1" 1000 (visitedState 3 200 (tracksS1 6) 1000) rfl rfl
      (by decide), hp, wrapLoop_no_wrap _ _ _ _ (by norm_num)]
    show some (min (200 : ℚ) 180) = some 180
    norm_num
  refine ⟨by norm_num [visitedState], h180, ?_⟩
  rw [h180]
  norm_num

/-- C4. For every application state, station and fixed clock value, a second call
of `restoreStationState` returns what the first call returned and leaves the
same application state (same `playlistIndex`, `seekToPosition`,
`djTalkCounter`); neither call changes any stored broadcast state; and when
the call restores, the three values depend on the stored state of the station
and on `now` only. -/
theorem C4_restore_idempotent (a : App) (stationId : String) (now : Int) :
    restoreStationState stationId now (restoreStationState stationId now a).1
      = restoreStationState stationId now a ∧
    (restoreStationState stationId now a).1.stationStates = a.stationStates ∧
    (∀ b : App, b.stationStates stationId = a.stationStates stationId →
      (restoreStationState stationId now b).2 = (restoreStationState stationId now a).2 ∧
      ((restoreStationState stationId now a).2 = true →
        (restoreStationState stationId now b).1.playlistIndex
          = (restoreStationState stationId now a).1.playlistIndex ∧
        (restoreStationState stationId now b).1.seekToPosition
          = (restoreStationState stationId now a).1.seekToPosition ∧
        (restoreStationState stationId now b).1.djTalkCounter
          = (restoreStationState stationId now a).1.djTalkCounter)) := by
  refine ⟨?_, ?_, ?_⟩
  · unfold restoreStationState
    cases hs : a.stationStates stationId with
    | none => simp [hs]
    | some state =>
      by_cases hc : (state.playlistLoaded && decide (0 < state.playlist.length)) = true
      · simp [hs, hc]
      · simp [hs, hc]
  · unfold restoreStationState
    cases hs : a.stationStates stationId with
    | none => rfl
    | some state =>
      by_cases hc : (state.playlistLoaded && decide (0 < state.playlist.length)) = true
      · simp [hc]
      · simp [hc]
  · intro b hb
    unfold restoreStationState
    rw [hb]
    cases hs : a.stationStates stationId with
    | none => simp
    | some state =>
      by_cases hc : (state.playlistLoaded && decide (0 < state.playlist.length)) = true
      · simp [hc]
      · simp [hc]

/-! ## Lemmas on the commit of the current station -/

/-- The state `saveStationState` stores for a station whose stored state is
`state`. -/
theorem saveStationState_eq (stationId : String) (now : Int) (a : App) (state : BroadcastState)
    (hid : stationId ≠ "") (hs : a.stationStates stationId = some state) :
    saveStationState stationId now a =
      { a with
        stationStates := setStationState a.stationStates stationId
          { state with
            currentTrackIndex := a.playlistIndex
            trackPositionSeconds := a.audioSystem.mainAudio.currentTime
            playlist := a.playlist
            playlistLoaded := true
            djTalkCounter := a.djTalkCounter
            lastLeftTime := some now
            djTalkActive := !a.audioSystem.djAudio.paused
            djTalkPosition :=
              if a.audioSystem.djAudio.paused then state.djTalkPosition
              else a.audioSystem.djAudio.currentTime } } := by
  unfold saveStationState
  rw [if_neg hid, hs]

/-- A commit changes nothing but the table of stored states. -/
theorem saveStationState_fields (stationId : String) (now : Int) (a : App) :
    saveStationState stationId now a =
      { a with stationStates := (saveStationState stationId now a).stationStates } := by
  unfold saveStationState
  split
  · rfl
  · split <;> rfl

/-- A commit leaves the stored state of every other station unchanged. -/
theorem saveStationState_other (stationId : String) (now : Int) (a : App) (k : String)
    (hk : k ≠ stationId) :
    (saveStationState stationId now a).stationStates k = a.stationStates k := by
  unfold saveStationState
  split
  · rfl
  · split
    · rfl
    · simp [setStationState, hk]

/-- The commit block changes nothing but the table of stored states. -/
theorem saveCurrentStation_fields (now : Int) (a : App) :
    saveCurrentStation now a =
      { a with stationStates := (saveCurrentStation now a).stationStates } := by
  unfold saveCurrentStation
  split
  · rfl
  · simp only
    conv_lhs => rw [saveStationState_fields]
    split <;> rfl

/-- The commit block leaves the stored state of every station other than the
current one unchanged. -/
theorem saveCurrentStation_other (now : Int) (a : App) (k : String)
    (hk : ∀ cur : Station, a.currentStation = some cur → cur.id ≠ k) :
    (saveCurrentStation now a).stationStates k = a.stationStates k := by
  unfold saveCurrentStation
  cases hc : a.currentStation with
  | none => rfl
  | some cur =>
    have hne : k ≠ cur.id := fun h => hk cur hc h.symm
    simp only
    rw [saveStationState_other _ _ _ _ hne]
    cases a.stationStates cur.id with
    | none => rfl
    | some state => simp [setStationState, hne]

/-- The stored state of the current station after the commit block. -/
theorem saveCurrentStation_current (now : Int) (a : App) (cur : Station)
    (state : BroadcastState) (hc : a.currentStation = some cur) (hid : cur.id ≠ "")
    (hs : a.stationStates cur.id = some state) :
    (saveCurrentStation now a).stationStates cur.id =
      some
        { state with
          currentTrackIndex := a.playlistIndex
          trackPositionSeconds := a.audioSystem.mainAudio.currentTime
          playlist := a.playlist
          playlistLoaded := true
          djTalkCounter := a.djTalkCounter
          lastLeftTime := some now
          djTalkActive := !a.audioSystem.djAudio.paused
          djTalkPosition :=
            if a.audioSystem.djAudio.paused then state.djTalkPosition
            else a.audioSystem.djAudio.currentTime } := by
  unfold saveCurrentStation
  rw [hc]
  simp only [hs]
  rw [saveStationState_eq cur.id now _
    { state with trackPositionSeconds := a.audioSystem.mainAudio.currentTime } hid
    (by simp [setStationState])]
  simp [setStationState]

/-! ## Lemmas: what the rest of a tune leaves untouched -/

theorem restoreStationState_states (stationId : String) (now : Int) (a : App) :
    (restoreStationState stationId now a).1.stationStates = a.stationStates := by
  unfold restoreStationState
  cases a.stationStates stationId with
  | none => rfl
  | some state => simp only; split <;> rfl

theorem loadPlaylist_states (stationId : String) (response : Option (List Track)) (a : App) :
    (loadPlaylist stationId response a).stationStates = a.stationStates := by
  unfold loadPlaylist calculateBroadcastPosition
  cases response with
  | none => rfl
  | some tracks =>
    simp only
    cases a.stationStates stationId with
    | none => rfl
    | some state => simp only; split <;> rfl

theorem playCurrentTrack_states (a : App) :
    (playCurrentTrack a).stationStates = a.stationStates := by
  unfold playCurrentTrack
  simp only
  split <;> split <;> (try split) <;> (try split) <;> rfl

theorem startBroadcast_states (a : App) :
    (startBroadcast a).stationStates = a.stationStates := by
  unfold startBroadcast
  split
  · rfl
  · simp only [playCurrentTrack_states]
    split <;> rfl

theorem tuneToRetroStation_states (stationId : String) (nowLeave now : Int)
    (response : Option (List Track)) (a : App) :
    (tuneToRetroStation stationId nowLeave now response a).stationStates
      = (saveCurrentStation nowLeave a).stationStates := by
  unfold tuneToRetroStation
  simp only
  split
  · rfl
  · rw [startBroadcast_states]
    split
    · rw [restoreStationState_states]
    · rw [loadPlaylist_states, restoreStationState_states]

theorem tuneToStation_states (stationId : String) (nowLeave now : Int)
    (response : Option (List Track)) (a : App) :
    (tuneToStation stationId nowLeave now response a).stationStates
      = (saveCurrentStation nowLeave a).stationStates := by
  unfold tuneToStation
  simp only
  split
  · rfl
  · rw [startBroadcast_states]
    split
    · rw [restoreStationState_states]
    · rw [loadPlaylist_states, restoreStationState_states]

/-- C7. When `tuneToRetroStation`, `tuneToStation` or `switchStation` (to a
station of the current decade) runs while station `cur` is current and has a
stored state, that stored state afterwards holds `currentTrackIndex =
playlistIndex`, `trackPositionSeconds` = the position of the music element,
`lastLeftTime` = the clock of the commit, the active playlist,
`playlistLoaded = true` and the live `djTalkCounter`, and the stored state of
every other station is unchanged. -/
theorem C7_tune_commits_current_station (a : App) (cur : Station) (state : BroadcastState)
    (target : String) (nowSwitch nowLeave now : Int) (response : Option (List Track))
    (hc : a.currentStation = some cur) (hid : cur.id ≠ "")
    (hs : a.stationStates cur.id = some state) :
    ∀ after : App,
      (after = tuneToRetroStation target nowLeave now response a ∨
        after = tuneToStation target nowLeave now response a ∨
        (after = switchStation target nowSwitch nowLeave now response a ∧
          (a.currentStations.find? (fun s => s.id = target)).isSome = true)) →
      (∃ st : BroadcastState, after.stationStates cur.id = some st ∧ Committed a nowLeave st) ∧
      (∀ k : String, k ≠ cur.id → after.stationStates k = a.stationStates k) := by
  have hother : ∀ (t : Int) (b : App), b.currentStation = some cur → ∀ k : String, k ≠ cur.id →
      (saveCurrentStation t b).stationStates k = b.stationStates k := by
    intro t b hb k hk
    apply saveCurrentStation_other
    intro c hcc
    rw [hb] at hcc
    cases hcc
    exact fun h => hk h.symm
  intro after h
  rcases h with h | h | ⟨h, hfound⟩
  · subst h
    rw [tuneToRetroStation_states]
    refine ⟨⟨_, saveCurrentStation_current nowLeave a cur state hc hid hs, ?_⟩, hother _ a hc⟩
    simp [Committed]
  · subst h
    rw [tuneToStation_states]
    refine ⟨⟨_, saveCurrentStation_current nowLeave a cur state hc hid hs, ?_⟩, hother _ a hc⟩
    simp [Committed]
  · subst h
    unfold switchStation
    cases hf : a.currentStations.find? (fun s => s.id = target) with
    | none => rw [hf] at hfound; cases hfound
    | some station =>
      simp only
      rw [tuneToStation_states]
      have h1 := saveCurrentStation_current nowSwitch a cur state hc hid hs
      have hf1 := saveCurrentStation_fields nowSwitch a
      have hc2 : (pauseForStationSwitch (saveCurrentStation nowSwitch a)).currentStation
          = some cur := by
        rw [hf1]; exact hc
      have h2 := saveCurrentStation_current nowLeave
        (pauseForStationSwitch (saveCurrentStation nowSwitch a)) cur _ hc2 hid h1
      refine ⟨⟨_, h2, ?_⟩, ?_⟩
      · rw [hf1]
        simp [Committed, pauseForStationSwitch, AudioSystem.pauseForSwitch]
      · intro k hk
        rw [hother _ _ hc2 k hk]
        exact hother _ a hc k hk

/-- Leaving `S1` (track 1 at 80 s) for `S2` at clock 5000 commits exactly that
for `S1` and leaves every other stored state as it was. -/
theorem C7_tune_commits_current_station_witness :
    (∃ st : BroadcastState,
      (tuneToRetroStation "S2" 5000 5800 (some (tracksS1 4)) appPlayingS1).stationStates "S1"
        = some st ∧ Committed appPlayingS1 5000 st) ∧
    (∀ k : String, k ≠ "S1" →
      (tuneToRetroStation "S2" 5000 5800 (some (tracksS1 4)) appPlayingS1).stationStates k
        = appPlayingS1.stationStates k) :=
  C7_tune_commits_current_station appPlayingS1 stationS1 (visitedState 0 0 (tracksS1 3) 1000)
    "S2" 0 5000 5800 (some (tracksS1 4)) rfl (by decide) rfl _ (Or.inl rfl)

/-! ## Lemmas on starting playback -/

/-- What `playCurrentTrack` does when the index is inside the playlist and no
seek position is pending. -/
theorem playCurrentTrack_no_seek (a : App) (track : Track)
    (hi : a.playlistIndex < a.playlist.length)
    (ht : a.playlist.get? a.playlistIndex = some track) (hseek : a.seekToPosition = none) :
    playCurrentTrack a = { a with audioSystem := a.audioSystem.playTrack (streamUrl track) } := by
  unfold playCurrentTrack
  have : ¬ (a.playlist.length ≤ a.playlistIndex) := by omega
  simp only [this, if_false, ht, hseek]

/-- C3 (amended). On the first tune to a station (stored state not yet loaded,
another station or none current, no seek position pending) whose playlist
request returns `n ≥ 1` tracks, `tuneToRetroStation` joins at track index
`currentTrackIndex mod n`, issues the play command for that track, and sets no
seek target: `seekToPosition` stays empty, no seek is scheduled and the track
starts at position 0. -/
theorem C3_first_tune_joins_track (a : App) (station : Station) (state : BroadcastState)
    (stationId : String) (nowLeave now : Int) (tracks : List Track)
    (hfind : a.currentStations.find? (fun s => s.id = stationId) = some station)
    (hcur : ∀ cur : Station, a.currentStation = some cur → cur.id ≠ stationId)
    (hs : a.stationStates stationId = some state) (hl : state.playlistLoaded = false)
    (hseek : a.seekToPosition = none) (hn : 0 < tracks.length) :
    ∃ track : Track,
      tracks.get? (state.currentTrackIndex % tracks.length) = some track ∧
      (tuneToRetroStation stationId nowLeave now (some tracks) a).playlistIndex
        = state.currentTrackIndex % tracks.length ∧
      (tuneToRetroStation stationId nowLeave now (some tracks) a).audioSystem.playCommands
        = a.audioSystem.playCommands ++ [streamUrl track] ∧
      (tuneToRetroStation stationId nowLeave now (some tracks) a).audioSystem.mainAudio.currentTime
        = 0 ∧
      (tuneToRetroStation stationId nowLeave now (some tracks) a).seekToPosition = none ∧
      (tuneToRetroStation stationId nowLeave now (some tracks) a).pendingSeeks = a.pendingSeeks ∧
      (tuneToRetroStation stationId nowLeave now (some tracks) a).isPlaying = true := by
  have hlt : state.currentTrackIndex % tracks.length < tracks.length := Nat.mod_lt _ hn
  obtain ⟨track, htrack⟩ : ∃ track, tracks.get? (state.currentTrackIndex % tracks.length)
      = some track := ⟨_, List.get?_eq_get hlt⟩
  refine ⟨track, htrack, ?_⟩
  have hsave := saveCurrentStation_fields nowLeave a
  have hstate : (saveCurrentStation nowLeave a).stationStates stationId = some state := by
    rw [saveCurrentStation_other nowLeave a stationId hcur, hs]
  generalize (saveCurrentStation nowLeave a).stationStates = states at hsave hstate
  have hne : tracks.length ≠ 0 := by omega
  unfold tuneToRetroStation
  simp only [hsave, hfind, restoreStationState, hstate, hl, Bool.false_and, Bool.false_eq_true,
    if_false, loadPlaylist, calculateBroadcastPosition, hn, if_true, startBroadcast, hne, hseek,
    truthy]
  rw [playCurrentTrack_no_seek _ track (by exact hlt) (by exact htrack) (by rfl)]
  simp [AudioSystem.playTrack, AudioSystem.pauseForSwitch]

/-- The first-tune scenario: `S1` initialised on track 3 at 45 s, six tracks,
tuned 10 s later: track 3 is started from its beginning, no seek to 55 s is
requested. -/
theorem C3_first_tune_joins_track_witness :
    (tuneToRetroStation "S1" 1010000 1010000 (some (tracksS1 6))
      (appWithS1 (freshState 3 45 325000))).playlistIndex = 3 ∧
    (tuneToRetroStation "S1" 1010000 1010000 (some (tracksS1 6))
      (appWithS1 (freshState 3 45 325000))).seekToPosition = none := by
  obtain ⟨_, _, h1, _, _, h2, _⟩ := C3_first_tune_joins_track (appWithS1 (freshState 3 45 325000))
    stationS1 (freshState 3 45 325000) "S1" 1010000 1010000 (tracksS1 6) rfl
    (by intro cur h; cases h) rfl rfl rfl (by decide)
  exact ⟨h1, h2⟩

/-- C3 (as stated) fails: in the first-tune scenario (`S1` initialised on track
3 at 45 s, six tracks, tuned 10 s after initialisation) playback starts on track
3, but no seek target of 55 s exists: `seekToPosition` is empty, no seek is
scheduled and the music element is at position 0. -/
theorem C3_counterexample :
    (tuneToRetroStation "S1" 1010000 1010000 (some (tracksS1 6))
      (appWithS1 (freshState 3 45 1000000))).playlistIndex = 3 ∧
    (tuneToRetroStation "S1" 1010000 1010000 (some (tracksS1 6))
      (appWithS1 (freshState 3 45 1000000))).seekToPosition = none ∧
    (tuneToRetroStation "S1" 1010000 1010000 (some (tracksS1 6))
      (appWithS1 (freshState 3 45 1000000))).pendingSeeks = [] ∧
    (tuneToRetroStation "S1" 1010000 1010000 (some (tracksS1 6))
      (appWithS1 (freshState 3 45 1000000))).audioSystem.mainAudio.currentTime = 0 ∧
    (tuneToRetroStation "S1" 1010000 1010000 (some (tracksS1 6))
      (appWithS1 (freshState 3 45 1000000))).audioSystem.playCommands
      = ((tracksS1 6).get? 3).toList.map streamUrl ∧
    ((tracksS1 6).get? 3).isSome = true := by
  refine ⟨?_, ?_, ?_, ?_, ?_, ?_⟩ <;> rfl

/-! ## Lemmas on `jsRem`, `playCurrentTrack` and `startBroadcast` -/

theorem jsRem_nonneg (x b : ℚ) (hx : 0 ≤ x) (hb : 0 < b) :
    jsRem x b = x - b * (⌊x / b⌋ : ℚ) := by
  unfold jsRem
  simp only
  rw [if_pos (div_nonneg hx hb.le)]

theorem jsRem_bounds (x b : ℚ) (hx : 0 ≤ x) (hb : 0 < b) :
    0 ≤ jsRem x b ∧ jsRem x b < b := by
  rw [jsRem_nonneg x b hx hb]
  have h1 : (⌊x / b⌋ : ℚ) ≤ x / b := Int.floor_le _
  have h2 : x / b < (⌊x / b⌋ : ℚ) + 1 := Int.lt_floor_add_one _
  have h3 : b * (⌊x / b⌋ : ℚ) ≤ x := by
    have := mul_le_mul_of_nonneg_left h1 hb.le
    rwa [mul_div_cancel₀ x hb.ne'] at this
  have h4 : x < b * ((⌊x / b⌋ : ℚ) + 1) := by
    have := mul_lt_mul_of_pos_left h2 hb
    rwa [mul_div_cancel₀ x hb.ne'] at this
  constructor <;> linarith

theorem jsRem_of_lt (x b : ℚ) (hx : 0 ≤ x) (hxb : x < b) : jsRem x b = x := by
  have hb : 0 < b := lt_of_le_of_lt hx hxb
  rw [jsRem_nonneg x b hx hb]
  have : ⌊x / b⌋ = 0 := by
    rw [Int.floor_eq_iff]
    constructor
    · simpa using div_nonneg hx hb.le
    · simpa using (div_lt_one hb).mpr hxb
  rw [this]
  simp

theorem powerOnPosition_eq (state : BroadcastState) (now t : Int)
    (ht : state.powerOffTime = some t) (h0 : t ≠ 0) :
    powerOnPosition state now
      = jsRem (state.trackPositionSeconds + ((now - t : Int) : ℚ) / 1000) 300 := by
  simp [powerOnPosition, orNow, ht, h0]

/-- What `playCurrentTrack` does on a non-empty playlist. -/
theorem playCurrentTrack_nonempty (a : App) (hn : 0 < a.playlist.length) :
    ∃ track : Track,
      a.playlist.get? (normalIndex a.playlist.length a.playlistIndex) = some track ∧
      playCurrentTrack a =
        { a with
          playlistIndex := normalIndex a.playlist.length a.playlistIndex
          audioSystem := a.audioSystem.playTrack (streamUrl track)
          seekToPosition :=
            match a.seekToPosition with
            | none => none
            | some p => if 0 < p then none else some p
          pendingSeeks :=
            match a.seekToPosition with
            | none => a.pendingSeeks
            | some p => if 0 < p then a.pendingSeeks ++ [p] else a.pendingSeeks } := by
  have hlt : normalIndex a.playlist.length a.playlistIndex < a.playlist.length := by
    unfold normalIndex
    split <;> omega
  refine ⟨_, List.get?_eq_get hlt, ?_⟩
  unfold playCurrentTrack
  by_cases hle : a.playlist.length ≤ a.playlistIndex
  · have h0 : a.playlist.get? 0 = some (a.playlist.get ⟨0, hn⟩) := List.get?_eq_get hn
    have hN : normalIndex a.playlist.length a.playlistIndex = 0 := by simp [normalIndex, hle]
    simp only [hle, if_true, h0, hN]
    cases hp : a.seekToPosition with
    | none => simp
    | some p => by_cases hpos : 0 < p <;> simp [hpos]
  · have hlt2 : a.playlistIndex < a.playlist.length := by omega
    have hN : normalIndex a.playlist.length a.playlistIndex = a.playlistIndex := by
      simp [normalIndex, hle]
    have h0 : a.playlist.get? a.playlistIndex = some (a.playlist.get ⟨a.playlistIndex, hlt2⟩) :=
      List.get?_eq_get hlt2
    simp only [hle, if_false, h0, hN]
    cases hp : a.seekToPosition with
    | none => simp
    | some p => by_cases hpos : 0 < p <;> simp [hpos]

/-- What `startBroadcast` does on a non-empty playlist. -/
theorem startBroadcast_nonempty (a : App) (hn : 0 < a.playlist.length) :
    startBroadcast a =
      playCurrentTrack
        (if truthy a.seekToPosition then { a with isPlaying := true }
          else { a with isPlaying := true, djTalkCounter := 0 }) := by
  unfold startBroadcast
  rw [if_neg (by omega)]

/-- What `toggleRadioPower` does on power-on when the current station has a
stored state. -/
theorem toggleRadioPower_on (a : App) (cur : Station) (state : BroadcastState) (now : Int)
    (hoff : a.radioPowerOn = false) (hc : a.currentStation = some cur)
    (hs : a.stationStates cur.id = some state) :
    toggleRadioPower now a =
      startBroadcast
        { a with radioPowerOn := true, seekToPosition := some (powerOnPosition state now) } := by
  unfold toggleRadioPower
  simp [hoff, hc, hs]

/-- Index and seek bookkeeping of `startBroadcast` on a non-empty playlist with
a seek position `p` stored. -/
theorem startBroadcast_seek (a : App) (p : ℚ) (hn : 0 < a.playlist.length)
    (hp : a.seekToPosition = some p) :
    (startBroadcast a).playlistIndex = normalIndex a.playlist.length a.playlistIndex ∧
    (0 < p → (startBroadcast a).seekToPosition = none ∧
      (startBroadcast a).pendingSeeks = a.pendingSeeks ++ [p]) ∧
    (¬ 0 < p → (startBroadcast a).seekToPosition = some p ∧
      (startBroadcast a).pendingSeeks = a.pendingSeeks) := by
  rw [startBroadcast_nonempty a hn]
  by_cases ht : truthy a.seekToPosition = true
  · rw [if_pos ht]
    obtain ⟨track, _, h⟩ := playCurrentTrack_nonempty { a with isPlaying := true } hn
    rw [h]
    refine ⟨rfl, ?_, ?_⟩ <;> intro h0 <;> simp [hp, h0]
  · rw [if_neg ht]
    obtain ⟨track, _, h⟩ :=
      playCurrentTrack_nonempty { a with isPlaying := true, djTalkCounter := 0 } hn
    rw [h]
    refine ⟨rfl, ?_, ?_⟩ <;> intro h0 <;> simp [hp, h0]

/-- On a non-empty playlist `startBroadcast` leaves the normalised index. -/
theorem startBroadcast_index (a : App) (hn : 0 < a.playlist.length) :
    (startBroadcast a).playlistIndex = normalIndex a.playlist.length a.playlistIndex := by
  rw [startBroadcast_nonempty a hn]
  by_cases ht : truthy a.seekToPosition = true
  · rw [if_pos ht]
    obtain ⟨track, _, h⟩ := playCurrentTrack_nonempty { a with isPlaying := true } hn
    rw [h]
  · rw [if_neg ht]
    obtain ⟨track, _, h⟩ :=
      playCurrentTrack_nonempty { a with isPlaying := true, djTalkCounter := 0 } hn
    rw [h]

/-- On power-on with a current station and a non-empty playlist
`toggleRadioPower` leaves the normalised index. -/
theorem toggleRadioPower_on_index (a : App) (cur : Station) (now : Int)
    (hoff : a.radioPowerOn = false) (hc : a.currentStation = some cur)
    (hn : 0 < a.playlist.length) :
    (toggleRadioPower now a).playlistIndex = normalIndex a.playlist.length a.playlistIndex := by
  unfold toggleRadioPower
  simp only [hoff, Bool.not_false, if_true, hc]
  cases a.stationStates cur.id with
  | none => exact startBroadcast_index _ hn
  | some state => exact startBroadcast_index _ hn

/-- What `onTrackEnd` does when the announcer is due. -/
theorem onTrackEnd_talk (cfg : DJTalkConfig) (r : ℚ) (response : BanterResponse) (now : Int)
    (a : App) (hp : a.isPlaying = true)
    (ht : shouldDJTalk cfg r (onTrackEndAdvance now a) = true) :
    onTrackEnd cfg r response now a =
      { triggerDJTalk "track_transition" response (onTrackEndAdvance now a) with
        djTalkCounter := 0 } := by
  unfold onTrackEnd
  simp [hp, ht]

/-- What `onTrackEnd` does when the announcer is not due. -/
theorem onTrackEnd_silent (cfg : DJTalkConfig) (r : ℚ) (response : BanterResponse) (now : Int)
    (a : App) (hp : a.isPlaying = true)
    (ht : shouldDJTalk cfg r (onTrackEndAdvance now a) = false) :
    onTrackEnd cfg r response now a = playCurrentTrack (onTrackEndAdvance now a) := by
  unfold onTrackEnd
  simp [hp, ht]

/-- The draw `r = 0` gives the lower bound. -/
theorem getRandomInt_zero (min max : Int) : getRandomInt 0 min max = min := by
  simp [getRandomInt]

/-- C6 (amended). On power-on with a current station whose stored state holds
`trackPositionSeconds = s ≥ 0` and `powerOffTime = t ≤ now`, `toggleRadioPower`
sets the seek target to `(s + (now - t)/1000) mod 300`: the target lies in
`[0, 300)`, differs from `s + elapsed` by a multiple of 300, equals
`s + elapsed` whenever that sum is below 300 (stored 80 s and 30 s elapsed give
110 s), on a non-empty playlist a positive target is handed to the scheduled
seek, and `playlistIndex` is unchanged when it is inside the playlist and is
normalised to 0 when it is at or past its end. -/
theorem C6_power_on_seek_target (a : App) (cur : Station) (state : BroadcastState)
    (now t : Int) (hoff : a.radioPowerOn = false) (hc : a.currentStation = some cur)
    (hs : a.stationStates cur.id = some state) (hpos : 0 ≤ state.trackPositionSeconds)
    (ht : state.powerOffTime = some t) (h0 : t ≠ 0) (hnow : t ≤ now) :
    ∃ target : ℚ,
      target = jsRem (state.trackPositionSeconds + ((now - t : Int) : ℚ) / 1000) 300 ∧
      (∃ m : Int, state.trackPositionSeconds + ((now - t : Int) : ℚ) / 1000
        = target + 300 * (m : ℚ)) ∧
      0 ≤ target ∧ target < 300 ∧
      (state.trackPositionSeconds + ((now - t : Int) : ℚ) / 1000 < 300 →
        target = state.trackPositionSeconds + ((now - t : Int) : ℚ) / 1000) ∧
      (state.trackPositionSeconds = 80 → now - t = 30000 → target = 110) ∧
      (a.playlist.length = 0 → (toggleRadioPower now a).seekToPosition = some target) ∧
      (0 < a.playlist.length → 0 < target →
        (toggleRadioPower now a).seekToPosition = none ∧
        (toggleRadioPower now a).pendingSeeks = a.pendingSeeks ++ [target]) ∧
      (0 < a.playlist.length → target = 0 →
        (toggleRadioPower now a).seekToPosition = some 0 ∧
        (toggleRadioPower now a).pendingSeeks = a.pendingSeeks) ∧
      (a.playlistIndex < a.playlist.length →
        (toggleRadioPower now a).playlistIndex = a.playlistIndex) ∧
      (0 < a.playlist.length → a.playlist.length ≤ a.playlistIndex →
        (toggleRadioPower now a).playlistIndex = 0) := by
  have hx : 0 ≤ state.trackPositionSeconds + ((now - t : Int) : ℚ) / 1000 := by
    have h1 : (0 : ℚ) ≤ ((now - t : Int) : ℚ) := by
      have : (0 : Int) ≤ now - t := by omega
      exact_mod_cast this
    have h2 : (0 : ℚ) ≤ ((now - t : Int) : ℚ) / 1000 := div_nonneg h1 (by norm_num)
    linarith
  have hb := jsRem_bounds _ 300 hx (by norm_num)
  have hon := toggleRadioPower_on a cur state now hoff hc hs
  rw [powerOnPosition_eq state now t ht h0] at hon
  have hsb := fun hn => startBroadcast_seek
    { a with
      radioPowerOn := true
      seekToPosition :=
        some (jsRem (state.trackPositionSeconds + ((now - t : Int) : ℚ) / 1000) 300) }
    (jsRem (state.trackPositionSeconds + ((now - t : Int) : ℚ) / 1000) 300) hn rfl
  rw [← hon] at hsb
  refine ⟨_, rfl, ⟨⌊(state.trackPositionSeconds + ((now - t : Int) : ℚ) / 1000) / 300⌋, ?_⟩,
    hb.1, hb.2, fun hlt => jsRem_of_lt _ _ hx hlt, ?_, ?_, ?_, ?_, ?_, ?_⟩
  · rw [jsRem_nonneg _ 300 hx (by norm_num)]
    ring
  · intro h80 h30
    rw [h80, h30]
    rw [jsRem_of_lt _ _ (by norm_num) (by norm_num)]
    norm_num
  · intro hn
    rw [hon]
    unfold startBroadcast
    rw [if_pos hn]
  · intro hn htarget
    exact (hsb hn).2.1 htarget
  · intro hn htarget
    obtain ⟨h1, h2⟩ := (hsb hn).2.2 (by rw [htarget]; norm_num)
    exact ⟨by rw [h1, htarget], h2⟩
  · intro hlt
    rw [(hsb (Nat.lt_of_le_of_lt (Nat.zero_le _) hlt)).1]
    show normalIndex a.playlist.length a.playlistIndex = a.playlistIndex
    unfold normalIndex
    rw [if_neg (by omega)]
  · intro hn hle
    rw [(hsb hn).1]
    show normalIndex a.playlist.length a.playlistIndex = 0
    unfold normalIndex
    rw [if_pos hle]

/-- Power-on of `S1` 30 s after it was powered off (stored position 0 after the
tick): the scheduled seek is 30 s and the track index is still 1. -/
theorem C6_power_on_seek_target_witness :
    (toggleRadioPower 35000 appPoweredOffS1).pendingSeeks = [30] ∧
    (toggleRadioPower 35000 appPoweredOffS1).playlistIndex = 1 := by
  obtain ⟨target, _, _, _, _, hlt, _, _, hseek, _, hidx, _⟩ :=
    C6_power_on_seek_target appPoweredOffS1 stationS1
      { visitedState 0 0 (tracksS1 3) 1000 with
        trackPositionSeconds := 0, powerOffTime := some 5000, lastLeftTime := some 5000 }
      35000 5000 rfl rfl rfl (by norm_num) rfl (by decide) (by decide)
  have ht : target = 30 := by
    rw [hlt (by norm_num)]
    norm_num
  subst ht
  exact ⟨(hseek (by decide) (by norm_num)).2, hidx (by decide)⟩

/-- C6 (as stated) fails for the index: powered off while the announcer talks
after the last track (`playlistIndex = 3` with three tracks), the radio comes
back with `playlistIndex = 0`. It also fails for the range when the clock read
at power-on lies before `powerOffTime`: stored position 0, `powerOffTime =
10000` and `now = 5000` give the target -5. -/
theorem C6_counterexample :
    appPoweredOffDuringTalk.radioPowerOn = false ∧
    appPoweredOffDuringTalk.playlist.length = 3 ∧
    appPoweredOffDuringTalk.playlistIndex = 3 ∧
    (toggleRadioPower 35000 appPoweredOffDuringTalk).playlistIndex = 0 ∧
    powerOnPosition { visitedState 0 0 (tracksS1 3) 1000 with powerOffTime := some 10000 } 5000
      = -5 := by
  have hneg : powerOnPosition
      { visitedState 0 0 (tracksS1 3) 1000 with powerOffTime := some 10000 } 5000 = -5 := by
    have hc : ⌈(-5 : ℚ) / 300⌉ = 0 := by
      rw [Int.ceil_eq_iff]
      norm_num
    have hq : ¬ (0 : ℚ) ≤ -5 / 300 := by norm_num
    rw [powerOnPosition_eq _ 5000 10000 rfl (by decide)]
    have hx : (visitedState 0 0 (tracksS1 3) 1000).trackPositionSeconds
        + (((5000 : Int) - 10000 : Int) : ℚ) / 1000 = -5 := by
      norm_num [visitedState]
    show jsRem ((visitedState 0 0 (tracksS1 3) 1000).trackPositionSeconds
        + (((5000 : Int) - 10000 : Int) : ℚ) / 1000) 300 = -5
    rw [hx]
    unfold jsRem
    simp only [hq, if_false, hc]
    norm_num
  have hstep : onTrackEnd DJ_TALK_CONFIG 0 (BanterResponse.withAudio "blob:announcer") 4000
      { appPlayingS1 with playlistIndex := 2 } =
      { triggerDJTalk "track_transition" (BanterResponse.withAudio "blob:announcer")
          (onTrackEndAdvance 4000 { appPlayingS1 with playlistIndex := 2 }) with
        djTalkCounter := 0 } :=
    onTrackEnd_talk _ _ _ _ _ rfl (by
      unfold shouldDJTalk
      rw [getRandomInt_zero]
      rfl)
  have hoff : appPoweredOffDuringTalk.radioPowerOn = false := by
    unfold appPoweredOffDuringTalk
    rw [hstep]
    rfl
  have hlen : appPoweredOffDuringTalk.playlist.length = 3 := by
    unfold appPoweredOffDuringTalk
    rw [hstep]
    rfl
  have hidx : appPoweredOffDuringTalk.playlistIndex = 3 := by
    unfold appPoweredOffDuringTalk
    rw [hstep]
    rfl
  have hcur : appPoweredOffDuringTalk.currentStation = some stationS1 := by
    unfold appPoweredOffDuringTalk
    rw [hstep]
    rfl
  refine ⟨hoff, hlen, hidx, ?_, hneg⟩
  rw [toggleRadioPower_on_index _ stationS1 35000 hoff hcur (by rw [hlen]; decide), hlen, hidx]
  rfl

/-! ## Lemmas: fields that playback steps leave untouched -/

/-- `playCurrentTrack` changes the index, the audio engine and the seek
bookkeeping only. -/
theorem playCurrentTrack_fields (a : App) :
    playCurrentTrack a =
      { a with
        playlistIndex := (playCurrentTrack a).playlistIndex
        audioSystem := (playCurrentTrack a).audioSystem
        seekToPosition := (playCurrentTrack a).seekToPosition
        pendingSeeks := (playCurrentTrack a).pendingSeeks } := by
  unfold playCurrentTrack
  simp only
  split <;> split <;> (try split) <;> (try split) <;> rfl

/-- `onDJEnd` changes the index, the audio engine, the seek bookkeeping and the
early-start flag only. -/
theorem onDJEnd_fields (a : App) :
    onDJEnd a =
      { a with
        playlistIndex := (onDJEnd a).playlistIndex
        audioSystem := (onDJEnd a).audioSystem
        seekToPosition := (onDJEnd a).seekToPosition
        pendingSeeks := (onDJEnd a).pendingSeeks
        songStartedEarly := false } := by
  unfold onDJEnd
  simp only
  split
  · conv_lhs => rw [playCurrentTrack_fields]
  · rfl

/-- `triggerDJTalk` counts one call and changes, besides, the talk type, the
index, the audio engine, the seek bookkeeping and the early-start flag only. -/
theorem triggerDJTalk_fields (eventType : String) (response : BanterResponse) (a : App) :
    triggerDJTalk eventType response a =
      { a with
        djTalksTriggered := a.djTalksTriggered + 1
        lastDJTalkType := (triggerDJTalk eventType response a).lastDJTalkType
        playlistIndex := (triggerDJTalk eventType response a).playlistIndex
        audioSystem := (triggerDJTalk eventType response a).audioSystem
        seekToPosition := (triggerDJTalk eventType response a).seekToPosition
        pendingSeeks := (triggerDJTalk eventType response a).pendingSeeks
        songStartedEarly := (triggerDJTalk eventType response a).songStartedEarly } := by
  unfold triggerDJTalk triggerDJTalkResponse triggerDJTalkRequest
  simp only
  cases a.currentStation with
  | none => rfl
  | some cur =>
    cases response with
    | withAudio url => rfl
    | textOnly => simp only; rw [onDJEnd_fields]
    | failed => simp only; rw [onDJEnd_fields]

/-- `onTrackEndAdvance` changes the index, the counter and the table of stored
states only. -/
theorem onTrackEndAdvance_fields (now : Int) (a : App) :
    onTrackEndAdvance now a =
      { a with
        playlistIndex := a.playlistIndex + 1
        djTalkCounter := a.djTalkCounter + 1
        stationStates := (onTrackEndAdvance now a).stationStates } := by
  unfold onTrackEndAdvance updateStationState
  simp only
  split
  · rfl
  · split <;> rfl

/-- The stored state of the current station after `onTrackEndAdvance`. -/
theorem onTrackEndAdvance_current (now : Int) (a : App) (cur : Station) (st : BroadcastState)
    (hc : a.currentStation = some cur) (hs : a.stationStates cur.id = some st) :
    (onTrackEndAdvance now a).stationStates cur.id =
      some
        { st with
          currentTrackIndex := a.playlistIndex + 1
          trackPositionSeconds := a.audioSystem.mainAudio.currentTime
          lastLeftTime := some now } := by
  unfold onTrackEndAdvance updateStationState
  simp [hc, hs, setStationState]

/-- `onTrackEndAdvance` leaves the stored state of every station other than the
current one unchanged. -/
theorem onTrackEndAdvance_other (now : Int) (a : App) (k : String)
    (hk : ∀ cur : Station, a.currentStation = some cur → cur.id ≠ k) :
    (onTrackEndAdvance now a).stationStates k = a.stationStates k := by
  unfold onTrackEndAdvance updateStationState
  simp only
  cases hc : a.currentStation with
  | none => rfl
  | some cur =>
    have hne : k ≠ cur.id := fun h => hk cur hc h.symm
    simp only
    cases a.stationStates cur.id with
    | none => rfl
    | some st => simp [setStationState, hne]

/-- After its guard, `onTrackEnd` leaves the table of stored states as
`onTrackEndAdvance` wrote it. -/
theorem onTrackEnd_states (cfg : DJTalkConfig) (r : ℚ) (response : BanterResponse) (now : Int)
    (a : App) (hp : a.isPlaying = true) :
    (onTrackEnd cfg r response now a).stationStates = (onTrackEndAdvance now a).stationStates := by
  by_cases ht : shouldDJTalk cfg r (onTrackEndAdvance now a) = true
  · rw [onTrackEnd_talk cfg r response now a hp ht, triggerDJTalk_fields]
  · rw [onTrackEnd_silent cfg r response now a hp (by simpa using ht), playCurrentTrack_fields]

/-- C8. When `isPlaying` is false `onTrackEnd` changes nothing. When `isPlaying`
is true it first increases `playlistIndex` and `djTalkCounter` by exactly 1,
takes the talk decision on the increased counter, and the stored state of the
current station holds the new `playlistIndex` as `currentTrackIndex` (with the
position of the music element and the clock), also after `onTrackEnd` has
finished; the stored state of every other station is unchanged. -/
theorem C8_track_end_advances (cfg : DJTalkConfig) (r : ℚ) (response : BanterResponse)
    (now : Int) (a : App) :
    (a.isPlaying = false → onTrackEnd cfg r response now a = a) ∧
    (a.isPlaying = true →
      (onTrackEndAdvance now a).playlistIndex = a.playlistIndex + 1 ∧
      (onTrackEndAdvance now a).djTalkCounter = a.djTalkCounter + 1 ∧
      shouldDJTalk cfg r (onTrackEndAdvance now a)
        = decide (getRandomInt r cfg.minSongsBetweenTalk cfg.maxSongsBetweenTalk
            ≤ ((a.djTalkCounter + 1 : Nat) : Int)) ∧
      onTrackEnd cfg r response now a =
        (if shouldDJTalk cfg r (onTrackEndAdvance now a) then
          { triggerDJTalk "track_transition" response (onTrackEndAdvance now a) with
            djTalkCounter := 0 }
        else playCurrentTrack (onTrackEndAdvance now a)) ∧
      (∀ (cur : Station) (st : BroadcastState),
        a.currentStation = some cur → a.stationStates cur.id = some st →
        (onTrackEnd cfg r response now a).stationStates cur.id =
          some
            { st with
              currentTrackIndex := a.playlistIndex + 1
              trackPositionSeconds := a.audioSystem.mainAudio.currentTime
              lastLeftTime := some now }) ∧
      (∀ k : String, (∀ cur : Station, a.currentStation = some cur → cur.id ≠ k) →
        (onTrackEnd cfg r response now a).stationStates k = a.stationStates k)) := by
  constructor
  · intro hp
    unfold onTrackEnd
    simp [hp]
  · intro hp
    have hf := onTrackEndAdvance_fields now a
    refine ⟨by rw [hf], by rw [hf], ?_, ?_, ?_, ?_⟩
    · unfold shouldDJTalk
      rw [hf]
    · unfold onTrackEnd
      simp [hp]
    · intro cur st hc hs
      rw [onTrackEnd_states cfg r response now a hp]
      exact onTrackEndAdvance_current now a cur st hc hs
    · intro k hk
      rw [onTrackEnd_states cfg r response now a hp]
      exact onTrackEndAdvance_other now a k hk

/-! ## Lemmas on the announcer threshold -/

/-- Every draw of `getRandomInt` lies in `[min, max]`. -/
theorem getRandomInt_bounds (r : ℚ) (min max : Int) (h0 : 0 ≤ r) (h1 : r < 1)
    (hmm : min ≤ max) :
    min ≤ getRandomInt r min max ∧ getRandomInt r min max ≤ max := by
  unfold getRandomInt
  have hpos : (0 : ℚ) < ((max - min + 1 : Int) : ℚ) := by
    have : (0 : Int) < max - min + 1 := by omega
    exact_mod_cast this
  have hlo : (0 : Int) ≤ ⌊r * ((max - min + 1 : Int) : ℚ)⌋ :=
    Int.floor_nonneg.mpr (mul_nonneg h0 hpos.le)
  have hhi : ⌊r * ((max - min + 1 : Int) : ℚ)⌋ < max - min + 1 := by
    rw [Int.floor_lt]
    calc r * ((max - min + 1 : Int) : ℚ) < 1 * ((max - min + 1 : Int) : ℚ) :=
          mul_lt_mul_of_pos_right h1 hpos
      _ = ((max - min + 1 : Int) : ℚ) := one_mul _
  constructor <;> omega

/-- As long as the announcer is not due, `j` track ends leave the application
playing with `djTalkCounter = j` and no call of `triggerDJTalk`. -/
theorem afterTrackEnds_silent (cfg : DJTalkConfig) (rs : Nat → ℚ)
    (responses : Nat → BanterResponse) (nows : Nat → Int) (a : App)
    (hp : a.isPlaying = true) (hc : a.djTalkCounter = 0) (j : Nat)
    (hsilent : ∀ i : Nat, i < j →
      ¬ getRandomInt (rs i) cfg.minSongsBetweenTalk cfg.maxSongsBetweenTalk ≤ ((i + 1 : Nat) : Int)) :
    (afterTrackEnds cfg rs responses nows a j).isPlaying = true ∧
    (afterTrackEnds cfg rs responses nows a j).djTalkCounter = j ∧
    (afterTrackEnds cfg rs responses nows a j).djTalksTriggered = a.djTalksTriggered := by
  induction j with
  | zero => exact ⟨hp, hc, rfl⟩
  | succ j ih =>
    obtain ⟨ihp, ihc, iht⟩ := ih (fun i hi => hsilent i (by omega))
    have hno : shouldDJTalk cfg (rs j)
        (onTrackEndAdvance (nows j) (afterTrackEnds cfg rs responses nows a j)) = false := by
      unfold shouldDJTalk
      rw [onTrackEndAdvance_fields]
      simp only [ihc]
      exact decide_eq_false (hsilent j (by omega))
    show (onTrackEnd cfg (rs j) (responses j) (nows j) _).isPlaying = true ∧
      (onTrackEnd cfg (rs j) (responses j) (nows j) _).djTalkCounter = j + 1 ∧
      (onTrackEnd cfg (rs j) (responses j) (nows j) _).djTalksTriggered = a.djTalksTriggered
    rw [onTrackEnd_silent cfg _ _ _ _ ihp hno, playCurrentTrack_fields, onTrackEndAdvance_fields]
    exact ⟨ihp, by simp only [ihc], iht⟩

/-- C9. Starting from `djTalkCounter = 0` while playing, for every sequence of
draws `rs i` in `[0, 1)` and integer bounds `1 ≤ min ≤ max`: every threshold
`getRandomInt (rs i) min max` is an integer in `[min, max]`, and there is a
`k` with `min ≤ k ≤ max` such that `onTrackEnd` calls `triggerDJTalk` at the
`k`-th track end and at none before it. -/
theorem C9_songs_until_announcer (cfg : DJTalkConfig) (rs : Nat → ℚ)
    (responses : Nat → BanterResponse) (nows : Nat → Int) (a : App)
    (hmin : 1 ≤ cfg.minSongsBetweenTalk)
    (hmm : cfg.minSongsBetweenTalk ≤ cfg.maxSongsBetweenTalk)
    (hr : ∀ i : Nat, 0 ≤ rs i ∧ rs i < 1)
    (hp : a.isPlaying = true) (hc : a.djTalkCounter = 0) :
    (∀ i : Nat,
      cfg.minSongsBetweenTalk
          ≤ getRandomInt (rs i) cfg.minSongsBetweenTalk cfg.maxSongsBetweenTalk ∧
        getRandomInt (rs i) cfg.minSongsBetweenTalk cfg.maxSongsBetweenTalk
          ≤ cfg.maxSongsBetweenTalk) ∧
    ∃ k : Nat,
      cfg.minSongsBetweenTalk ≤ (k : Int) ∧ (k : Int) ≤ cfg.maxSongsBetweenTalk ∧
      (∀ j : Nat, j < k →
        (afterTrackEnds cfg rs responses nows a j).djTalksTriggered = a.djTalksTriggered) ∧
      (afterTrackEnds cfg rs responses nows a k).djTalksTriggered = a.djTalksTriggered + 1 ∧
      (afterTrackEnds cfg rs responses nows a k).djTalkCounter = 0 := by
  have hb : ∀ i : Nat,
      cfg.minSongsBetweenTalk
          ≤ getRandomInt (rs i) cfg.minSongsBetweenTalk cfg.maxSongsBetweenTalk ∧
        getRandomInt (rs i) cfg.minSongsBetweenTalk cfg.maxSongsBetweenTalk
          ≤ cfg.maxSongsBetweenTalk :=
    fun i => getRandomInt_bounds (rs i) _ _ (hr i).1 (hr i).2 hmm
  refine ⟨hb, ?_⟩
  have hex : ∃ i : Nat,
      getRandomInt (rs i) cfg.minSongsBetweenTalk cfg.maxSongsBetweenTalk ≤ ((i + 1 : Nat) : Int) := by
    refine ⟨(cfg.maxSongsBetweenTalk - 1).toNat, ?_⟩
    have := (hb (cfg.maxSongsBetweenTalk - 1).toNat).2
    omega
  classical
  let j0 := Nat.find hex
  have hj0 : getRandomInt (rs j0) cfg.minSongsBetweenTalk cfg.maxSongsBetweenTalk
      ≤ ((j0 + 1 : Nat) : Int) := Nat.find_spec hex
  have hle : j0 ≤ (cfg.maxSongsBetweenTalk - 1).toNat := by
    apply Nat.find_min' hex
    have := (hb (cfg.maxSongsBetweenTalk - 1).toNat).2
    omega
  have hbefore : ∀ i : Nat, i < j0 →
      ¬ getRandomInt (rs i) cfg.minSongsBetweenTalk cfg.maxSongsBetweenTalk
        ≤ ((i + 1 : Nat) : Int) :=
    fun i hi => Nat.find_min hex hi
  have hsil : ∀ j : Nat, j ≤ j0 →
      (afterTrackEnds cfg rs responses nows a j).isPlaying = true ∧
      (afterTrackEnds cfg rs responses nows a j).djTalkCounter = j ∧
      (afterTrackEnds cfg rs responses nows a j).djTalksTriggered = a.djTalksTriggered :=
    fun j hj => afterTrackEnds_silent cfg rs responses nows a hp hc j
      (fun i hi => hbefore i (by omega))
  obtain ⟨h0p, h0c, h0t⟩ := hsil j0 (le_refl _)
  have hyes : shouldDJTalk cfg (rs j0)
      (onTrackEndAdvance (nows j0) (afterTrackEnds cfg rs responses nows a j0)) = true := by
    unfold shouldDJTalk
    rw [onTrackEndAdvance_fields]
    simp only [h0c]
    exact decide_eq_true hj0
  have hstep : afterTrackEnds cfg rs responses nows a (j0 + 1) =
      { triggerDJTalk "track_transition" (responses j0)
          (onTrackEndAdvance (nows j0) (afterTrackEnds cfg rs responses nows a j0)) with
        djTalkCounter := 0 } :=
    onTrackEnd_talk cfg _ _ _ _ h0p hyes
  refine ⟨j0 + 1, ?_, ?_, fun j hj => (hsil j (by omega)).2.2, ?_, ?_⟩
  · have := (hb j0).1
    omega
  · omega
  · rw [hstep, triggerDJTalk_fields, onTrackEndAdvance_fields]
    simp only [h0t]
  · rw [hstep]

/-- With the configured bounds 1 and 3 and every draw equal to 1/2 (threshold
2), the announcer is asked at one of the first three track ends of `S1`. -/
theorem C9_songs_until_announcer_witness :
    ∃ k : Nat, (1 : Int) ≤ (k : Int) ∧ (k : Int) ≤ 3 ∧
      (afterTrackEnds DJ_TALK_CONFIG (fun _ => 1 / 2) (fun _ => BanterResponse.failed)
        (fun _ => 0) { appPlayingS1 with djTalkCounter := 0 } k).djTalksTriggered = 1 := by
  obtain ⟨k, h1, h2, _, h3, _⟩ :=
    (C9_songs_until_announcer DJ_TALK_CONFIG (fun _ => 1 / 2) (fun _ => BanterResponse.failed)
      (fun _ => 0) { appPlayingS1 with djTalkCounter := 0 } (by decide) (by decide)
      (fun _ => by norm_num) rfl rfl).2
  exact ⟨k, h1, h2, h3⟩

/-! ## Lemmas on the early start -/

/-- What `playNextTrackEarly` does on a non-empty playlist. -/
theorem playNextTrackEarly_nonempty (a : App) (hn : 0 < a.playlist.length) :
    ∃ track : Track,
      a.playlist.get? (normalIndex a.playlist.length a.playlistIndex) = some track ∧
      playNextTrackEarly a =
        { a with
          playlistIndex := normalIndex a.playlist.length a.playlistIndex
          audioSystem := a.audioSystem.playTrack (streamUrl track) } := by
  have hlt : normalIndex a.playlist.length a.playlistIndex < a.playlist.length := by
    unfold normalIndex
    split <;> omega
  refine ⟨_, List.get?_eq_get hlt, ?_⟩
  unfold playNextTrackEarly
  by_cases hle : a.playlist.length ≤ a.playlistIndex
  · have h0 : a.playlist.get? 0 = some (a.playlist.get ⟨0, hn⟩) := List.get?_eq_get hn
    have hN : normalIndex a.playlist.length a.playlistIndex = 0 := by simp [normalIndex, hle]
    simp only [hle, if_true, h0, hN]
  · have hlt2 : a.playlistIndex < a.playlist.length := by omega
    have hN : normalIndex a.playlist.length a.playlistIndex = a.playlistIndex := by
      simp [normalIndex, hle]
    have h0 : a.playlist.get? a.playlistIndex = some (a.playlist.get ⟨a.playlistIndex, hlt2⟩) :=
      List.get?_eq_get hlt2
    simp only [hle, if_false, h0, hN]

/-- `playCurrentTrack` moves the index only by normalising it. -/
theorem playCurrentTrack_index (a : App) :
    (playCurrentTrack a).playlistIndex = a.playlistIndex ∨
      (a.playlist.length ≤ a.playlistIndex ∧ (playCurrentTrack a).playlistIndex = 0) := by
  unfold playCurrentTrack
  by_cases hle : a.playlist.length ≤ a.playlistIndex
  · right
    refine ⟨hle, ?_⟩
    simp only [hle, if_true]
    split
    · rfl
    · split
      · rfl
      · split <;> rfl
  · left
    simp only [hle, if_false]
    split
    · rfl
    · split
      · rfl
      · split <;> rfl

/-- `playNextTrackEarly` moves the index only by normalising it. -/
theorem playNextTrackEarly_index (a : App) :
    (playNextTrackEarly a).playlistIndex = a.playlistIndex ∨
      (a.playlist.length ≤ a.playlistIndex ∧ (playNextTrackEarly a).playlistIndex = 0) := by
  unfold playNextTrackEarly
  by_cases hle : a.playlist.length ≤ a.playlistIndex
  · right
    refine ⟨hle, ?_⟩
    simp only [hle, if_true]
    split <;> rfl
  · left
    simp only [hle, if_false]
    split <;> rfl

/-- What `onEarlySongStart` does while playing after a track transition. -/
theorem onEarlySongStart_go (a : App) (hp : a.isPlaying = true)
    (ht : a.lastDJTalkType = some "track_transition") :
    onEarlySongStart a = playNextTrackEarly { a with songStartedEarly := true } := by
  unfold onEarlySongStart
  simp [hp, ht]

/-- What `onTrackEnd` does when the announcer is due and the banter answer
carries audio. -/
theorem onTrackEnd_talk_audio (cfg : DJTalkConfig) (r : ℚ) (url : String) (now : Int)
    (a : App) (cur : Station) (hp : a.isPlaying = true) (hc : a.currentStation = some cur)
    (ht : shouldDJTalk cfg r (onTrackEndAdvance now a) = true) :
    onTrackEnd cfg r (BanterResponse.withAudio url) now a =
      { a with
        playlistIndex := a.playlistIndex + 1
        djTalkCounter := 0
        stationStates := (onTrackEndAdvance now a).stationStates
        djTalksTriggered := a.djTalksTriggered + 1
        lastDJTalkType := some "track_transition"
        audioSystem := a.audioSystem.playDJ url } := by
  rw [onTrackEnd_talk cfg r _ now a hp ht]
  generalize hst : (onTrackEndAdvance now a).stationStates = states
  have hf := onTrackEndAdvance_fields now a
  rw [hst] at hf
  rw [hf]
  simp [triggerDJTalk, triggerDJTalkRequest, triggerDJTalkResponse, hc]

/-- C10. In the early-start overlap path (`onTrackEnd` asks the announcer and
gets audio, then `onEarlySongStart`, then `onDJEnd`) on a non-empty playlist,
`onTrackEnd` advances `playlistIndex` by one and issues no play command,
`onEarlySongStart` only normalises that index, starts the track at the
normalised index and sets the early-start flag, and `onDJEnd` changes neither
the index nor the audio engine (no second play command) and clears the flag.
In every state `playNextTrackEarly`, `onEarlySongStart` and `onDJEnd` move
`playlistIndex` only by normalising an index at or past the playlist length
to 0. -/
theorem C10_early_start_advances_once (cfg : DJTalkConfig) (r : ℚ) (url : String)
    (now : Int) (a : App) (cur : Station) (hp : a.isPlaying = true)
    (hc : a.currentStation = some cur)
    (ht : shouldDJTalk cfg r (onTrackEndAdvance now a) = true)
    (hn : 0 < a.playlist.length) :
    (onTrackEnd cfg r (BanterResponse.withAudio url) now a).playlistIndex
      = a.playlistIndex + 1 ∧
    (onTrackEnd cfg r (BanterResponse.withAudio url) now a).audioSystem.playCommands
      = a.audioSystem.playCommands ∧
    (onEarlySongStart (onTrackEnd cfg r (BanterResponse.withAudio url) now a)).playlistIndex
      = normalIndex a.playlist.length (a.playlistIndex + 1) ∧
    (onEarlySongStart (onTrackEnd cfg r (BanterResponse.withAudio url) now a)).songStartedEarly
      = true ∧
    (∃ track : Track,
      a.playlist.get? (normalIndex a.playlist.length (a.playlistIndex + 1)) = some track ∧
      (onEarlySongStart
        (onTrackEnd cfg r (BanterResponse.withAudio url) now a)).audioSystem.playCommands
        = a.audioSystem.playCommands ++ [streamUrl track] ∧
      (onEarlySongStart
        (onTrackEnd cfg r (BanterResponse.withAudio url) now a)).audioSystem.mainAudio.src
        = some (streamUrl track)) ∧
    (onDJEnd (onEarlySongStart
      (onTrackEnd cfg r (BanterResponse.withAudio url) now a))).playlistIndex
      = normalIndex a.playlist.length (a.playlistIndex + 1) ∧
    (onDJEnd (onEarlySongStart
      (onTrackEnd cfg r (BanterResponse.withAudio url) now a))).audioSystem
      = (onEarlySongStart (onTrackEnd cfg r (BanterResponse.withAudio url) now a)).audioSystem ∧
    (onDJEnd (onEarlySongStart
      (onTrackEnd cfg r (BanterResponse.withAudio url) now a))).songStartedEarly = false ∧
    (∀ b : App,
      ((playNextTrackEarly b).playlistIndex = b.playlistIndex ∨
        (b.playlist.length ≤ b.playlistIndex ∧ (playNextTrackEarly b).playlistIndex = 0)) ∧
      ((onEarlySongStart b).playlistIndex = b.playlistIndex ∨
        (b.playlist.length ≤ b.playlistIndex ∧ (onEarlySongStart b).playlistIndex = 0)) ∧
      ((onDJEnd b).playlistIndex = b.playlistIndex ∨
        (b.playlist.length ≤ b.playlistIndex ∧ (onDJEnd b).playlistIndex = 0))) := by
  have h1 := onTrackEnd_talk_audio cfg r url now a cur hp hc ht
  generalize (onTrackEndAdvance now a).stationStates = states at h1
  rw [h1]
  obtain ⟨track, htrack, hearly⟩ := playNextTrackEarly_nonempty
    { a with
      playlistIndex := a.playlistIndex + 1
      djTalkCounter := 0
      stationStates := states
      djTalksTriggered := a.djTalksTriggered + 1
      lastDJTalkType := some "track_transition"
      audioSystem := a.audioSystem.playDJ url
      songStartedEarly := true } hn
  rw [onEarlySongStart_go _ (by exact hp) (by rfl), hearly]
  refine ⟨rfl, rfl, rfl, rfl, ⟨track, htrack, ?_, rfl⟩, ?_, ?_, ?_, ?_⟩
  · simp [AudioSystem.playTrack, AudioSystem.playDJ]
  · simp [onDJEnd]
  · simp [onDJEnd]
  · simp [onDJEnd]
  · intro b
    refine ⟨playNextTrackEarly_index b, ?_, ?_⟩
    · unfold onEarlySongStart
      split
      · exact Or.inl rfl
      · exact playNextTrackEarly_index { b with songStartedEarly := true }
    · unfold onDJEnd
      simp only
      split
      · exact playCurrentTrack_index b
      · exact Or.inl rfl

/-- On `S1` with three tracks, track 1 ending with the announcer due (draw 0,
threshold 1): the overlap path ends on track 2, started once. -/
theorem C10_early_start_advances_once_witness :
    (onDJEnd (onEarlySongStart
      (onTrackEnd DJ_TALK_CONFIG 0 (BanterResponse.withAudio "blob:announcer") 4000
        appPlayingS1))).playlistIndex = 2 ∧
    (onDJEnd (onEarlySongStart
      (onTrackEnd DJ_TALK_CONFIG 0 (BanterResponse.withAudio "blob:announcer") 4000
        appPlayingS1))).audioSystem.playCommands.length = 1 := by
  obtain ⟨_, _, _, _, ⟨track, _, hcmd, _⟩, hidx, haudio, _⟩ :=
    C10_early_start_advances_once DJ_TALK_CONFIG 0 "blob:announcer" 4000 appPlayingS1
      stationS1 rfl rfl
      (by unfold shouldDJTalk; rw [getRandomInt_zero]; rfl) (by decide)
  refine ⟨by rw [hidx]; rfl, ?_⟩
  rw [haudio, hcmd]
  rfl

/-! ## Lemmas on the periodic tick -/

/-- A tick stores the position of the music element for the current station. -/
theorem broadcastTick_current (a : App) (cur : Station) (state : BroadcastState)
    (hc : a.currentStation = some cur) (hs : a.stationStates cur.id = some state) :
    (broadcastTick a).stationStates cur.id =
      some { state with trackPositionSeconds := a.audioSystem.mainAudio.currentTime } := by
  unfold broadcastTick
  simp [hc, hs, setStationState]

/-- Power-off commits the position of the music element and then resets the
music element, so the next tick stores position 0 for the current station. -/
theorem broadcastTick_after_power_off (a : App) (cur : Station) (state : BroadcastState)
    (now : Int) (hon : a.radioPowerOn = true) (hc : a.currentStation = some cur)
    (hs : a.stationStates cur.id = some state) :
    (toggleRadioPower now a).stationStates cur.id =
      some
        { state with
          trackPositionSeconds := a.audioSystem.mainAudio.currentTime
          powerOffTime := some now
          lastLeftTime := some now } ∧
    (broadcastTick (toggleRadioPower now a)).stationStates cur.id =
      some
        { state with
          trackPositionSeconds := 0
          powerOffTime := some now
          lastLeftTime := some now } := by
  have h1 : (toggleRadioPower now a).stationStates cur.id =
      some
        { state with
          trackPositionSeconds := a.audioSystem.mainAudio.currentTime
          powerOffTime := some now
          lastLeftTime := some now } := by
    unfold toggleRadioPower
    simp [hon, hc, hs, stopPlayback, setStationState]
  have h2 : (toggleRadioPower now a).currentStation = some cur := by
    unfold toggleRadioPower
    simp [hon, hc, hs, stopPlayback]
  have h3 : (toggleRadioPower now a).audioSystem.mainAudio.currentTime = 0 := by
    unfold toggleRadioPower
    simp [hon, hc, hs, stopPlayback, AudioSystem.stop]
  refine ⟨h1, ?_⟩
  rw [broadcastTick_current _ cur _ h2 h1, h3]

/-- C5, evaluated at the failing input. Station `S1` is on air at 80 s and the
radio is powered off at clock 5000: power-off stores position 80 s. One
periodic tick later the stored position is 0, and a power-on 30 s after the
power-off schedules a seek to 30 s. -/
theorem C5_tick_overwrites_power_off_position :
    appPlayingS1.audioSystem.mainAudio.currentTime = 80 ∧
    ((toggleRadioPower 5000 appPlayingS1).stationStates "S1").map
      (fun st => st.trackPositionSeconds) = some 80 ∧
    (toggleRadioPower 5000 appPlayingS1).radioPowerOn = false ∧
    ((broadcastTick (toggleRadioPower 5000 appPlayingS1)).stationStates "S1").map
      (fun st => st.trackPositionSeconds) = some 0 ∧
    (toggleRadioPower 35000 (broadcastTick (toggleRadioPower 5000 appPlayingS1))).pendingSeeks
      = [30] := by
  refine ⟨rfl, rfl, rfl, rfl, ?_⟩
  have hon := toggleRadioPower_on (broadcastTick (toggleRadioPower 5000 appPlayingS1)) stationS1
    { visitedState 0 0 (tracksS1 3) 1000 with
      trackPositionSeconds := 0, powerOffTime := some 5000, lastLeftTime := some 5000 }
    35000 rfl rfl rfl
  have hpos : powerOnPosition
      { visitedState 0 0 (tracksS1 3) 1000 with
        trackPositionSeconds := 0, powerOffTime := some 5000, lastLeftTime := some 5000 }
      35000 = 30 := by
    rw [powerOnPosition_eq _ 35000 5000 rfl (by decide),
      jsRem_of_lt _ _ (by norm_num) (by norm_num)]
    norm_num
  rw [hon, hpos]
  exact ((startBroadcast_seek _ 30 (by decide) rfl).2.1 (by norm_num)).2

/-! ## Reachability of a stored index equal to the playlist length -/

/-- A stored track index equal to the playlist length arises in normal use:
`S1` plays its last track (index 2 of three), the track ends with the
announcer due, and the listener tunes to `S2` while the announcer talks. The
state committed for `S1` then holds `currentTrackIndex = 3` for a playlist of
length 3. -/
theorem stored_index_reaches_playlist_length :
    ((tuneToRetroStation "S2" 5000 5800 (some (tracksS1 4))
      (onTrackEnd DJ_TALK_CONFIG 0 (BanterResponse.withAudio "blob:announcer") 4000
        { appPlayingS1 with playlistIndex := 2 })).stationStates "S1").map
      (fun st => (st.currentTrackIndex, st.playlist.length, st.playlistLoaded))
      = some (3, 3, true) := by
  have hstep : onTrackEnd DJ_TALK_CONFIG 0 (BanterResponse.withAudio "blob:announcer") 4000
      { appPlayingS1 with playlistIndex := 2 } =
      { triggerDJTalk "track_transition" (BanterResponse.withAudio "blob:announcer")
          (onTrackEndAdvance 4000 { appPlayingS1 with playlistIndex := 2 }) with
        djTalkCounter := 0 } :=
    onTrackEnd_talk _ _ _ _ _ rfl (by
      unfold shouldDJTalk
      rw [getRandomInt_zero]
      rfl)
  rw [hstep]
  rfl

/-! ## Announcer end, empty playlist, stop and pause -/

/-- The play commands after `playCurrentTrack` on a non-empty playlist. -/
theorem playCurrentTrack_commands (a : App) (hn : 0 < a.playlist.length) :
    ∃ track : Track,
      a.playlist.get? (normalIndex a.playlist.length a.playlistIndex) = some track ∧
      (playCurrentTrack a).audioSystem.playCommands
        = a.audioSystem.playCommands ++ [streamUrl track] ∧
      (playCurrentTrack a).audioSystem.mainAudio.src = some (streamUrl track) ∧
      (playCurrentTrack a).playlistIndex = normalIndex a.playlist.length a.playlistIndex := by
  obtain ⟨track, htrack, h⟩ := playCurrentTrack_nonempty a hn
  refine ⟨track, htrack, ?_, ?_, ?_⟩ <;> rw [h] <;> rfl

/-- The two cases of `onDJEnd`. -/
theorem onDJEnd_cases (a : App) :
    (a.isPlaying = true ∧ a.lastDJTalkType = some "track_transition" ∧ a.songStartedEarly = false →
      onDJEnd a = { playCurrentTrack a with songStartedEarly := false }) ∧
    (¬ (a.isPlaying = true ∧ a.lastDJTalkType = some "track_transition" ∧
        a.songStartedEarly = false) →
      onDJEnd a = { a with songStartedEarly := false }) := by
  constructor
  · rintro ⟨h1, h2, h3⟩
    unfold onDJEnd
    simp [h1, h2, h3]
  · intro h
    unfold onDJEnd
    have : (a.isPlaying && decide (a.lastDJTalkType = some "track_transition")
        && !a.songStartedEarly) = false := by
      by_contra hc
      apply h
      simp only [Bool.not_eq_false, Bool.and_eq_true, decide_eq_true_eq,
        Bool.not_eq_true'] at hc
      exact ⟨hc.1.1, hc.1.2, hc.2⟩
    simp [this]

/-- C11. `onDJEnd` calls `playCurrentTrack` if and only if `isPlaying` is true,
`lastDJTalkType` is `track_transition` and `songStartedEarly` is false (on a
non-empty playlist: exactly then one more play command is issued, for the
track at the normalised index); when a track was started early the audio
engine and the index are left as they are; `songStartedEarly` is false
afterwards in every case; `handleDJEnd` of the audio engine does nothing else
to the state than this call. -/
theorem C11_onDJEnd_begins_next_track (a : App) :
    (a.isPlaying = true ∧ a.lastDJTalkType = some "track_transition" ∧ a.songStartedEarly = false →
      onDJEnd a = { playCurrentTrack a with songStartedEarly := false }) ∧
    (¬ (a.isPlaying = true ∧ a.lastDJTalkType = some "track_transition" ∧
        a.songStartedEarly = false) →
      onDJEnd a = { a with songStartedEarly := false }) ∧
    (0 < a.playlist.length →
      ((onDJEnd a).audioSystem.playCommands.length = a.audioSystem.playCommands.length + 1 ↔
        (a.isPlaying = true ∧ a.lastDJTalkType = some "track_transition" ∧
          a.songStartedEarly = false))) ∧
    (0 < a.playlist.length →
      a.isPlaying = true ∧ a.lastDJTalkType = some "track_transition" ∧
        a.songStartedEarly = false →
      ∃ track : Track,
        a.playlist.get? (normalIndex a.playlist.length a.playlistIndex) = some track ∧
        (onDJEnd a).audioSystem.playCommands = a.audioSystem.playCommands ++ [streamUrl track]) ∧
    (a.songStartedEarly = true →
      (onDJEnd a).audioSystem = a.audioSystem ∧ (onDJEnd a).playlistIndex = a.playlistIndex) ∧
    (onDJEnd a).songStartedEarly = false ∧
    handleDJEnd a = onDJEnd a := by
  obtain ⟨hyes, hno⟩ := onDJEnd_cases a
  refine ⟨hyes, hno, ?_, ?_, ?_, ?_, rfl⟩
  · intro hn
    obtain ⟨track, _, hcmd, _⟩ := playCurrentTrack_commands a hn
    constructor
    · intro hlen
      by_contra hc
      rw [hno hc] at hlen
      simp at hlen
    · intro hc
      rw [hyes hc]
      show (playCurrentTrack a).audioSystem.playCommands.length = _
      rw [hcmd]
      simp
  · intro hn hc
    obtain ⟨track, htrack, hcmd, _⟩ := playCurrentTrack_commands a hn
    refine ⟨track, htrack, ?_⟩
    rw [hyes hc]
    exact hcmd
  · intro hearly
    rw [hno (by rintro ⟨_, _, h3⟩; rw [hearly] at h3; cases h3)]
    exact ⟨rfl, rfl⟩
  · rw [onDJEnd_fields]

/-- C14. When the playlist request fails, or returns no tracks, `loadPlaylist`
leaves an empty playlist; on an empty playlist `startBroadcast` changes nothing
(no play command, `isPlaying` not set) and reports the now-playing title
`No tracks available`. -/
theorem C14_empty_playlist_no_play (a : App) (stationId : String) :
    (loadPlaylist stationId none a).playlist = [] ∧
    (loadPlaylist stationId (some []) a).playlist = [] ∧
    (∀ b : App, b.playlist = [] →
      startBroadcast b = b ∧
      (startBroadcast b).audioSystem.playCommands = b.audioSystem.playCommands ∧
      (startBroadcast b).isPlaying = b.isPlaying ∧
      (startBroadcastNowPlaying b).map (fun info => info.title) = some "No tracks available") ∧
    (startBroadcast (loadPlaylist stationId none a)).audioSystem.playCommands
      = a.audioSystem.playCommands ∧
    (startBroadcast (loadPlaylist stationId (some []) a)).audioSystem.playCommands
      = a.audioSystem.playCommands ∧
    (startBroadcast (loadPlaylist stationId none a)).isPlaying = a.isPlaying ∧
    (startBroadcast (loadPlaylist stationId (some []) a)).isPlaying = a.isPlaying := by
  have hnone : loadPlaylist stationId none a = { a with playlist := [] } := rfl
  have hempty : loadPlaylist stationId (some []) a = { a with playlist := [], playlistIndex := 0 } := by
    unfold loadPlaylist calculateBroadcastPosition
    simp only
    cases a.stationStates stationId with
    | none => rfl
    | some state => simp
  have hsb : ∀ b : App, b.playlist = [] → startBroadcast b = b := by
    intro b hb
    unfold startBroadcast
    simp [hb]
  refine ⟨by rw [hnone], by rw [hempty], ?_, ?_, ?_, ?_, ?_⟩
  · intro b hb
    refine ⟨hsb b hb, by rw [hsb b hb], by rw [hsb b hb], ?_⟩
    unfold startBroadcastNowPlaying
    simp [hb]
  · rw [hsb _ (by rw [hnone]), hnone]
  · rw [hsb _ (by rw [hempty]), hempty]
  · rw [hsb _ (by rw [hnone]), hnone]
  · rw [hsb _ (by rw [hempty]), hempty]

/-- C20. `pauseForSwitch` returns the position of the music element and leaves
it unchanged; `stop` resets the positions of the music and announcer elements
to 0; both set `isPlaying` to false and pause both elements; each is
idempotent, and a second `pauseForSwitch` returns the same position. -/
theorem C20_stop_and_pause (s : AudioSystem) :
    s.pauseForSwitch.2 = s.mainAudio.currentTime ∧
    s.pauseForSwitch.1.mainAudio.currentTime = s.mainAudio.currentTime ∧
    s.pauseForSwitch.1.djAudio.currentTime = s.djAudio.currentTime ∧
    s.stop.mainAudio.currentTime = 0 ∧
    s.stop.djAudio.currentTime = 0 ∧
    s.pauseForSwitch.1.isPlaying = false ∧
    s.stop.isPlaying = false ∧
    s.pauseForSwitch.1.mainAudio.paused = true ∧
    s.pauseForSwitch.1.djAudio.paused = true ∧
    s.stop.mainAudio.paused = true ∧
    s.stop.djAudio.paused = true ∧
    s.stop.stop = s.stop ∧
    s.pauseForSwitch.1.pauseForSwitch = s.pauseForSwitch := by
  refine ⟨rfl, rfl, rfl, rfl, rfl, rfl, rfl, rfl, rfl, rfl, rfl, rfl, rfl⟩

/-! ## The early-start check -/

/-- `playNextTrackEarly` leaves the guard flag of the audio engine alone. -/
theorem playNextTrackEarly_flag (a : App) :
    (playNextTrackEarly a).audioSystem.djEarlySongStarted = a.audioSystem.djEarlySongStarted := by
  unfold playNextTrackEarly
  simp only
  split <;> split <;> rfl

/-- `onEarlySongStart` leaves the guard flag of the audio engine alone. -/
theorem onEarlySongStart_flag (a : App) :
    (onEarlySongStart a).audioSystem.djEarlySongStarted = a.audioSystem.djEarlySongStarted := by
  unfold onEarlySongStart
  split
  · rfl
  · rw [playNextTrackEarly_flag]

/-- With the guard flag set, `checkEarlySongStart` does nothing. -/
theorem checkEarlySongStart_guarded (a : App) (h : a.audioSystem.djEarlySongStarted = true) :
    checkEarlySongStart a = (a, false) := by
  unfold checkEarlySongStart
  rw [if_pos h]

/-- When `checkEarlySongStart` invokes the callback, the announcer element has a
positive duration with at most 4 s and more than 0 s remaining, the guard flag
was clear, and it is set afterwards. -/
theorem checkEarlySongStart_invoked (a : App) (h : (checkEarlySongStart a).2 = true) :
    a.audioSystem.djEarlySongStarted = false ∧
    (checkEarlySongStart a).1.audioSystem.djEarlySongStarted = true ∧
    ∃ d : ℚ, a.audioSystem.djAudio.duration = some d ∧ 0 < d ∧
      0 < d - a.audioSystem.djAudio.currentTime ∧ d - a.audioSystem.djAudio.currentTime ≤ 4 := by
  unfold checkEarlySongStart at h ⊢
  by_cases hf : a.audioSystem.djEarlySongStarted = true
  · rw [if_pos hf] at h
    cases h
  · rw [if_neg hf] at h ⊢
    cases hd : a.audioSystem.djAudio.duration with
    | none =>
      rw [hd] at h
      cases h
    | some d =>
      rw [hd] at h
      simp only at h ⊢
      by_cases hc : 0 < d ∧ d - a.audioSystem.djAudio.currentTime ≤ 4 ∧
          0 < d - a.audioSystem.djAudio.currentTime
      · rw [if_pos hc]
        refine ⟨by simpa using hf, ?_, d, rfl, hc.1, hc.2.2, hc.2.1⟩
        rw [onEarlySongStart_flag]
      · rw [if_neg hc] at h
        cases h

/-- Without invoking the callback, `checkEarlySongStart` changes nothing. -/
theorem checkEarlySongStart_silent (a : App) (h : (checkEarlySongStart a).2 = false) :
    (checkEarlySongStart a).1 = a := by
  unfold checkEarlySongStart at h ⊢
  by_cases hf : a.audioSystem.djEarlySongStarted = true
  · rw [if_pos hf]
  · rw [if_neg hf] at h ⊢
    cases hd : a.audioSystem.djAudio.duration with
    | none => rfl
    | some d =>
      rw [hd] at h
      simp only at h ⊢
      by_cases hc : 0 < d ∧ d - a.audioSystem.djAudio.currentTime ≤ 4 ∧
          0 < d - a.audioSystem.djAudio.currentTime
      · rw [if_pos hc] at h
        cases h
      · rw [if_neg hc]

/-- Once the guard flag is set, no `timeupdate` event invokes the callback. -/
theorem djTimeUpdates_guarded (events : List (Option ℚ × ℚ)) :
    ∀ a : App, a.audioSystem.djEarlySongStarted = true →
      (djTimeUpdates events a).2 = [] ∧
      (djTimeUpdates events a).1.audioSystem.djEarlySongStarted = true := by
  induction events with
  | nil => intro a h; exact ⟨rfl, h⟩
  | cons e es ih =>
    intro a h
    have hstep : djTimeUpdate e.1 e.2 a =
        ({ a with
            audioSystem :=
              { a.audioSystem with
                djAudio := { a.audioSystem.djAudio with duration := e.1, currentTime := e.2 } } },
          false) := by
      unfold djTimeUpdate
      exact checkEarlySongStart_guarded _ h
    unfold djTimeUpdates
    simp only [hstep]
    exact ih _ h

/-- C12. For every sequence of `timeupdate` events of the announcer element
(any durations, any current times) and every starting state, the
`onEarlySongStart` callback is invoked at most once, and only at an event with
`duration > 0` and `0 < duration - currentTime ≤ 4`; with the guard flag set
it is not invoked at all, and `playDJ` clears the guard flag. -/
theorem C12_early_start_fires_once (events : List (Option ℚ × ℚ)) (a : App) :
    (djTimeUpdates events a).2.length ≤ 1 ∧
    (∀ e : Option ℚ × ℚ, e ∈ (djTimeUpdates events a).2 →
      e ∈ events ∧ ∃ d : ℚ, e.1 = some d ∧ 0 < d ∧ 0 < d - e.2 ∧ d - e.2 ≤ 4) ∧
    (a.audioSystem.djEarlySongStarted = true → (djTimeUpdates events a).2 = []) ∧
    (∀ (s : AudioSystem) (url : String), (s.playDJ url).djEarlySongStarted = false) := by
  refine ⟨?_, ?_, fun h => (djTimeUpdates_guarded events a h).1, fun _ _ => rfl⟩
  · induction events generalizing a with
    | nil => simp [djTimeUpdates]
    | cons e es ih =>
      unfold djTimeUpdates
      simp only
      by_cases hinv : (djTimeUpdate e.1 e.2 a).2 = true
      · rw [if_pos hinv]
        have hflag : (djTimeUpdate e.1 e.2 a).1.audioSystem.djEarlySongStarted = true :=
          (checkEarlySongStart_invoked _ hinv).2.1
        rw [(djTimeUpdates_guarded es _ hflag).1]
        simp
      · rw [if_neg hinv]
        exact ih _
  · induction events generalizing a with
    | nil => intro e he; simp [djTimeUpdates] at he
    | cons e0 es ih =>
      intro e he
      unfold djTimeUpdates at he
      simp only at he
      by_cases hinv : (djTimeUpdate e0.1 e0.2 a).2 = true
      · rw [if_pos hinv] at he
        have hflag : (djTimeUpdate e0.1 e0.2 a).1.audioSystem.djEarlySongStarted = true :=
          (checkEarlySongStart_invoked _ hinv).2.1
        rw [(djTimeUpdates_guarded es _ hflag).1] at he
        have hee : e = e0 := by simpa using he
        subst hee
        obtain ⟨_, _, d, hd, h1, h2, h3⟩ := checkEarlySongStart_invoked _ hinv
        exact ⟨List.mem_cons_self _ _, d, hd, h1, h2, h3⟩
      · rw [if_neg hinv] at he
        obtain ⟨hmem, hrest⟩ := ih _ e he
        exact ⟨List.mem_cons_of_mem _ hmem, hrest⟩

/-! ## The seek after a rejoin -/

/-- With a known positive duration `attemptSeek` does not reschedule itself and
moves the music element to `min seekPosition (duration - 5)` when that is
positive. -/
theorem attemptSeek_ready (seekPosition d : ℚ) (a : App)
    (hd : a.audioSystem.mainAudio.duration = some d) (hpos : 0 < d) :
    attemptSeek seekPosition a =
      (if 0 < min seekPosition (d - 5) then
        { a with
          audioSystem :=
            { a.audioSystem with
              mainAudio :=
                { a.audioSystem.mainAudio with currentTime := min seekPosition (d - 5) } } }
      else a, false) := by
  unfold attemptSeek
  rw [hd]
  simp only [hpos, if_true]
  split <;> rfl

/-- Without a positive duration `attemptSeek` changes nothing and reschedules
itself. -/
theorem attemptSeek_not_ready (seekPosition : ℚ) (a : App)
    (hd : ∀ d : ℚ, a.audioSystem.mainAudio.duration = some d → ¬ 0 < d) :
    attemptSeek seekPosition a = (a, true) := by
  unfold attemptSeek
  cases h : a.audioSystem.mainAudio.duration with
  | none => rfl
  | some d =>
    simp only
    rw [if_neg (hd d h)]

/-- C15. For every requested position `s > 0` and every available duration
`d > 0`, the seek of `playCurrentTrack` (`attemptSeek`) sets the position of the
music element to `min s (d - 5)` when that value is positive and otherwise
leaves the state untouched, without rescheduling itself; a position `t` that
it applies satisfies `0 < t ≤ d - 5` and `t ≤ s`. The requested position is
the positive `seekToPosition` that `playCurrentTrack` found. -/
theorem C15_seek_clamped (s d : ℚ) (a : App) (hs : 0 < s)
    (hd : a.audioSystem.mainAudio.duration = some d) (hpos : 0 < d) :
    (attemptSeek s a).2 = false ∧
    (0 < min s (d - 5) →
      (attemptSeek s a).1.audioSystem.mainAudio.currentTime = min s (d - 5)) ∧
    (¬ 0 < min s (d - 5) → (attemptSeek s a).1 = a) ∧
    (∀ t : ℚ, (attemptSeek s a).1 ≠ a →
      (attemptSeek s a).1.audioSystem.mainAudio.currentTime = t →
      0 < t ∧ t ≤ d - 5 ∧ t ≤ s) ∧
    (∀ b : App, 0 < b.playlist.length → b.seekToPosition = some s →
      (playCurrentTrack b).pendingSeeks = b.pendingSeeks ++ [s] ∧
      (playCurrentTrack b).seekToPosition = none) := by
  have h := attemptSeek_ready s d a hd hpos
  refine ⟨by rw [h], ?_, ?_, ?_, ?_⟩
  · intro hm
    rw [h, if_pos hm]
  · intro hm
    rw [h, if_neg hm]
  · intro t hne ht
    by_cases hm : 0 < min s (d - 5)
    · rw [h, if_pos hm] at ht
      have ht2 : min s (d - 5) = t := ht
      rw [← ht2]
      exact ⟨hm, min_le_right _ _, min_le_left _ _⟩
    · rw [h, if_neg hm] at hne
      exact absurd rfl hne
  · intro b hn hb
    obtain ⟨track, _, hp⟩ := playCurrentTrack_nonempty b hn
    rw [hp]
    simp [hb, hs]

/-- A rejoin at 55 s on a track of 200 s seeks to 55 s; a rejoin at 180 s on a
track of 120 s seeks to 115 s. -/
theorem C15_seek_clamped_witness :
    (attemptSeek 55
      { appPlayingS1 with
        audioSystem :=
          { appPlayingS1.audioSystem with
            mainAudio :=
              { appPlayingS1.audioSystem.mainAudio with
                duration := some 200 } } }).1.audioSystem.mainAudio.currentTime = 55 ∧
    (attemptSeek 180
      { appPlayingS1 with
        audioSystem :=
          { appPlayingS1.audioSystem with
            mainAudio :=
              { appPlayingS1.audioSystem.mainAudio with
                duration := some 120 } } }).1.audioSystem.mainAudio.currentTime = 115 := by
  constructor
  · rw [(C15_seek_clamped 55 200 _ (by norm_num) rfl (by norm_num)).2.1 (by norm_num)]
    norm_num
  · rw [(C15_seek_clamped 180 120 _ (by norm_num) rfl (by norm_num)).2.1 (by norm_num)]
    norm_num

/-- While the duration is unavailable every firing of the seek timer leaves
the state as it is, the seek still scheduled. -/
theorem seekTimerFires_not_ready (s : ℚ) (a : App) (hp : a.pendingSeeks = [s])
    (hd : ∀ d : ℚ, a.audioSystem.mainAudio.duration = some d → ¬ 0 < d) :
    seekTimerFires a = a := by
  unfold seekTimerFires
  rw [hp]
  simp only
  rw [attemptSeek_not_ready s _ (by exact hd)]
  simp only [if_true, List.nil_append]
  rw [← hp]

/-- While the duration is unavailable every attempt reschedules: `n` firings
of the seek timer make `n` retries. -/
theorem retriesWithin_not_ready (s : ℚ) (a : App) (hp : a.pendingSeeks = [s])
    (hd : ∀ d : ℚ, a.audioSystem.mainAudio.duration = some d → ¬ 0 < d) (n : Nat) :
    retriesWithin n a = n := by
  induction n with
  | zero => rfl
  | succ n ih =>
    unfold retriesWithin
    rw [hp]
    simp only
    rw [attemptSeek_not_ready s _ (by exact hd), seekTimerFires_not_ready s a hp hd, ih]
    simp only [if_true]
    omega

/-- C16 (amended). If the media duration never becomes available after
`playCurrentTrack` has scheduled a seek, `attemptSeek` reschedules itself at
every attempt, without bound: after any number `n` of firings of the seek
timer it has retried `n` times, the state is unchanged and the seek is still
scheduled; it is neither performed nor abandoned. -/
theorem C16_seek_retries_unbounded (s : ℚ) (a : App) (n : Nat)
    (hp : a.pendingSeeks = [s])
    (hd : ∀ d : ℚ, a.audioSystem.mainAudio.duration = some d → ¬ 0 < d) :
    retriesWithin n a = n ∧
    seekTimerFires^[n] a = a ∧
    (seekTimerFires^[n] a).pendingSeeks = [s] ∧
    (attemptSeek s a).2 = true := by
  have hfix : seekTimerFires^[n] a = a :=
    Function.iterate_fixed (seekTimerFires_not_ready s a hp hd) n
  refine ⟨retriesWithin_not_ready s a hp hd n, hfix, by rw [hfix, hp], ?_⟩
  rw [attemptSeek_not_ready s a hd]

/-- The rejoin example has one seek scheduled and no duration yet. -/
theorem appSeekPending_state :
    appSeekPending.pendingSeeks = [55] ∧
    appSeekPending.audioSystem.mainAudio.duration = none := by
  obtain ⟨track, _, h⟩ :=
    playCurrentTrack_nonempty { appPlayingS1 with seekToPosition := some 55 } (by decide)
  unfold appSeekPending
  rw [h]
  constructor
  · show (if (0 : ℚ) < 55 then appPlayingS1.pendingSeeks ++ [55] else appPlayingS1.pendingSeeks)
      = [55]
    rw [if_pos (by norm_num)]
    rfl
  · rfl

/-- After a rejoin at 55 s whose track never reports a duration, 1000 firings
of the seek timer make 1000 retries and the seek is still scheduled. -/
theorem C16_seek_retries_unbounded_witness :
    retriesWithin 1000 appSeekPending = 1000 ∧
    (seekTimerFires^[1000] appSeekPending).pendingSeeks = [55] := by
  have h := C16_seek_retries_unbounded 55 appSeekPending 1000 appSeekPending_state.1
    (by intro d hd; rw [appSeekPending_state.2] at hd; cases hd)
  exact ⟨h.1, h.2.2.1⟩

/-- C16 (as stated) fails: after a rejoin at 55 s whose track never reports a
duration, no fixed number bounds the retries of `attemptSeek`. -/
theorem C16_counterexample :
    ¬ ∃ N : Nat, ∀ n : Nat, retriesWithin n appSeekPending ≤ N := by
  rintro ⟨N, hN⟩
  have h := hN (N + 1)
  rw [retriesWithin_not_ready 55 appSeekPending appSeekPending_state.1
    (by intro d hd; rw [appSeekPending_state.2] at hd; cases hd)] at h
  omega

/-! ## Number of iterations of the wrap loop -/

/-- The wrap loop performs `wrapCount p` iterations. -/
theorem wrapLoop_iterations (len : Nat) (p : ℚ) (i : Nat) :
    (wrapLoop len p i 0).2.2 = wrapCount p := by
  rw [wrapLoop_closed]

/-- The projected position of a station left at clock `t`, looked at
`210 (N + 1) + 1` seconds later, needs more than `N` wraps. -/
theorem wrapCount_grows (state : BroadcastState) (t : Int) (N : Nat)
    (ht : state.lastLeftTime = some t) (h0 : t ≠ 0) (hpos : 0 ≤ state.trackPositionSeconds) :
    N < wrapCount (projectedPosition state (t + 210000 * ((N : Int) + 1) + 1000)) := by
  have hp : projectedPosition state (t + 210000 * ((N : Int) + 1) + 1000)
      = state.trackPositionSeconds + (210 * ((N : ℚ) + 1) + 1) := by
    rw [projectedPosition_of_left state _ t ht h0]
    have : (t + 210000 * ((N : Int) + 1) + 1000 - t : Int) = 210000 * ((N : Int) + 1) + 1000 := by
      ring
    rw [this]
    push_cast
    ring
  have hle := wrapCount_le (projectedPosition state (t + 210000 * ((N : Int) + 1) + 1000))
  rw [hp] at hle ⊢
  have : (N : ℚ) < (wrapCount (state.trackPositionSeconds + (210 * ((N : ℚ) + 1) + 1)) : ℚ) := by
    linarith
  exact_mod_cast this

/-- C18 (amended). The wrap loop of `restoreStationState` terminates for every
playlist length, projected position `p` and stored index, after exactly
`max 0 (⌈p / 210⌉ - 1)` iterations. This number is not capped: it is at least
`(p - 210) / 210`, so for a station left at clock `t` it exceeds every `N`
once `210 (N + 1) + 1` seconds have elapsed. -/
theorem C18_wrap_iterations_grow (len : Nat) (p : ℚ) (i : Nat) :
    (wrapLoop len p i 0).2.2 = (⌈p / 210⌉ - 1).toNat ∧
    (wrapLoop len p i 0).1 = p - 210 * ((wrapLoop len p i 0).2.2 : ℚ) ∧
    (wrapLoop len p i 0).1 ≤ 210 ∧
    p - 210 ≤ 210 * ((wrapLoop len p i 0).2.2 : ℚ) ∧
    (p ≤ 210 → (wrapLoop len p i 0).2.2 = 0) ∧
    (∀ (state : BroadcastState) (t : Int) (N : Nat),
      state.lastLeftTime = some t → t ≠ 0 → 0 ≤ state.trackPositionSeconds →
      N < (wrapLoop len
        (projectedPosition state (t + 210000 * ((N : Int) + 1) + 1000)) i 0).2.2) := by
  have hk := wrapLoop_iterations len p i
  have hc := wrapLoop_closed len p i
  have hle := wrapCount_le p
  refine ⟨hk, ?_, ?_, ?_, ?_, ?_⟩
  · rw [hk, hc]
  · rw [hc]
    exact hle
  · rw [hk]
    linarith
  · intro hp
    rw [wrapLoop_no_wrap len p i 0 hp]
  · intro state t N ht h0 hpos
    rw [wrapLoop_iterations]
    exact wrapCount_grows state t N ht h0 hpos

/-- C18 (as stated) fails: for station `S1` left at clock 1000 on track 3 at
45 s, a return one day later takes 411 wrap iterations, and no fixed number
bounds the iterations over all clock values. -/
theorem C18_counterexample :
    (wrapLoop 6 (projectedPosition (visitedState 3 45 (tracksS1 6) 1000) 86401000) 3 0).2.2 = 411 ∧
    ¬ ∃ N : Nat, ∀ now : Int,
      (wrapLoop 6 (projectedPosition (visitedState 3 45 (tracksS1 6) 1000) now) 3 0).2.2 ≤ N := by
  constructor
  · have hp : projectedPosition (visitedState 3 45 (tracksS1 6) 1000) 86401000 = 86445 := by
      norm_num [projectedPosition, visitedState, orNow]
    rw [hp, wrapLoop_iterations]
    symm
    apply wrapCount_unique
    · norm_num
    · intro j hj
      have : (j : ℚ) ≤ 410 := by exact_mod_cast Nat.lt_succ_iff.mp hj
      linarith
  · rintro ⟨N, hN⟩
    have h := hN (1000 + 210000 * ((N : Int) + 1) + 1000)
    rw [wrapLoop_iterations] at h
    have hg := wrapCount_grows (visitedState 3 45 (tracksS1 6) 1000) 1000 N rfl (by decide)
      (by norm_num [visitedState])
    omega

/-! ## Lemmas on the rounding of doubles -/

theorem roundHalfEven_near (y : ℚ) : |(roundHalfEven y : ℚ) - y| ≤ 1 / 2 := by
  have h1 := Int.floor_le y
  have h2 := Int.lt_floor_add_one y
  unfold roundHalfEven
  split_ifs with ha hb hc
  · rw [abs_le]
    constructor <;> linarith
  · push_cast
    rw [abs_le]
    constructor <;> linarith
  · have := not_lt.mp hb
    rw [abs_le]
    constructor <;> linarith
  · have := not_lt.mp ha
    push_cast
    rw [abs_le]
    constructor <;> linarith

theorem roundHalfEven_intCast (n : ℤ) : roundHalfEven (n : ℚ) = n := by
  unfold roundHalfEven
  rw [Int.floor_intCast]
  simp

/-- No integer is nearer to `y` than `roundHalfEven y`. -/
theorem roundHalfEven_nearest (y : ℚ) (n : ℤ) :
    |(roundHalfEven y : ℚ) - y| ≤ |(n : ℚ) - y| := by
  by_cases h : n = roundHalfEven y
  · rw [h]
  · have h1 := roundHalfEven_near y
    have h2 : (1 : ℚ) ≤ |(n : ℚ) - roundHalfEven y| := by
      have : (1 : ℤ) ≤ |n - roundHalfEven y| := Int.one_le_abs (sub_ne_zero.mpr h)
      exact_mod_cast this
    have h3 : |(n : ℚ) - roundHalfEven y| ≤ |(n : ℚ) - y| + |(roundHalfEven y : ℚ) - y| := by
      have := abs_sub_le (n : ℚ) y (roundHalfEven y)
      rwa [abs_sub_comm y _] at this
    linarith

theorem two_zpow_pos (k : ℤ) : (0 : ℚ) < 2 ^ k := by positivity

theorem zpow_log_le_abs (x : ℚ) (hx : x ≠ 0) : (2 : ℚ) ^ Int.log 2 |x| ≤ |x| := by
  have := Int.zpow_log_le_self (b := 2) (by norm_num) (abs_pos.mpr hx)
  simpa using this

theorem abs_lt_zpow_log_succ (x : ℚ) : |x| < (2 : ℚ) ^ (Int.log 2 |x| + 1) := by
  have := Int.lt_zpow_succ_log_self (b := 2) (by norm_num) |x|
  simpa using this

theorem log_lt_of_abs_lt (x : ℚ) (hx : x ≠ 0) (j : ℤ) (h : |x| < (2 : ℚ) ^ j) :
    Int.log 2 |x| < j := by
  have := (Int.lt_zpow_iff_log_lt (b := 2) (by norm_num) (abs_pos.mpr hx) (x := j)).mp
    (by simpa using h)
  exact this

theorem le_log_of_le_abs (x : ℚ) (hx : x ≠ 0) (j : ℤ) (h : (2 : ℚ) ^ j ≤ |x|) :
    j ≤ Int.log 2 |x| := by
  have := (Int.zpow_le_iff_le_log (b := 2) (by norm_num) (abs_pos.mpr hx) (x := j)).mp
    (by simpa using h)
  exact this

theorem doubleSpacingExp_ge (x : ℚ) : -1074 ≤ doubleSpacingExp x := by
  unfold doubleSpacingExp
  have := le_max_right (Int.log 2 |x|) (-1022)
  omega

theorem doubleSpacingExp_ge_log (x : ℚ) : Int.log 2 |x| - 52 ≤ doubleSpacingExp x := by
  unfold doubleSpacingExp
  have := le_max_left (Int.log 2 |x|) (-1022)
  omega

theorem roundDouble_zero : roundDouble 0 = 0 := by
  unfold roundDouble
  rw [zero_div]
  have := roundHalfEven_intCast 0
  rw [Int.cast_zero] at this
  rw [this]
  simp

/-- An integer multiple of its own spacing is a double. -/
theorem roundDouble_of_multiple (z : ℚ) (N : ℤ) (h : z = N * 2 ^ doubleSpacingExp z) :
    roundDouble z = z := by
  have hq := two_zpow_pos (doubleSpacingExp z)
  have hd : z / 2 ^ doubleSpacingExp z = N := by
    rw [div_eq_iff hq.ne']
    exact h
  unfold roundDouble
  rw [hd, roundHalfEven_intCast]
  exact h.symm

/-- A multiple of a power of two is a multiple of every smaller power of two. -/
theorem multiple_of_finer (z : ℚ) (m k j : ℤ) (h : z = m * 2 ^ k) (hj : j ≤ k) :
    ∃ N : ℤ, z = N * 2 ^ j := by
  refine ⟨m * 2 ^ (k - j).toNat, ?_⟩
  have e : (2 : ℚ) ^ k = 2 ^ (((k - j).toNat : ℤ)) * 2 ^ j := by
    rw [← zpow_add₀ (by norm_num : (2 : ℚ) ≠ 0), Int.toNat_of_nonneg (by omega)]
    congr 1
    ring
  rw [h, e, zpow_natCast]
  push_cast
  ring

/-- Every `m * 2^k` with `|m| < 2^53` and `k ≥ -1074` is a double. -/
theorem roundDouble_representable (m k : ℤ) (hm : |m| < 2 ^ 53) (hk : -1074 ≤ k) :
    roundDouble ((m : ℚ) * 2 ^ k) = (m : ℚ) * 2 ^ k := by
  by_cases h0 : (m : ℚ) * 2 ^ k = 0
  · rw [h0]
    exact roundDouble_zero
  · have hlog : Int.log 2 |(m : ℚ) * 2 ^ k| < 53 + k := by
      apply log_lt_of_abs_lt _ h0
      rw [abs_mul, abs_of_pos (two_zpow_pos k), zpow_add₀ (by norm_num : (2 : ℚ) ≠ 0)]
      have hm2 : |(m : ℚ)| < 2 ^ (53 : ℤ) := by
        have : ((|m| : ℤ) : ℚ) < ((2 ^ 53 : ℤ) : ℚ) := by exact_mod_cast hm
        rw [Int.cast_abs] at this
        norm_num at this ⊢
        exact this
      exact mul_lt_mul_of_pos_right hm2 (two_zpow_pos k)
    have hle : doubleSpacingExp ((m : ℚ) * 2 ^ k) ≤ k := by
      unfold doubleSpacingExp
      have := max_le (a := Int.log 2 |(m : ℚ) * 2 ^ k|) (b := -1022) (c := k + 52)
        (by omega) (by omega)
      omega
    obtain ⟨N, hN⟩ := multiple_of_finer _ m k _ rfl hle
    exact roundDouble_of_multiple _ N hN

/-- The scaled argument of the rounding stays below `2^53` in magnitude. -/
theorem abs_scaled_lt (x : ℚ) : |x / 2 ^ doubleSpacingExp x| < 2 ^ (53 : ℤ) := by
  have hq := two_zpow_pos (doubleSpacingExp x)
  rw [abs_div, abs_of_pos hq, div_lt_iff₀ hq, ← zpow_add₀ (by norm_num : (2 : ℚ) ≠ 0)]
  refine lt_of_lt_of_le (abs_lt_zpow_log_succ x) ?_
  apply zpow_le_zpow_right₀ (by norm_num)
  have := doubleSpacingExp_ge_log x
  omega

/-- Rounding yields a double: rounding it again changes nothing. -/
theorem roundDouble_idem (x : ℚ) : roundDouble (roundDouble x) = roundDouble x := by
  have hn : |roundHalfEven (x / 2 ^ doubleSpacingExp x)| ≤ 2 ^ 53 := by
    have h1 := roundHalfEven_near (x / 2 ^ doubleSpacingExp x)
    have h2 := abs_scaled_lt x
    have h3 : |(roundHalfEven (x / 2 ^ doubleSpacingExp x) : ℚ)| < 2 ^ (53 : ℤ) + 1 / 2 := by
      have := abs_sub_abs_le_abs_sub (roundHalfEven (x / 2 ^ doubleSpacingExp x) : ℚ)
        (x / 2 ^ doubleSpacingExp x)
      linarith
    by_contra hc
    have h4 : (2 : ℤ) ^ 53 + 1 ≤ |roundHalfEven (x / 2 ^ doubleSpacingExp x)| := by omega
    have h5 : (((2 : ℤ) ^ 53 + 1 : ℤ) : ℚ) ≤ ((|roundHalfEven (x / 2 ^ doubleSpacingExp x)| : ℤ) : ℚ) := by
      exact_mod_cast h4
    rw [Int.cast_abs] at h5
    norm_num at h3 h5
    linarith
  have hk := doubleSpacingExp_ge x
  rcases lt_or_eq_of_le hn with hlt | heq
  · exact roundDouble_representable _ _ hlt hk
  · have hcases : roundHalfEven (x / 2 ^ doubleSpacingExp x) = 2 ^ 53 ∨
        roundHalfEven (x / 2 ^ doubleSpacingExp x) = -2 ^ 53 := by
      rcases abs_cases (roundHalfEven (x / 2 ^ doubleSpacingExp x)) with ⟨h, _⟩ | ⟨h, _⟩
      · left
        rw [← h, heq]
      · right
        rw [h] at heq
        omega
    have hz : (2 : ℚ) ^ (doubleSpacingExp x + 1) = 2 ^ doubleSpacingExp x * 2 := by
      rw [zpow_add₀ (by norm_num : (2 : ℚ) ≠ 0), zpow_one]
    rcases hcases with h | h
    · have e : roundDouble x = ((2 ^ 52 : ℤ) : ℚ) * 2 ^ (doubleSpacingExp x + 1) := by
        unfold roundDouble
        rw [h, hz]
        push_cast
        ring
      rw [e]
      exact roundDouble_representable _ _ (by norm_num) (by omega)
    · have e : roundDouble x = ((-2 ^ 52 : ℤ) : ℚ) * 2 ^ (doubleSpacingExp x + 1) := by
        unfold roundDouble
        rw [h, hz]
        push_cast
        ring
      rw [e]
      exact roundDouble_representable _ _ (by norm_num) (by omega)

/-- No double is nearer to `x` than `roundDouble x`. -/
theorem roundDouble_nearest (x z : ℚ) (hz : roundDouble z = z) :
    |roundDouble x - x| ≤ |z - x| := by
  have hq := two_zpow_pos (doubleSpacingExp x)
  have key : ∀ N : ℤ, |roundDouble x - x| ≤ |(N : ℚ) * 2 ^ doubleSpacingExp x - x| := by
    intro N
    have h := roundHalfEven_nearest (x / 2 ^ doubleSpacingExp x) N
    have e1 : roundDouble x - x
        = ((roundHalfEven (x / 2 ^ doubleSpacingExp x) : ℚ) - x / 2 ^ doubleSpacingExp x)
          * 2 ^ doubleSpacingExp x := by
      unfold roundDouble
      field_simp
    have e2 : (N : ℚ) * 2 ^ doubleSpacingExp x - x
        = ((N : ℚ) - x / 2 ^ doubleSpacingExp x) * 2 ^ doubleSpacingExp x := by
      field_simp
    rw [e1, e2, abs_mul, abs_mul, abs_of_pos hq]
    exact mul_le_mul_of_nonneg_right h hq.le
  by_cases hx : x = 0
  · rw [hx, roundDouble_zero]
    simp
  by_cases hk : doubleSpacingExp x ≤ doubleSpacingExp z
  · obtain ⟨N, hN⟩ := multiple_of_finer z (roundHalfEven (z / 2 ^ doubleSpacingExp z))
      (doubleSpacingExp z) (doubleSpacingExp x) (by rw [← hz]; rw [hz]; exact hz.symm) hk
    rw [hN]
    exact key N
  · have hk2 : doubleSpacingExp z < doubleSpacingExp x := not_le.mp hk
    have hex : -1022 < Int.log 2 |x| ∧ doubleSpacingExp x = Int.log 2 |x| - 52 := by
      have hz1 := doubleSpacingExp_ge z
      unfold doubleSpacingExp at hk2 ⊢
      rcases le_total (Int.log 2 |x|) (-1022) with h | h
      · rw [max_eq_right h] at hk2
        have := le_max_right (Int.log 2 |z|) (-1022)
        omega
      · rw [max_eq_left h] at hk2 ⊢
        have := le_max_right (Int.log 2 |z|) (-1022)
        exact ⟨by omega, rfl⟩
    have hzlt : |z| < 2 ^ Int.log 2 |x| := by
      by_cases hz0 : z = 0
      · rw [hz0, abs_zero]
        exact two_zpow_pos _
      · refine lt_of_lt_of_le (abs_lt_zpow_log_succ z) ?_
        apply zpow_le_zpow_right₀ (by norm_num)
        have := doubleSpacingExp_ge_log z
        omega
    have hxge := zpow_log_le_abs x hx
    have hpow : (2 : ℚ) ^ Int.log 2 |x| = ((2 ^ 52 : ℤ) : ℚ) * 2 ^ doubleSpacingExp x := by
      rw [hex.2]
      have : Int.log 2 |x| = 52 + (Int.log 2 |x| - 52) := by ring
      nth_rewrite 1 [this]
      rw [zpow_add₀ (by norm_num : (2 : ℚ) ≠ 0)]
      norm_num
    have hzx : |x| - |z| ≤ |z - x| := by
      have := abs_sub_abs_le_abs_sub x z
      rwa [abs_sub_comm x z] at this
    rcases le_or_lt 0 x with hpos | hneg
    · have h := key (2 ^ 52)
      rw [← hpow] at h
      have habs : |x| = x := abs_of_nonneg hpos
      have : |(2 : ℚ) ^ Int.log 2 |x| - x| = x - 2 ^ Int.log 2 |x| := by
        rw [abs_of_nonpos (by linarith)]
        ring
      rw [this] at h
      linarith
    · have h := key (-2 ^ 52)
      have hpow2 : ((-2 ^ 52 : ℤ) : ℚ) * 2 ^ doubleSpacingExp x = -(2 : ℚ) ^ Int.log 2 |x| := by
        rw [hpow]
        push_cast
        ring
      rw [hpow2] at h
      have habs : |x| = -x := abs_of_neg hneg
      have : |-(2 : ℚ) ^ Int.log 2 |x| - x| = -x - 2 ^ Int.log 2 |x| := by
        rw [abs_of_nonneg (by linarith)]
        ring
      rw [this] at h
      linarith

/-- Rounding to the nearest double is monotone. -/
theorem roundDouble_mono (x y : ℚ) (h : x ≤ y) : roundDouble x ≤ roundDouble y := by
  by_contra hc
  have hlt : roundDouble y < roundDouble x := not_le.mp hc
  have h1 := roundDouble_nearest x (roundDouble y) (roundDouble_idem y)
  have h2 := roundDouble_nearest y (roundDouble x) (roundDouble_idem x)
  have hx : (roundDouble x + roundDouble y) / 2 ≤ x := by
    by_contra hcx
    have hcx2 := not_le.mp hcx
    rcases abs_cases (roundDouble x - x) with ⟨e1, _⟩ | ⟨e1, _⟩ <;>
      rcases abs_cases (roundDouble y - x) with ⟨e2, _⟩ | ⟨e2, _⟩ <;> linarith
  have hy : y ≤ (roundDouble x + roundDouble y) / 2 := by
    by_contra hcy
    have hcy2 := not_le.mp hcy
    rcases abs_cases (roundDouble y - y) with ⟨e1, _⟩ | ⟨e1, _⟩ <;>
      rcases abs_cases (roundDouble x - y) with ⟨e2, _⟩ | ⟨e2, _⟩ <;> linarith
  have hxy : x = y := le_antisymm h (le_trans hy hx)
  rw [hxy] at hlt
  exact lt_irrefl _ hlt

/-- The rounding error: at most `2^-53` of the magnitude, or `2^-1075` in the
subnormal range. -/
theorem roundDouble_error (x : ℚ) :
    |roundDouble x - x| ≤ |x| / 2 ^ 53 + 1 / 2 ^ 1075 := by
  by_cases hx : x = 0
  · rw [hx, roundDouble_zero]
    norm_num
  have hq := two_zpow_pos (doubleSpacingExp x)
  have h1 := roundHalfEven_near (x / 2 ^ doubleSpacingExp x)
  have e1 : roundDouble x - x
      = ((roundHalfEven (x / 2 ^ doubleSpacingExp x) : ℚ) - x / 2 ^ doubleSpacingExp x)
        * 2 ^ doubleSpacingExp x := by
    unfold roundDouble
    field_simp
  have h2 : |roundDouble x - x| ≤ 1 / 2 * 2 ^ doubleSpacingExp x := by
    rw [e1, abs_mul, abs_of_pos hq]
    exact mul_le_mul_of_nonneg_right h1 hq.le
  have hxge := zpow_log_le_abs x hx
  have hpos : (0 : ℚ) ≤ |x| / 2 ^ 53 := by positivity
  rcases le_total (Int.log 2 |x|) (-1022) with h | h
  · have e : doubleSpacingExp x = -1074 := by
      unfold doubleSpacingExp
      rw [max_eq_right h]
      rfl
    rw [e] at h2
    have e3 : (1 : ℚ) / 2 * 2 ^ (-1074 : ℤ) = 1 / 2 ^ 1075 := by
      rw [zpow_neg, ← zpow_natCast]
      norm_num
    rw [e3] at h2
    linarith
  · have e : doubleSpacingExp x = Int.log 2 |x| - 52 := by
      unfold doubleSpacingExp
      rw [max_eq_left h]
    rw [e] at h2
    have e3 : (1 : ℚ) / 2 * 2 ^ (Int.log 2 |x| - 52) = 2 ^ Int.log 2 |x| / 2 ^ 53 := by
      rw [zpow_sub₀ (by norm_num : (2 : ℚ) ≠ 0)]
      norm_num
      ring
    rw [e3] at h2
    have h3 : (2 : ℚ) ^ Int.log 2 |x| / 2 ^ 53 ≤ |x| / 2 ^ 53 :=
      div_le_div_of_nonneg_right hxge (by positivity)
    have h4 : (0 : ℚ) ≤ 1 / 2 ^ 1075 := by positivity
    linarith

theorem roundHalfEven_eq_of_near (y : ℚ) (n : ℤ) (h : |y - n| < 1 / 2) :
    roundHalfEven y = n := by
  have h1 := roundHalfEven_near y
  have h2 : |(roundHalfEven y : ℚ) - n| < 1 := by
    have := abs_sub_le (roundHalfEven y : ℚ) y n
    linarith
  have h3 : |roundHalfEven y - n| < 1 := by exact_mod_cast h2
  have h4 := Int.abs_lt_one_iff.mp h3
  omega

/-- The double nearest to `x`, from the binade `2^e ≤ |x| < 2^(e+1)` of `x` and
an integer multiple `n` of the spacing that is less than half a spacing away. -/
theorem roundDouble_eq_of_near (x : ℚ) (e n : ℤ) (he : -1022 ≤ e) (h1 : (2 : ℚ) ^ e ≤ |x|)
    (h2 : |x| < 2 ^ (e + 1)) (hn : |x / 2 ^ (e - 52) - n| < 1 / 2) :
    roundDouble x = n * 2 ^ (e - 52) := by
  have hx : x ≠ 0 := by
    intro h
    rw [h, abs_zero] at h1
    exact absurd h1 (not_le.mpr (two_zpow_pos e))
  have hl1 := le_log_of_le_abs x hx e h1
  have hl2 := log_lt_of_abs_lt x hx (e + 1) h2
  have hlog : Int.log 2 |x| = e := by omega
  have hk : doubleSpacingExp x = e - 52 := by
    unfold doubleSpacingExp
    rw [hlog, max_eq_left he]
  unfold roundDouble
  rw [hk, roundHalfEven_eq_of_near _ n hn]

theorem roundDouble_one : roundDouble 1 = 1 := by
  have := roundDouble_representable 1 0 (by norm_num) (by norm_num)
  simpa using this

theorem roundDouble_neg_one : roundDouble (-1) = -1 := by
  have := roundDouble_representable (-1) 0 (by norm_num) (by norm_num)
  simpa using this

theorem roundDouble_neg_two : roundDouble (-2) = -2 := by
  have := roundDouble_representable (-1) 1 (by norm_num) (by norm_num)
  simpa using this

theorem roundDouble_half : roundDouble (1 / 2) = 1 / 2 := by
  have := roundDouble_representable 1 (-1) (by norm_num) (by norm_num)
  simpa using this

theorem roundDouble_nonneg (x : ℚ) (h : 0 ≤ x) : 0 ≤ roundDouble x := by
  have := roundDouble_mono 0 x h
  rwa [roundDouble_zero] at this

theorem roundDouble_nonpos (x : ℚ) (h : x ≤ 0) : roundDouble x ≤ 0 := by
  have := roundDouble_mono x 0 h
  rwa [roundDouble_zero] at this

theorem roundDouble_le_one (x : ℚ) (h : x ≤ 1) : roundDouble x ≤ 1 := by
  have := roundDouble_mono x 1 h
  rwa [roundDouble_one] at this

theorem roundDouble_le_half (x : ℚ) (h : x ≤ 1 / 2) : roundDouble x ≤ 1 / 2 := by
  have := roundDouble_mono x (1 / 2) h
  rwa [roundDouble_half] at this

theorem roundDouble_half_le (x : ℚ) (h : 1 / 2 ≤ x) : 1 / 2 ≤ roundDouble x := by
  have := roundDouble_mono (1 / 2) x h
  rwa [roundDouble_half] at this

/-- The correctly rounded square is `0` at `0`, `1` at `1` and monotone on the
non-negative numbers. -/
theorem squareRounded_spec :
    squareRounded 0 = 0 ∧ squareRounded 1 = 1 ∧
    ∀ x y : ℚ, 0 ≤ x → x ≤ y → y ≤ 1 → squareRounded x ≤ squareRounded y := by
  refine ⟨?_, ?_, ?_⟩
  · unfold squareRounded
    rw [mul_zero, roundDouble_zero]
  · unfold squareRounded
    rw [mul_one, roundDouble_one]
  · intro x y hx hxy _
    unfold squareRounded
    exact roundDouble_mono _ _ (mul_le_mul hxy hxy hx (le_trans hx hxy))

/-! ## The volume fade -/

theorem fadeEased_zero (pow : ℚ → ℚ) : fadeEased pow 0 = 0 := by
  unfold fadeEased jsMul
  rw [if_pos (by norm_num)]
  simp [roundDouble_zero]

theorem fadeEased_one (pow : ℚ → ℚ) (hpow0 : pow 0 = 0) : fadeEased pow 1 = 1 := by
  unfold fadeEased jsMul jsAdd jsDiv jsSub
  rw [if_neg (by norm_num), mul_one, roundDouble_neg_two]
  norm_num
  rw [roundDouble_zero, hpow0]
  norm_num
  rw [roundDouble_zero]
  norm_num
  exact roundDouble_one

/-- Below one half the computed easing value lies in `[0, 1/2]`. -/
theorem fadeEased_low (pow : ℚ → ℚ) (p : ℚ) (hp0 : 0 ≤ p) (hp : p < 1 / 2) :
    fadeEased pow p = roundDouble (roundDouble (2 * p) * p) ∧
    0 ≤ roundDouble (2 * p) ∧ roundDouble (2 * p) ≤ 1 ∧
    0 ≤ fadeEased pow p ∧ fadeEased pow p ≤ 1 / 2 := by
  have e : fadeEased pow p = roundDouble (roundDouble (2 * p) * p) := by
    unfold fadeEased jsMul
    rw [if_pos hp]
  have h1 : 0 ≤ roundDouble (2 * p) := roundDouble_nonneg _ (by linarith)
  have h2 : roundDouble (2 * p) ≤ 1 := roundDouble_le_one _ (by linarith)
  refine ⟨e, h1, h2, ?_, ?_⟩
  · rw [e]
    exact roundDouble_nonneg _ (mul_nonneg h1 hp0)
  · rw [e]
    apply roundDouble_le_half
    nlinarith [mul_nonneg h1 hp0, mul_nonneg (sub_nonneg.mpr h2) hp0]

/-- From one half on, the argument of `Math.pow` lies in `[0, 1]` and the
computed easing value in `[1/2, 1]`. -/
theorem fadeEased_high (pow : ℚ → ℚ) (hpow0 : pow 0 = 0) (hpow1 : pow 1 = 1)
    (hpow : ∀ x y : ℚ, 0 ≤ x → x ≤ y → y ≤ 1 → pow x ≤ pow y)
    (p : ℚ) (hp : ¬ p < 1 / 2) (hp1 : p ≤ 1) :
    fadeEased pow p = roundDouble (1 - roundDouble (pow (roundDouble (roundDouble (-2 * p) + 2)) / 2)) ∧
    0 ≤ roundDouble (roundDouble (-2 * p) + 2) ∧ roundDouble (roundDouble (-2 * p) + 2) ≤ 1 ∧
    1 / 2 ≤ fadeEased pow p ∧ fadeEased pow p ≤ 1 := by
  have hp2 : 1 / 2 ≤ p := not_lt.mp hp
  have e : fadeEased pow p
      = roundDouble (1 - roundDouble (pow (roundDouble (roundDouble (-2 * p) + 2)) / 2)) := by
    unfold fadeEased jsMul jsAdd jsDiv jsSub
    rw [if_neg hp]
  have a1 : -2 ≤ roundDouble (-2 * p) := by
    have := roundDouble_mono (-2) (-2 * p) (by linarith)
    rwa [roundDouble_neg_two] at this
  have a2 : roundDouble (-2 * p) ≤ -1 := by
    have := roundDouble_mono (-2 * p) (-1) (by linarith)
    rwa [roundDouble_neg_one] at this
  have x0 : 0 ≤ roundDouble (roundDouble (-2 * p) + 2) := roundDouble_nonneg _ (by linarith)
  have x1 : roundDouble (roundDouble (-2 * p) + 2) ≤ 1 := roundDouble_le_one _ (by linarith)
  have w0 : 0 ≤ pow (roundDouble (roundDouble (-2 * p) + 2)) := by
    have := hpow 0 _ (le_refl _) x0 x1
    rwa [hpow0] at this
  have w1 : pow (roundDouble (roundDouble (-2 * p) + 2)) ≤ 1 := by
    have := hpow _ 1 x0 x1 (le_refl _)
    rwa [hpow1] at this
  have d0 : 0 ≤ roundDouble (pow (roundDouble (roundDouble (-2 * p) + 2)) / 2) :=
    roundDouble_nonneg _ (by linarith)
  have d1 : roundDouble (pow (roundDouble (roundDouble (-2 * p) + 2)) / 2) ≤ 1 / 2 :=
    roundDouble_le_half _ (by linarith)
  refine ⟨e, x0, x1, ?_, ?_⟩
  · rw [e]
    exact roundDouble_half_le _ (by linarith)
  · rw [e]
    exact roundDouble_le_one _ (by linarith)

/-- The computed easing value is monotone on `[0, 1]`. -/
theorem fadeEased_mono (pow : ℚ → ℚ) (hpow0 : pow 0 = 0) (hpow1 : pow 1 = 1)
    (hpow : ∀ x y : ℚ, 0 ≤ x → x ≤ y → y ≤ 1 → pow x ≤ pow y)
    (p q : ℚ) (hp0 : 0 ≤ p) (hpq : p ≤ q) (hq1 : q ≤ 1) :
    fadeEased pow p ≤ fadeEased pow q := by
  by_cases hp : p < 1 / 2
  · by_cases hq : q < 1 / 2
    · obtain ⟨ep, p0, p1, _, _⟩ := fadeEased_low pow p hp0 hp
      obtain ⟨eq, q0, q1, _, _⟩ := fadeEased_low pow q (le_trans hp0 hpq) hq
      rw [ep, eq]
      apply roundDouble_mono
      have hm := roundDouble_mono (2 * p) (2 * q) (by linarith)
      exact mul_le_mul hm hpq hp0 q0
    · obtain ⟨_, _, _, _, h1⟩ := fadeEased_low pow p hp0 hp
      obtain ⟨_, _, _, h2, _⟩ := fadeEased_high pow hpow0 hpow1 hpow q hq hq1
      linarith
  · have hq : ¬ q < 1 / 2 := not_lt.mpr (le_trans (not_lt.mp hp) hpq)
    obtain ⟨ep, xp0, xp1, _, _⟩ := fadeEased_high pow hpow0 hpow1 hpow p hp (le_trans hpq hq1)
    obtain ⟨eq, xq0, xq1, _, _⟩ := fadeEased_high pow hpow0 hpow1 hpow q hq hq1
    rw [ep, eq]
    apply roundDouble_mono
    have hx : roundDouble (roundDouble (-2 * q) + 2) ≤ roundDouble (roundDouble (-2 * p) + 2) := by
      apply roundDouble_mono
      have := roundDouble_mono (-2 * q) (-2 * p) (by linarith)
      linarith
    have hw := hpow _ _ xq0 hx xp1
    have hd := roundDouble_mono _ _ (div_le_div_of_nonneg_right hw (by norm_num : (0 : ℚ) ≤ 2))
    linarith

/-- The computed easing value stays in `[0, 1]` on `[0, 1]`. -/
theorem fadeEased_bounds (pow : ℚ → ℚ) (hpow0 : pow 0 = 0) (hpow1 : pow 1 = 1)
    (hpow : ∀ x y : ℚ, 0 ≤ x → x ≤ y → y ≤ 1 → pow x ≤ pow y)
    (p : ℚ) (hp0 : 0 ≤ p) (hp1 : p ≤ 1) :
    0 ≤ fadeEased pow p ∧ fadeEased pow p ≤ 1 := by
  constructor
  · rw [← fadeEased_zero pow]
    exact fadeEased_mono pow hpow0 hpow1 hpow 0 p (le_refl _) hp0 hp1
  · rw [← fadeEased_one pow hpow0]
    exact fadeEased_mono pow hpow0 hpow1 hpow p 1 hp0 hp1 (le_refl _)

/-- The volume assigned at progress 1 is `from + (to - from)` as computed in
doubles. -/
theorem fadeVolumeAt_one (pow : ℚ → ℚ) (hpow0 : pow 0 = 0) (fromVolume toVolume : ℚ) :
    fadeVolumeAt pow fromVolume toVolume 1 = jsAdd fromVolume (jsSub toVolume fromVolume) := by
  unfold fadeVolumeAt
  rw [fadeEased_one pow hpow0]
  unfold jsMul jsSub
  rw [mul_one, roundDouble_idem]

/-- C19 (as stated) fails in the arithmetic of the code. With the base volume
0.3 (the double nearest to 3/10) the duck target `0.3 * 0.15` is the double
`3242591731706757 / 2^56` (0.045), and the volume `fadeVolume` assigns at
progress 1 is `810647932926689 / 2^54` (0.044999999999999984): not the target,
and below it, outside the range between start and target. -/
theorem C19_counterexample :
    roundDouble (3 / 10) = 5404319552844595 / 2 ^ 54 ∧
    duckTargetVolume true (5404319552844595 / 2 ^ 54) = 3242591731706757 / 2 ^ 56 ∧
    fadeVolumeAt squareRounded (5404319552844595 / 2 ^ 54) (3242591731706757 / 2 ^ 56) 1
      = 810647932926689 / 2 ^ 54 ∧
    fadeVolumeAt squareRounded (5404319552844595 / 2 ^ 54) (3242591731706757 / 2 ^ 56) 1
      < min (5404319552844595 / 2 ^ 54) (3242591731706757 / 2 ^ 56) := by
  have hf : roundDouble (3 / 10) = 5404319552844595 / 2 ^ 54 := by
    rw [roundDouble_eq_of_near (3 / 10) (-2) 5404319552844595 (by norm_num)
      (by rw [abs_of_pos (by norm_num)]; norm_num [zpow_neg])
      (by rw [abs_of_pos (by norm_num)]; norm_num [zpow_neg])
      (by rw [abs_lt]; norm_num [zpow_neg])]
    norm_num [zpow_neg]
  have hc : roundDouble musicDuckVolume = 5404319552844595 / 2 ^ 55 := by
    rw [roundDouble_eq_of_near musicDuckVolume (-3) 5404319552844595 (by norm_num)
      (by rw [abs_of_pos (by norm_num)]; norm_num [zpow_neg])
      (by rw [abs_of_pos (by norm_num)]; norm_num [zpow_neg])
      (by rw [abs_lt]; norm_num [zpow_neg])]
    norm_num [zpow_neg]
  have ht : duckTargetVolume true (5404319552844595 / 2 ^ 54) = 3242591731706757 / 2 ^ 56 := by
    unfold duckTargetVolume jsMul
    rw [if_pos rfl, hc]
    rw [roundDouble_eq_of_near _ (-5) 6485183463413514 (by norm_num)
      (by rw [abs_of_pos (by norm_num)]; norm_num [zpow_neg])
      (by rw [abs_of_pos (by norm_num)]; norm_num [zpow_neg])
      (by rw [abs_lt]; norm_num [zpow_neg])]
    norm_num [zpow_neg]
  have hd : jsSub (3242591731706757 / 2 ^ 56) (5404319552844595 / 2 ^ 54)
      = -2296835809958953 / 2 ^ 53 := by
    unfold jsSub
    rw [roundDouble_eq_of_near _ (-2) (-4593671619917906) (by norm_num)
      (by rw [abs_of_neg (by norm_num)]; norm_num [zpow_neg])
      (by rw [abs_of_neg (by norm_num)]; norm_num [zpow_neg])
      (by rw [abs_lt]; norm_num [zpow_neg])]
    norm_num [zpow_neg]
  have hv : fadeVolumeAt squareRounded (5404319552844595 / 2 ^ 54) (3242591731706757 / 2 ^ 56) 1
      = 810647932926689 / 2 ^ 54 := by
    rw [fadeVolumeAt_one _ squareRounded_spec.1, hd]
    unfold jsAdd
    have e : (5404319552844595 / 2 ^ 54 + -2296835809958953 / 2 ^ 53 : ℚ)
        = ((810647932926689 : ℤ) : ℚ) * 2 ^ (-54 : ℤ) := by
      norm_num [zpow_neg]
    rw [e, roundDouble_representable _ _ (by norm_num) (by norm_num)]
    norm_num [zpow_neg]
  refine ⟨hf, ht, hv, ?_⟩
  rw [hv]
  norm_num

/-- C19 (amended). In the double arithmetic of the code, for all doubles
`from` and `to`, every `Math.pow(x, 2)` that is 0 at 0, 1 at 1 and monotone on
`[0, 1]`, and all progress values `0 ≤ p ≤ q ≤ 1`: `fadeVolume` assigns `from`
at progress 0 and the end value `from + (to - from)` (both operations rounded)
at progress 1; the assigned volume moves monotonically from `from` to the end
value as the progress grows, and so lies between the two; the end value
differs from `to` by at most `|to - from| / 2^52 + 2^-1074`, one rounding
step, and need not equal `to`. The progress `min (elapsed / duration) 1` lies
in `[0, 1]` and is 1 once the duration has elapsed. -/
theorem C19_fade_monotone_to_rounded_end (pow : ℚ → ℚ) (fromVolume toVolume p q : ℚ)
    (hpow0 : pow 0 = 0) (hpow1 : pow 1 = 1)
    (hpow : ∀ x y : ℚ, 0 ≤ x → x ≤ y → y ≤ 1 → pow x ≤ pow y)
    (hfrom : roundDouble fromVolume = fromVolume) (hto : roundDouble toVolume = toVolume)
    (hp0 : 0 ≤ p) (hpq : p ≤ q) (hq1 : q ≤ 1) :
    fadeVolumeAt pow fromVolume toVolume 0 = fromVolume ∧
    fadeVolumeAt pow fromVolume toVolume 1 = jsAdd fromVolume (jsSub toVolume fromVolume) ∧
    (fromVolume ≤ toVolume →
      fromVolume ≤ fadeVolumeAt pow fromVolume toVolume p ∧
      fadeVolumeAt pow fromVolume toVolume p ≤ fadeVolumeAt pow fromVolume toVolume q ∧
      fadeVolumeAt pow fromVolume toVolume q ≤ fadeVolumeAt pow fromVolume toVolume 1) ∧
    (toVolume ≤ fromVolume →
      fadeVolumeAt pow fromVolume toVolume 1 ≤ fadeVolumeAt pow fromVolume toVolume q ∧
      fadeVolumeAt pow fromVolume toVolume q ≤ fadeVolumeAt pow fromVolume toVolume p ∧
      fadeVolumeAt pow fromVolume toVolume p ≤ fromVolume) ∧
    |fadeVolumeAt pow fromVolume toVolume 1 - toVolume|
      ≤ |toVolume - fromVolume| / 2 ^ 52 + 1 / 2 ^ 1074 ∧
    (∀ elapsed duration : ℚ, 0 ≤ elapsed → 0 < duration →
      0 ≤ fadeProgress elapsed duration ∧ fadeProgress elapsed duration ≤ 1 ∧
      (duration ≤ elapsed → fadeProgress elapsed duration = 1)) := by
  have hq0 : 0 ≤ q := le_trans hp0 hpq
  have hzero : fadeVolumeAt pow fromVolume toVolume 0 = fromVolume := by
    unfold fadeVolumeAt jsAdd jsMul
    rw [fadeEased_zero, mul_zero, roundDouble_zero, add_zero, hfrom]
  have hone := fadeVolumeAt_one pow hpow0 fromVolume toVolume
  have hup : fromVolume ≤ toVolume → ∀ a b : ℚ, 0 ≤ a → a ≤ b → b ≤ 1 →
      fadeVolumeAt pow fromVolume toVolume a ≤ fadeVolumeAt pow fromVolume toVolume b := by
    intro h a b ha hab hb
    have hd : 0 ≤ jsSub toVolume fromVolume := roundDouble_nonneg _ (sub_nonneg.mpr h)
    have he := fadeEased_mono pow hpow0 hpow1 hpow a b ha hab hb
    unfold fadeVolumeAt jsAdd jsMul
    apply roundDouble_mono
    have := roundDouble_mono _ _ (mul_le_mul_of_nonneg_left he hd)
    linarith
  have hdown : toVolume ≤ fromVolume → ∀ a b : ℚ, 0 ≤ a → a ≤ b → b ≤ 1 →
      fadeVolumeAt pow fromVolume toVolume b ≤ fadeVolumeAt pow fromVolume toVolume a := by
    intro h a b ha hab hb
    have hd : jsSub toVolume fromVolume ≤ 0 := roundDouble_nonpos _ (sub_nonpos.mpr h)
    have he := fadeEased_mono pow hpow0 hpow1 hpow a b ha hab hb
    unfold fadeVolumeAt jsAdd jsMul
    apply roundDouble_mono
    have := roundDouble_mono _ _ (mul_le_mul_of_nonpos_left he hd)
    linarith
  refine ⟨hzero, hone, ?_, ?_, ?_, ?_⟩
  · intro h
    refine ⟨?_, hup h p q hp0 hpq hq1, hup h q 1 hq0 hq1 (le_refl _)⟩
    have := hup h 0 p (le_refl _) hp0 (le_trans hpq hq1)
    rwa [hzero] at this
  · intro h
    refine ⟨hdown h q 1 hq0 hq1 (le_refl _), hdown h p q hp0 hpq hq1, ?_⟩
    have := hdown h 0 p (le_refl _) hp0 (le_trans hpq hq1)
    rwa [hzero] at this
  · rw [hone]
    unfold jsAdd jsSub
    have h1 := roundDouble_nearest (fromVolume + roundDouble (toVolume - fromVolume)) toVolume hto
    have h2 := roundDouble_error (toVolume - fromVolume)
    have h3 : |toVolume - (fromVolume + roundDouble (toVolume - fromVolume))|
        = |roundDouble (toVolume - fromVolume) - (toVolume - fromVolume)| := by
      rw [abs_sub_comm]
      congr 1
      ring
    have h4 := abs_sub_le (roundDouble (fromVolume + roundDouble (toVolume - fromVolume)))
      (fromVolume + roundDouble (toVolume - fromVolume)) toVolume
    have h5 : |fromVolume + roundDouble (toVolume - fromVolume) - toVolume|
        = |roundDouble (toVolume - fromVolume) - (toVolume - fromVolume)| := by
      congr 1
      ring
    have e : |toVolume - fromVolume| / 2 ^ 52 + 1 / 2 ^ 1074
        = 2 * (|toVolume - fromVolume| / 2 ^ 53 + 1 / 2 ^ 1075) := by
      ring
    rw [e]
    rw [h3] at h1
    rw [h5] at h4
    linarith
  · intro elapsed duration he hd
    unfold fadeProgress jsDiv
    refine ⟨le_min (roundDouble_nonneg _ (div_nonneg he hd.le)) zero_le_one, min_le_right _ _, ?_⟩
    intro hle
    apply min_eq_right
    have := roundDouble_mono 1 (elapsed / duration) ((one_le_div hd).mpr hle)
    rwa [roundDouble_one] at this

/-- C19 (amended) at work, with a correctly rounded `Math.pow`: fading from
volume 3/4 down toward 1/8, the volume a quarter of the way through lies below
3/4, the volume half way through lies below that, and the end value lies
below both. -/
theorem C19_fade_monotone_to_rounded_end_witness :
    fadeVolumeAt squareRounded (3 / 4) (1 / 8) 1
      ≤ fadeVolumeAt squareRounded (3 / 4) (1 / 8) (1 / 2) ∧
    fadeVolumeAt squareRounded (3 / 4) (1 / 8) (1 / 2)
      ≤ fadeVolumeAt squareRounded (3 / 4) (1 / 8) (1 / 4) ∧
    fadeVolumeAt squareRounded (3 / 4) (1 / 8) (1 / 4) ≤ 3 / 4 :=
  (C19_fade_monotone_to_rounded_end squareRounded (3 / 4) (1 / 8) (1 / 4) (1 / 2)
    squareRounded_spec.1 squareRounded_spec.2.1 squareRounded_spec.2.2
    (by
      have := roundDouble_representable 3 (-2) (by norm_num) (by norm_num)
      norm_num [zpow_neg] at this
      exact this)
    (by
      have := roundDouble_representable 1 (-3) (by norm_num) (by norm_num)
      norm_num [zpow_neg] at this
      exact this)
    (by norm_num) (by norm_num) (by norm_num)).2.2.2.1 (by norm_num)

/-! ## The end of the announcer audio -/

/-- After the announcer audio has ended without an early start, the next
track is started at the full base volume: the ended element is paused, so
`playTrack` does not duck. -/
theorem announcerEnded_full_volume (a : App) (hn : 0 < a.playlist.length)
    (hp : a.isPlaying = true) (ht : a.lastDJTalkType = some "track_transition")
    (he : a.songStartedEarly = false) :
    (announcerPlaybackEnds a).audioSystem.isDJPlaying = false ∧
    (announcerEnded a).audioSystem.mainAudio.volume = a.audioSystem.volume ∧
    (announcerEnded a).playlistIndex = normalIndex a.playlist.length a.playlistIndex ∧
    ∃ track : Track,
      a.playlist.get? (normalIndex a.playlist.length a.playlistIndex) = some track ∧
      (announcerEnded a).audioSystem.playCommands
        = a.audioSystem.playCommands ++ [streamUrl track] := by
  have hdj : (announcerPlaybackEnds a).audioSystem.isDJPlaying = false := by
    simp [announcerPlaybackEnds, AudioSystem.isDJPlaying]
  obtain ⟨track, htrack, hpc⟩ := playCurrentTrack_nonempty (announcerPlaybackEnds a) hn
  have h1 := (onDJEnd_cases (announcerPlaybackEnds a)).1 ⟨hp, ht, he⟩
  have hall : announcerEnded a = { playCurrentTrack (announcerPlaybackEnds a) with
      songStartedEarly := false } := h1
  refine ⟨hdj, ?_, ?_, track, htrack, ?_⟩
  · rw [hall, hpc]
    show ((announcerPlaybackEnds a).audioSystem.playTrack (streamUrl track)).mainAudio.volume
      = a.audioSystem.volume
    unfold AudioSystem.playTrack
    simp only [hdj, Bool.false_eq_true, if_false]
    rfl
  · rw [hall, hpc]
    rfl
  · rw [hall, hpc]
    rfl

/-! ## The fallback when the banter request fails -/

/-- There is always a fallback text. -/
theorem fallbackTexts_pos (selectedDecade : Option String) :
    0 < (fallbackTexts selectedDecade).length := by
  unfold fallbackTexts
  cases selectedDecade with
  | none => simp
  | some decade =>
    simp only [Option.bind, WEATHER_REPORTS]
    split_ifs <;> simp

/-- `getRandomItem` returns an element of a non-empty array. -/
theorem getRandomItem_mem (r : ℚ) (array : List String) (h0 : 0 ≤ r) (h1 : r < 1)
    (hn : 0 < array.length) :
    ∃ item : String, getRandomItem r array = some item ∧ item ∈ array := by
  unfold getRandomItem
  have hlen : (0 : ℚ) < (array.length : ℚ) := by exact_mod_cast hn
  have hlo : (0 : Int) ≤ ⌊r * (array.length : ℚ)⌋ := Int.floor_nonneg.mpr (mul_nonneg h0 hlen.le)
  have hhi : ⌊r * (array.length : ℚ)⌋ < (array.length : Int) := by
    rw [Int.floor_lt]
    have : r * (array.length : ℚ) < 1 * (array.length : ℚ) := mul_lt_mul_of_pos_right h1 hlen
    simpa using this
  have hidx : ⌊r * (array.length : ℚ)⌋.toNat < array.length := by omega
  exact ⟨array.get ⟨_, hidx⟩, List.get?_eq_get hidx, List.get_mem _ _ _⟩

/-- What `onTrackEnd` does when the announcer is due and the banter request
fails or carries no audio: `onDJEnd` runs once on the state of the request. -/
theorem onTrackEnd_talk_no_audio (cfg : DJTalkConfig) (r : ℚ) (response : BanterResponse)
    (now : Int) (a : App) (cur : Station) (hp : a.isPlaying = true)
    (hc : a.currentStation = some cur)
    (ht : shouldDJTalk cfg r (onTrackEndAdvance now a) = true)
    (hr : response = BanterResponse.failed ∨ response = BanterResponse.textOnly) :
    onTrackEnd cfg r response now a =
      { onDJEnd
          { a with
            playlistIndex := a.playlistIndex + 1
            djTalkCounter := a.djTalkCounter + 1
            stationStates := (onTrackEndAdvance now a).stationStates
            djTalksTriggered := a.djTalksTriggered + 1
            lastDJTalkType := some "track_transition" } with
        djTalkCounter := 0 } := by
  rw [onTrackEnd_talk cfg r _ now a hp ht]
  generalize hst : (onTrackEndAdvance now a).stationStates = states
  have hf := onTrackEndAdvance_fields now a
  rw [hst] at hf
  rw [hf]
  rcases hr with hr | hr <;> subst hr <;>
    simp [triggerDJTalk, triggerDJTalkRequest, triggerDJTalkResponse, hc]

/-- C13. If the banter request of `triggerDJTalk` rejects or is not OK (and
likewise when it carries no audio), a fallback phrase from the local list is
shown and `onDJEnd` runs exactly once on the state of the request; the
orchestrator then holds the same `playlistIndex`, `isPlaying = true`, the same
started track, `songStartedEarly = false`, the same counter, seek bookkeeping
and stored states as on the success path in which the announcer audio ends
(`handleDJEnd`) without an early start. -/
theorem C13_fallback_same_state (cfg : DJTalkConfig) (r : ℚ) (url : String) (now : Int)
    (a : App) (cur : Station) (hp : a.isPlaying = true) (hc : a.currentStation = some cur)
    (ht : shouldDJTalk cfg r (onTrackEndAdvance now a) = true)
    (hn : 0 < a.playlist.length) (hearly : a.songStartedEarly = false) :
    (∀ (selectedDecade : Option String) (rr : ℚ), 0 ≤ rr → rr < 1 →
      ∃ phrase : String, getRandomItem rr (fallbackTexts selectedDecade) = some phrase ∧
        phrase ∈ fallbackTexts selectedDecade) ∧
    onTrackEnd cfg r BanterResponse.failed now a =
      { onDJEnd
          { a with
            playlistIndex := a.playlistIndex + 1
            djTalkCounter := a.djTalkCounter + 1
            stationStates := (onTrackEndAdvance now a).stationStates
            djTalksTriggered := a.djTalksTriggered + 1
            lastDJTalkType := some "track_transition" } with
        djTalkCounter := 0 } ∧
    onTrackEnd cfg r BanterResponse.textOnly now a
      = onTrackEnd cfg r BanterResponse.failed now a ∧
    ∃ track : Track,
      a.playlist.get? (normalIndex a.playlist.length (a.playlistIndex + 1)) = some track ∧
      (onTrackEnd cfg r BanterResponse.failed now a).playlistIndex
        = normalIndex a.playlist.length (a.playlistIndex + 1) ∧
      (handleDJEnd (onTrackEnd cfg r (BanterResponse.withAudio url) now a)).playlistIndex
        = normalIndex a.playlist.length (a.playlistIndex + 1) ∧
      (onTrackEnd cfg r BanterResponse.failed now a).isPlaying = true ∧
      (handleDJEnd (onTrackEnd cfg r (BanterResponse.withAudio url) now a)).isPlaying = true ∧
      (onTrackEnd cfg r BanterResponse.failed now a).audioSystem.playCommands
        = a.audioSystem.playCommands ++ [streamUrl track] ∧
      (handleDJEnd
        (onTrackEnd cfg r (BanterResponse.withAudio url) now a)).audioSystem.playCommands
        = a.audioSystem.playCommands ++ [streamUrl track] ∧
      (onTrackEnd cfg r BanterResponse.failed now a).audioSystem.mainAudio.src
        = some (streamUrl track) ∧
      (handleDJEnd
        (onTrackEnd cfg r (BanterResponse.withAudio url) now a)).audioSystem.mainAudio.src
        = some (streamUrl track) ∧
      (onTrackEnd cfg r BanterResponse.failed now a).songStartedEarly = false ∧
      (handleDJEnd (onTrackEnd cfg r (BanterResponse.withAudio url) now a)).songStartedEarly
        = false ∧
      (onTrackEnd cfg r BanterResponse.failed now a).djTalkCounter = 0 ∧
      (handleDJEnd (onTrackEnd cfg r (BanterResponse.withAudio url) now a)).djTalkCounter = 0 ∧
      (onTrackEnd cfg r BanterResponse.failed now a).stationStates
        = (handleDJEnd (onTrackEnd cfg r (BanterResponse.withAudio url) now a)).stationStates ∧
      (onTrackEnd cfg r BanterResponse.failed now a).seekToPosition
        = (handleDJEnd (onTrackEnd cfg r (BanterResponse.withAudio url) now a)).seekToPosition ∧
      (onTrackEnd cfg r BanterResponse.failed now a).pendingSeeks
        = (handleDJEnd (onTrackEnd cfg r (BanterResponse.withAudio url) now a)).pendingSeeks := by
  have hfail := onTrackEnd_talk_no_audio cfg r BanterResponse.failed now a cur hp hc ht (Or.inl rfl)
  have htext := onTrackEnd_talk_no_audio cfg r BanterResponse.textOnly now a cur hp hc ht
    (Or.inr rfl)
  have hok := onTrackEnd_talk_audio cfg r url now a cur hp hc ht
  refine ⟨fun d rr h0 h1 => getRandomItem_mem rr _ h0 h1 (fallbackTexts_pos d), hfail,
    by rw [htext, hfail], ?_⟩
  generalize (onTrackEndAdvance now a).stationStates = states at hfail hok
  have h1 := (onDJEnd_cases
    { a with
      playlistIndex := a.playlistIndex + 1
      djTalkCounter := a.djTalkCounter + 1
      stationStates := states
      djTalksTriggered := a.djTalksTriggered + 1
      lastDJTalkType := some "track_transition" }).1 ⟨hp, rfl, hearly⟩
  have h2 := (onDJEnd_cases
    { a with
      playlistIndex := a.playlistIndex + 1
      djTalkCounter := 0
      stationStates := states
      djTalksTriggered := a.djTalksTriggered + 1
      lastDJTalkType := some "track_transition"
      audioSystem := a.audioSystem.playDJ url }).1 ⟨hp, rfl, hearly⟩
  obtain ⟨track, htrack, hpc1⟩ := playCurrentTrack_nonempty
    { a with
      playlistIndex := a.playlistIndex + 1
      djTalkCounter := a.djTalkCounter + 1
      stationStates := states
      djTalksTriggered := a.djTalksTriggered + 1
      lastDJTalkType := some "track_transition" } hn
  obtain ⟨track2, htrack2, hpc2⟩ := playCurrentTrack_nonempty
    { a with
      playlistIndex := a.playlistIndex + 1
      djTalkCounter := 0
      stationStates := states
      djTalksTriggered := a.djTalksTriggered + 1
      lastDJTalkType := some "track_transition"
      audioSystem := a.audioSystem.playDJ url } hn
  have htt : track2 = track := by
    have : some track2 = some track := by rw [← htrack2, ← htrack]
    exact Option.some.inj this
  subst htt
  unfold handleDJEnd
  rw [hfail, hok, h1, h2, hpc1, hpc2]
  refine ⟨track2, htrack, rfl, rfl, hp, hp, ?_, ?_, rfl, rfl, rfl, rfl, rfl, rfl, rfl, rfl, rfl⟩
  · simp [AudioSystem.playTrack]
  · simp [AudioSystem.playTrack, AudioSystem.playDJ]

/-- On `S1` with three tracks, track 1 ending with the announcer due (draw 0)
and the banter request failing: track 2 is started, as after announcer audio
that ended without an early start. -/
theorem C13_fallback_same_state_witness :
    (onTrackEnd DJ_TALK_CONFIG 0 BanterResponse.failed 4000 appPlayingS1).playlistIndex = 2 ∧
    (handleDJEnd (onTrackEnd DJ_TALK_CONFIG 0 (BanterResponse.withAudio "blob:announcer") 4000
      appPlayingS1)).playlistIndex = 2 ∧
    (onTrackEnd DJ_TALK_CONFIG 0 BanterResponse.failed 4000 appPlayingS1).audioSystem.playCommands
      = (handleDJEnd (onTrackEnd DJ_TALK_CONFIG 0 (BanterResponse.withAudio "blob:announcer") 4000
        appPlayingS1)).audioSystem.playCommands := by
  obtain ⟨_, _, _, track, _, h1, h2, _, _, h3, h4, _⟩ :=
    C13_fallback_same_state DJ_TALK_CONFIG 0 "blob:announcer" 4000 appPlayingS1 stationS1
      rfl rfl (by unfold shouldDJTalk; rw [getRandomInt_zero]; rfl) (by decide) rfl
  exact ⟨by rw [h1]; rfl, by rw [h2]; rfl, by rw [h3, h4]⟩

/-! ## A banter answer that arrives late -/

/-- The state in which the banter request of `onTrackEnd` is in flight, and
the atomic `onTrackEnd` as the arrival of the answer in that state. -/
theorem onTrackEndUntilRequest_some (cfg : DJTalkConfig) (r : ℚ) (now : Int) (a b : App)
    (h : onTrackEndUntilRequest cfg r now a = some b) :
    b = triggerDJTalkRequest "track_transition"
        { onTrackEndAdvance now a with djTalksTriggered := a.djTalksTriggered + 1 } ∧
    b.lastDJTalkType = some "track_transition" ∧
    b.djTalkCounter = a.djTalkCounter + 1 ∧
    ∀ response : BanterResponse,
      onTrackEnd cfg r response now a = banterResponseArrives response b := by
  unfold onTrackEndUntilRequest at h
  by_cases hp : a.isPlaying = true
  · simp only [hp, Bool.not_true, Bool.false_eq_true, if_false] at h
    by_cases ht : shouldDJTalk cfg r (onTrackEndAdvance now a) = true
    · simp only [ht, if_true] at h
      have hall := fun response => onTrackEnd_talk cfg r response now a hp ht
      have hf := onTrackEndAdvance_fields now a
      have hd : (onTrackEndAdvance now a).djTalksTriggered = a.djTalksTriggered := by rw [hf]
      have hcnt : (onTrackEndAdvance now a).djTalkCounter = a.djTalkCounter + 1 := by rw [hf]
      clear hf ht
      rw [← hd]
      generalize onTrackEndAdvance now a = adv at h hd hcnt hall ⊢
      rcases hcs : adv.currentStation with _ | cur
      · simp only [hcs] at h
        cases h
      · simp only [hcs, Option.some.injEq] at h
        subst h
        refine ⟨by simp [hcs], rfl, hcnt, ?_⟩
        intro response
        rw [hall]
        unfold banterResponseArrives triggerDJTalk
        simp only [hcs]
    · simp only [ht, Bool.false_eq_true, if_false] at h
      cases h
  · simp [hp] at h

/-- When the announcer is due and a station is current, `onTrackEnd` issues a
banter request. -/
theorem onTrackEndUntilRequest_talk (cfg : DJTalkConfig) (r : ℚ) (now : Int) (a : App)
    (cur : Station) (hp : a.isPlaying = true) (hc : a.currentStation = some cur)
    (ht : shouldDJTalk cfg r (onTrackEndAdvance now a) = true) :
    onTrackEndUntilRequest cfg r now a =
      some (triggerDJTalkRequest "track_transition"
        { onTrackEndAdvance now a with djTalksTriggered := a.djTalksTriggered + 1 }) := by
  have hf := onTrackEndAdvance_fields now a
  have hc2 : (onTrackEndAdvance now a).currentStation = some cur := by rw [hf]; exact hc
  have hd : (onTrackEndAdvance now a).djTalksTriggered = a.djTalksTriggered := by rw [hf]
  unfold onTrackEndUntilRequest
  simp only [hp, Bool.not_true, Bool.false_eq_true, if_false, ht, if_true, hc2, hd]

/-- A tune leaves the talk type and the early-start flag as they are. -/
theorem tuneToRetroStation_talk_type (stationId : String) (nowLeave now : Int)
    (response : Option (List Track)) (a : App) :
    (tuneToRetroStation stationId nowLeave now response a).lastDJTalkType = a.lastDJTalkType ∧
    (tuneToRetroStation stationId nowLeave now response a).songStartedEarly
      = a.songStartedEarly := by
  have hsave := saveCurrentStation_fields nowLeave a
  generalize (saveCurrentStation nowLeave a).stationStates = states at hsave
  unfold tuneToRetroStation
  rw [hsave]
  simp only
  split
  · exact ⟨rfl, rfl⟩
  · have hsb : ∀ x : App, (startBroadcast x).lastDJTalkType = x.lastDJTalkType ∧
        (startBroadcast x).songStartedEarly = x.songStartedEarly := by
      intro x
      unfold startBroadcast
      split
      · exact ⟨rfl, rfl⟩
      · simp only
        rw [playCurrentTrack_fields]
        split <;> exact ⟨rfl, rfl⟩
    have hrs : ∀ x : App, (restoreStationState stationId now x).1.lastDJTalkType
          = x.lastDJTalkType ∧
        (restoreStationState stationId now x).1.songStartedEarly = x.songStartedEarly := by
      intro x
      unfold restoreStationState
      cases x.stationStates stationId with
      | none => exact ⟨rfl, rfl⟩
      | some state => simp only; split <;> exact ⟨rfl, rfl⟩
    have hlp : ∀ x : App, (loadPlaylist stationId response x).lastDJTalkType
          = x.lastDJTalkType ∧
        (loadPlaylist stationId response x).songStartedEarly = x.songStartedEarly := by
      intro x
      unfold loadPlaylist calculateBroadcastPosition
      cases response with
      | none => exact ⟨rfl, rfl⟩
      | some tracks =>
        simp only
        cases x.stationStates stationId with
        | none => exact ⟨rfl, rfl⟩
        | some state => simp only; split <;> exact ⟨rfl, rfl⟩
    split
    · rw [(hsb _).1, (hsb _).2, (hrs _).1, (hrs _).2]
      exact ⟨rfl, rfl⟩
    · rw [(hsb _).1, (hsb _).2, (hlp _).1, (hlp _).2, (hrs _).1, (hrs _).2]
      exact ⟨rfl, rfl⟩

/-- Power-off leaves the talk type and the counter as they are. -/
theorem toggleRadioPower_off_fields (now : Int) (a : App) (hon : a.radioPowerOn = true) :
    (toggleRadioPower now a).lastDJTalkType = a.lastDJTalkType ∧
    (toggleRadioPower now a).djTalkCounter = a.djTalkCounter ∧
    (toggleRadioPower now a).radioPowerOn = false ∧
    (toggleRadioPower now a).isPlaying = false := by
  unfold toggleRadioPower stopPlayback
  simp only [hon, Bool.not_true, Bool.false_eq_true, if_false]
  cases a.currentStation with
  | none => simp
  | some cur => cases hs : a.stationStates cur.id <;> simp [hs]

/-- C17 (amended). A banter answer is never discarded. Neither a tune nor a
power-off cancels the request (`lastDJTalkType` stays `track_transition`), and
when the answer arrives the rest of `triggerDJTalk` and of `onTrackEnd` runs on
whatever state is current then: an answer with audio starts the announcer
audio (with a current station; with none left it is treated as failed), a
failed or text-only answer calls `onDJEnd` (which starts
`playCurrentTrack` of the current playlist when `isPlaying` is true and no
track was started early), and `djTalkCounter` is reset to 0 in every case. -/
theorem C17_late_response_applied (cfg : DJTalkConfig) (r : ℚ) (now : Int) (a b : App)
    (h : onTrackEndUntilRequest cfg r now a = some b) :
    (∀ response : BanterResponse,
      onTrackEnd cfg r response now a = banterResponseArrives response b) ∧
    (∀ (target : String) (nowLeave now2 : Int) (playlistResponse : Option (List Track)),
      (tuneToRetroStation target nowLeave now2 playlistResponse b).lastDJTalkType
        = some "track_transition") ∧
    (b.radioPowerOn = true → ∀ t : Int,
      (toggleRadioPower t b).lastDJTalkType = some "track_transition" ∧
      (toggleRadioPower t b).djTalkCounter = a.djTalkCounter + 1) ∧
    (∀ (c : App) (url : String) (station : Station), c.currentStation = some station →
      (banterResponseArrives (BanterResponse.withAudio url) c).audioSystem.djAudio.src = some url ∧
      (banterResponseArrives (BanterResponse.withAudio url) c).audioSystem.djAudio.paused = false ∧
      (banterResponseArrives (BanterResponse.withAudio url) c).djTalkCounter = 0) ∧
    (∀ c : App,
      banterResponseArrives BanterResponse.failed c = { onDJEnd c with djTalkCounter := 0 } ∧
      banterResponseArrives BanterResponse.textOnly c = { onDJEnd c with djTalkCounter := 0 } ∧
      (c.currentStation = none → ∀ url : String,
        banterResponseArrives (BanterResponse.withAudio url) c
          = { onDJEnd c with djTalkCounter := 0 })) ∧
    (∀ c : App, c.isPlaying = true → c.lastDJTalkType = some "track_transition" →
      c.songStartedEarly = false → 0 < c.playlist.length →
      ∃ track : Track,
        c.playlist.get? (normalIndex c.playlist.length c.playlistIndex) = some track ∧
        (banterResponseArrives BanterResponse.failed c).audioSystem.playCommands
          = c.audioSystem.playCommands ++ [streamUrl track] ∧
        (banterResponseArrives BanterResponse.failed c).audioSystem.mainAudio.currentTime = 0) := by
  obtain ⟨_, htype, hcnt, hall⟩ := onTrackEndUntilRequest_some cfg r now a b h
  refine ⟨hall, ?_, ?_, ?_, ?_, ?_⟩
  · intro target nowLeave now2 playlistResponse
    rw [(tuneToRetroStation_talk_type target nowLeave now2 playlistResponse b).1, htype]
  · intro hon t
    obtain ⟨h1, h2, _, _⟩ := toggleRadioPower_off_fields t b hon
    exact ⟨by rw [h1, htype], by rw [h2, hcnt]⟩
  · intro c url station hst
    unfold banterResponseArrives triggerDJTalkResponse
    simp [hst, AudioSystem.playDJ]
  · intro c
    refine ⟨rfl, rfl, ?_⟩
    intro hnone url
    unfold banterResponseArrives triggerDJTalkResponse
    simp only [hnone]
  · intro c hp ht he hn
    obtain ⟨track, htrack, hpc⟩ := playCurrentTrack_nonempty c hn
    refine ⟨track, htrack, ?_, ?_⟩
    · show (onDJEnd c).audioSystem.playCommands = _
      rw [(onDJEnd_cases c).1 ⟨hp, ht, he⟩, hpc]
      rfl
    · show (onDJEnd c).audioSystem.mainAudio.currentTime = 0
      rw [(onDJEnd_cases c).1 ⟨hp, ht, he⟩, hpc]
      rfl

/-- The request state of the example is the one `onTrackEnd` reaches. -/
theorem appRequestInFlight_reached :
    onTrackEndUntilRequest DJ_TALK_CONFIG 0 4000 appPlayingS1 = some appRequestInFlight :=
  onTrackEndUntilRequest_talk DJ_TALK_CONFIG 0 4000 appPlayingS1 stationS1 rfl rfl
    (by unfold shouldDJTalk; rw [getRandomInt_zero]; rfl)

/-- On `S1`, with the request of the track end at clock 4000 in flight, a tune
to `S2` leaves the talk type in place, and an answer with audio that arrives
then starts the announcer audio. -/
theorem C17_late_response_applied_witness :
    appSwitchedDuringRequest.lastDJTalkType = some "track_transition" ∧
    (banterResponseArrives (BanterResponse.withAudio "blob:announcer")
      appSwitchedDuringRequest).audioSystem.djAudio.paused = false := by
  obtain ⟨_, h1, _, h2, _⟩ :=
    C17_late_response_applied DJ_TALK_CONFIG 0 4000 appPlayingS1 appRequestInFlight
      appRequestInFlight_reached
  exact ⟨h1 "S2" 5000 5800 (some (tracksS2 4)),
    (h2 appSwitchedDuringRequest "blob:announcer" stationS2 rfl).2.1⟩

/-- C17 (as stated) fails. Station `S1` issues a banter request at clock 4000.
(1) The listener tunes to `S2`, whose track 3 is started (one play command,
announcer element paused); the answer arrives afterwards: when it failed,
`onDJEnd` runs `playCurrentTrack` and track 3 of `S2` is started a second time;
when it carries audio, the announcer element plays it. (2) The listener powers
the radio off instead (`djTalkCounter = 2`): the answer with audio arrives,
the announcer element plays while the radio is off, and `djTalkCounter` is
reset to 0. -/
theorem C17_counterexample :
    onTrackEndUntilRequest DJ_TALK_CONFIG 0 4000 appPlayingS1 = some appRequestInFlight ∧
    appSwitchedDuringRequest.currentStation = some stationS2 ∧
    appSwitchedDuringRequest.audioSystem.playCommands
      = ((tracksS2 4).get? 3).toList.map streamUrl ∧
    appSwitchedDuringRequest.audioSystem.djAudio.paused = true ∧
    (banterResponseArrives BanterResponse.failed
      appSwitchedDuringRequest).audioSystem.playCommands
      = ((tracksS2 4).get? 3).toList.map streamUrl ++ ((tracksS2 4).get? 3).toList.map streamUrl ∧
    ((tracksS2 4).get? 3).isSome = true ∧
    (banterResponseArrives (BanterResponse.withAudio "blob:announcer")
      appSwitchedDuringRequest).audioSystem.djAudio.src = some "blob:announcer" ∧
    (banterResponseArrives (BanterResponse.withAudio "blob:announcer")
      appSwitchedDuringRequest).audioSystem.djAudio.paused = false ∧
    appPoweredOffDuringRequest.radioPowerOn = false ∧
    appPoweredOffDuringRequest.djTalkCounter = 2 ∧
    (banterResponseArrives (BanterResponse.withAudio "blob:announcer")
      appPoweredOffDuringRequest).audioSystem.djAudio.paused = false ∧
    (banterResponseArrives (BanterResponse.withAudio "blob:announcer")
      appPoweredOffDuringRequest).radioPowerOn = false ∧
    (banterResponseArrives (BanterResponse.withAudio "blob:announcer")
      appPoweredOffDuringRequest).djTalkCounter = 0 := by
  refine ⟨appRequestInFlight_reached, ?_, ?_, ?_, ?_, ?_, ?_, ?_, ?_, ?_, ?_, ?_, ?_⟩ <;> rfl

/-- A `timeupdate` event outside the early-start window, with the guard flag
clear, only records the reported duration and position. -/
theorem djTimeUpdates_cons_silent (d : Option ℚ) (t : ℚ) (es : List (Option ℚ × ℚ)) (a : App)
    (hf : a.audioSystem.djEarlySongStarted = false)
    (hc : ∀ x : ℚ, d = some x → ¬ (0 < x ∧ x - t ≤ 4 ∧ 0 < x - t)) :
    djTimeUpdates ((d, t) :: es) a =
      djTimeUpdates es
        { a with
          audioSystem :=
            { a.audioSystem with
              djAudio := { a.audioSystem.djAudio with duration := d, currentTime := t } } } := by
  have hstep : djTimeUpdate d t a =
      ({ a with
          audioSystem :=
            { a.audioSystem with
              djAudio := { a.audioSystem.djAudio with duration := d, currentTime := t } } },
        false) := by
    unfold djTimeUpdate checkEarlySongStart
    simp only [hf, Bool.false_eq_true, if_false]
    cases d with
    | none => rfl
    | some x => simp only [hc x rfl, if_false]
  conv_lhs => unfold djTimeUpdates
  simp only [hstep, Bool.false_eq_true, if_false]

/-- A `timeupdate` event inside the early-start window, with the guard flag
clear, invokes the callback, and no later event does. -/
theorem djTimeUpdates_cons_fire (x t : ℚ) (es : List (Option ℚ × ℚ)) (a : App)
    (hf : a.audioSystem.djEarlySongStarted = false)
    (hc : 0 < x ∧ x - t ≤ 4 ∧ 0 < x - t) :
    (djTimeUpdates ((some x, t) :: es) a).2 = [(some x, t)] := by
  have hfire : (djTimeUpdate (some x) t a).2 = true := by
    unfold djTimeUpdate checkEarlySongStart
    simp only [hf, Bool.false_eq_true, if_false, hc, and_self, if_true]
  have hflag : (djTimeUpdate (some x) t a).1.audioSystem.djEarlySongStarted = true :=
    (checkEarlySongStart_invoked _ hfire).2.1
  conv_lhs => unfold djTimeUpdates
  simp only [hfire, if_true]
  rw [(djTimeUpdates_guarded es _ hflag).1]

/-- An example run of the early-start check with the guard flag clear (as
`playDJ` leaves it): announcer audio of 10 s; the events at 0 s (duration not
yet known), 5 s, 7 s, 8 s and 9.5 s invoke the callback once, at 7 s. -/
theorem djTimeUpdates_example (a : App) (hf : a.audioSystem.djEarlySongStarted = false) :
    (djTimeUpdates [(none, 0), (some 10, 5), (some 10, 7), (some 10, 8), (some 10, 19 / 2)] a).2
      = [(some 10, 7)] := by
  rw [djTimeUpdates_cons_silent none 0 _ a hf (by intro x hx; cases hx)]
  rw [djTimeUpdates_cons_silent (some 10) 5 _ _ (by exact hf)
    (by intro x hx; cases hx; norm_num)]
  exact djTimeUpdates_cons_fire 10 7 _ _ (by exact hf) (by norm_num)

/-! ## Volumes -/

/-- C21. `playTrack(url)` replaces the source of the music element with `url`
and sets its volume to `volume * musicDuckVolume` (`0.15`) when the announcer
element is active (`isDJPlaying`: not paused and `currentTime > 0`), and to the
base volume otherwise; it issues the play command for `url`. -/
theorem C21_playTrack_volume (url : String) (s : AudioSystem) :
    (s.playTrack url).mainAudio.src = some url ∧
    (s.isDJPlaying = true ↔ (s.djAudio.paused = false ∧ 0 < s.djAudio.currentTime)) ∧
    (s.isDJPlaying = true → (s.playTrack url).mainAudio.volume = s.volume * (15 / 100)) ∧
    (s.isDJPlaying = false → (s.playTrack url).mainAudio.volume = s.volume) ∧
    (s.playTrack url).volume = s.volume ∧
    (s.playTrack url).djAudio = s.djAudio ∧
    (s.playTrack url).playCommands = s.playCommands ++ [url] := by
  refine ⟨rfl, ?_, ?_, ?_, rfl, rfl, rfl⟩
  · unfold AudioSystem.isDJPlaying
    simp
  · intro h
    unfold AudioSystem.playTrack
    simp [h]
  · intro h
    unfold AudioSystem.playTrack
    simp [h]

/-- C22. For every value `v`, `setVolume(v)` stores the base volume
`min 1 (max 0 v)`; when not muted it assigns that base volume to the music
element and `base volume * djVolumeBoost` (`1.3`) to the announcer element,
when muted it assigns neither; `toggleMute` flips the mute flag, copies it to
both elements and leaves the base volume and both element volumes alone. -/
theorem C22_setVolume_and_mute (v : ℚ) (s : AudioSystem) :
    (s.setVolume v).volume = min 1 (max 0 v) ∧
    0 ≤ (s.setVolume v).volume ∧ (s.setVolume v).volume ≤ 1 ∧
    (s.isMuted = false →
      (s.setVolume v).mainAudio.volume = min 1 (max 0 v) ∧
      (s.setVolume v).djAudio.volume = min 1 (max 0 v) * (13 / 10)) ∧
    (s.isMuted = true →
      (s.setVolume v).mainAudio = s.mainAudio ∧ (s.setVolume v).djAudio = s.djAudio) ∧
    (s.setVolume v).isMuted = s.isMuted ∧
    s.toggleMute.1.isMuted = !s.isMuted ∧
    s.toggleMute.2 = !s.isMuted ∧
    s.toggleMute.1.mainAudio.muted = !s.isMuted ∧
    s.toggleMute.1.djAudio.muted = !s.isMuted ∧
    s.toggleMute.1.volume = s.volume ∧
    s.toggleMute.1.mainAudio.volume = s.mainAudio.volume ∧
    s.toggleMute.1.djAudio.volume = s.djAudio.volume := by
  have hclamp : max 0 (min 1 v) = min 1 (max 0 v) := by
    rcases le_total v 0 with h0 | h0
    · rw [min_eq_right (le_trans h0 zero_le_one), max_eq_left h0,
        min_eq_right zero_le_one]
    · rcases le_total v 1 with h1 | h1
      · rw [min_eq_right h1, max_eq_right h0, min_eq_right h1]
      · rw [min_eq_left h1, max_eq_right h0, min_eq_left h1, max_eq_right zero_le_one]
  have hvol : (s.setVolume v).volume = max 0 (min 1 v) := by
    unfold AudioSystem.setVolume
    simp only
    split <;> rfl
  refine ⟨by rw [hvol, hclamp], by rw [hvol]; exact le_max_left _ _,
    by rw [hvol]; exact max_le zero_le_one (min_le_left _ _), ?_, ?_, ?_,
    rfl, rfl, rfl, rfl, rfl, rfl, rfl⟩
  · intro hm
    rw [← hclamp]
    unfold AudioSystem.setVolume
    simp [hm, djVolumeBoost]
  · intro hm
    unfold AudioSystem.setVolume
    simp [hm]
  · unfold AudioSystem.setVolume
    simp only
    split <;> rfl

/-- The announcer volume that `setVolume` assigns when not muted is valid
exactly for base volumes up to `10/13`. -/
theorem setVolume_announcer_valid_iff (v : ℚ) (s : AudioSystem) (hm : s.isMuted = false) :
    validMediaVolume (s.setVolume v).djAudio.volume ↔ v ≤ 10 / 13 := by
  have hd : (s.setVolume v).djAudio.volume = max 0 (min 1 v) * (13 / 10) := by
    unfold AudioSystem.setVolume
    simp only [hm, Bool.not_false, if_true]
  rw [hd]
  unfold validMediaVolume
  constructor
  · rintro ⟨_, h1⟩
    by_contra hc
    have hv : 10 / 13 < v := not_le.mp hc
    have : (10 / 13 : ℚ) < max 0 (min 1 v) :=
      lt_max_of_lt_right (lt_min (by norm_num) hv)
    linarith
  · intro hv
    have h0 : (0 : ℚ) ≤ max 0 (min 1 v) := le_max_left _ _
    have h1 : max 0 (min 1 v) ≤ 10 / 13 :=
      max_le (by norm_num) (le_trans (min_le_right _ _) hv)
    constructor
    · positivity
    · linarith

/-- C28, evaluated at the failing input. With the radio not muted,
`setVolume(1)` (and `init` with the saved volume 1) assigns the announcer
element the volume `1.3`, outside the valid range `[0, 1]`; the assigned
announcer volume is valid only for values up to `10/13`. -/
theorem C28_announcer_volume_exceeds_one :
    (idleAudioSystem.setVolume 1).djAudio.volume = 13 / 10 ∧
    ¬ validMediaVolume (idleAudioSystem.setVolume 1).djAudio.volume ∧
    (idleAudioSystem.init (some 1)).djAudio.volume = 13 / 10 ∧
    (∀ v : ℚ, validMediaVolume (idleAudioSystem.setVolume v).djAudio.volume ↔ v ≤ 10 / 13) := by
  have h1 : (idleAudioSystem.setVolume 1).djAudio.volume = 13 / 10 := by
    unfold AudioSystem.setVolume
    simp only [idleAudioSystem, Bool.not_false, if_true]
    norm_num
  have h2 : (idleAudioSystem.init (some 1)).djAudio.volume = 13 / 10 := by
    unfold AudioSystem.init AudioSystem.setVolume
    simp only [idleAudioSystem, Bool.not_false, if_true, Option.getD_some]
    norm_num
  refine ⟨h1, ?_, h2, fun v => setVolume_announcer_valid_iff v idleAudioSystem rfl⟩
  rw [setVolume_announcer_valid_iff 1 idleAudioSystem rfl]
  norm_num

/-! ## Initial station states -/

/-- The offset drawn from `r` in `[0, 1)` lies in `[0, 7200)`. -/
theorem randomOffset_bounds (r : ℚ) (h0 : 0 ≤ r) (h1 : r < 1) :
    0 ≤ randomOffset r ∧ randomOffset r < 7200 := by
  unfold randomOffset
  constructor
  · exact Int.floor_nonneg.mpr (by positivity)
  · rw [Int.floor_lt]
    push_cast
    linarith

/-- After `initializeStationStates`, the id at place `k` of the list holds the
state made from the draws of round `k`. -/
theorem initializeStationStates_at (draws counterDraws : Nat → ℚ) (nows : Nat → Int) (a : App)
    (k : Nat) (id : String) (hid : stationIds.get? k = some id) :
    (initializeStationStates draws counterDraws nows a).stationStates id
      = some (initialBroadcastState (draws k) (counterDraws k) (nows k)) := by
  have hk : k < 12 := by
    by_contra hc
    have : stationIds.get? k = none := List.get?_eq_none.mpr (by simpa [stationIds] using hc)
    rw [this] at hid
    cases hid
  interval_cases k <;>
    (simp only [stationIds, List.get?, Option.some.injEq] at hid
     subst hid
     simp [initializeStationStates, stationIds, List.enum, List.enumFrom, setStationState])

/-- C25. For each of the 12 known station ids (place `k` of the list) and every
draw `r` in `[0, 1)`, `initializeStationStates` stores a state made from the
offset `o = floor(7200 * r)`, `0 ≤ o < 7200`, with
`currentTrackIndex = floor(o / 210)` and `trackPositionSeconds = o mod 210`, so
that `currentTrackIndex * 210 + trackPositionSeconds = o`,
`0 ≤ trackPositionSeconds < 210` and `currentTrackIndex ≤ 34`. -/
theorem C25_initial_state_arithmetic (draws counterDraws : Nat → ℚ) (nows : Nat → Int)
    (a : App) (k : Nat) (id : String) (hid : stationIds.get? k = some id)
    (hr0 : 0 ≤ draws k) (hr1 : draws k < 1) :
    stationIds.length = 12 ∧
    ∃ st : BroadcastState,
      (initializeStationStates draws counterDraws nows a).stationStates id = some st ∧
      randomOffset (draws k) = ⌊7200 * draws k⌋ ∧
      0 ≤ randomOffset (draws k) ∧ randomOffset (draws k) < 7200 ∧
      (st.currentTrackIndex : Int) = ⌊(randomOffset (draws k) : ℚ) / 210⌋ ∧
      st.trackPositionSeconds = ((randomOffset (draws k) % 210 : Int) : ℚ) ∧
      (st.currentTrackIndex : ℚ) * 210 + st.trackPositionSeconds = randomOffset (draws k) ∧
      0 ≤ st.trackPositionSeconds ∧ st.trackPositionSeconds < 210 ∧
      st.currentTrackIndex ≤ 34 ∧
      st.broadcastStartTime = nows k - randomOffset (draws k) * 1000 ∧
      st.playlist = [] ∧ st.playlistLoaded = false := by
  refine ⟨rfl, _, initializeStationStates_at draws counterDraws nows a k id hid, ?_⟩
  obtain ⟨ho0, ho1⟩ := randomOffset_bounds (draws k) hr0 hr1
  generalize randomOffset_def : randomOffset (draws k) = o at ho0 ho1
  have hfloor : ⌊(o : ℚ) / 210⌋ = o / 210 := by
    have := Rat.floor_intCast_div_natCast o 210
    simpa using this
  have hidx : ((initialBroadcastState (draws k) (counterDraws k) (nows k)).currentTrackIndex : Int)
      = o / 210 := by
    simp only [initialBroadcastState, randomOffset_def, AVG_TRACK_LENGTH, hfloor]
    exact Int.toNat_of_nonneg (Int.ediv_nonneg ho0 (by norm_num))
  have hpos : (initialBroadcastState (draws k) (counterDraws k) (nows k)).trackPositionSeconds
      = ((o % 210 : Int) : ℚ) := by
    simp only [initialBroadcastState, randomOffset_def, AVG_TRACK_LENGTH]
    rw [jsRem_nonneg _ _ (by exact_mod_cast ho0) (by norm_num), hfloor]
    have := Int.emod_add_ediv o 210
    have h2 : ((o % 210 : Int) : ℚ) + 210 * ((o / 210 : Int) : ℚ) = (o : ℚ) := by exact_mod_cast this
    linarith
  have hidxN : ((initialBroadcastState (draws k) (counterDraws k) (nows k)).currentTrackIndex : ℚ)
      = ((o / 210 : Int) : ℚ) := by exact_mod_cast hidx
  have hm0 : 0 ≤ o % 210 := Int.emod_nonneg _ (by norm_num)
  have hm1 : o % 210 < 210 := Int.emod_lt_of_pos _ (by norm_num)
  refine ⟨?_, ho0, ho1, ?_, hpos, ?_, ?_, ?_, ?_, ?_, rfl, rfl⟩
  · rw [← randomOffset_def]
    unfold randomOffset
    rw [mul_comm]
  · rw [hidx, hfloor]
  · rw [hpos, hidxN]
    have := Int.emod_add_ediv o 210
    have h2 : ((o % 210 : Int) : ℚ) + 210 * ((o / 210 : Int) : ℚ) = (o : ℚ) := by exact_mod_cast this
    linarith
  · rw [hpos]
    exact_mod_cast hm0
  · rw [hpos]
    exact_mod_cast hm1
  · have : ((initialBroadcastState (draws k) (counterDraws k) (nows k)).currentTrackIndex : Int)
        ≤ 34 := by
      rw [hidx]
      omega
    exact_mod_cast this
  · simp only [initialBroadcastState, randomOffset_def]

/-- C25 at work: round 4 (`80s-1`) with the draw `1/2` stores offset 3600,
track index 17 at 30 s. -/
theorem C25_initial_state_arithmetic_witness :
    stationIds.length = 12 ∧
    ∃ st : BroadcastState,
      (initializeStationStates (fun _ => 1 / 2) (fun _ => 0) (fun _ => 0) appPlayingS1).stationStates
        "80s-1" = some st ∧
      randomOffset (1 / 2) = ⌊7200 * (1 / 2 : ℚ)⌋ ∧
      0 ≤ randomOffset (1 / 2) ∧ randomOffset (1 / 2) < 7200 ∧
      (st.currentTrackIndex : Int) = ⌊(randomOffset (1 / 2) : ℚ) / 210⌋ ∧
      st.trackPositionSeconds = ((randomOffset (1 / 2) % 210 : Int) : ℚ) ∧
      (st.currentTrackIndex : ℚ) * 210 + st.trackPositionSeconds
        = randomOffset (1 / 2) ∧
      0 ≤ st.trackPositionSeconds ∧ st.trackPositionSeconds < 210 ∧
      st.currentTrackIndex ≤ 34 ∧
      st.broadcastStartTime
        = (0 : Int) - randomOffset (1 / 2) * 1000 ∧
      st.playlist = [] ∧ st.playlistLoaded = false :=
  C25_initial_state_arithmetic (fun _ => 1 / 2) (fun _ => 0) (fun _ => 0) appPlayingS1 4 "80s-1"
    rfl (by norm_num) (by norm_num)

/-! ## Save followed by restore -/

/-- A commit of a station followed by its restore at the same clock value: the
wrap loop runs from the engine position itself. -/
theorem restore_after_save (a : App) (stationId : String) (now : Int) (st0 : BroadcastState)
    (hid : stationId ≠ "") (hs : a.stationStates stationId = some st0)
    (hn : 0 < a.playlist.length) :
    (restoreStationState stationId now (saveStationState stationId now a)).2 = true ∧
    (restoreStationState stationId now (saveStationState stationId now a)).1.playlist
      = a.playlist ∧
    (restoreStationState stationId now (saveStationState stationId now a)).1.playlistIndex
      = (wrapLoop a.playlist.length a.audioSystem.mainAudio.currentTime a.playlistIndex 0).2.1 ∧
    (restoreStationState stationId now (saveStationState stationId now a)).1.seekToPosition
      = some (min (wrapLoop a.playlist.length a.audioSystem.mainAudio.currentTime
          a.playlistIndex 0).1 180) := by
  rw [saveStationState_eq stationId now a st0 hid hs]
  generalize hst : ({ st0 with
      currentTrackIndex := a.playlistIndex
      trackPositionSeconds := a.audioSystem.mainAudio.currentTime
      playlist := a.playlist
      playlistLoaded := true
      djTalkCounter := a.djTalkCounter
      lastLeftTime := some now
      djTalkActive := !a.audioSystem.djAudio.paused
      djTalkPosition :=
        if a.audioSystem.djAudio.paused then st0.djTalkPosition
        else a.audioSystem.djAudio.currentTime } : BroadcastState) = st
  have h1 : st.playlist = a.playlist := by rw [← hst]
  have h2 : st.playlistLoaded = true := by rw [← hst]
  have h3 : st.currentTrackIndex = a.playlistIndex := by rw [← hst]
  have h4 : projectedPosition st now = a.audioSystem.mainAudio.currentTime := by
    rw [← hst]
    unfold projectedPosition orNow
    simp only
    split <;> simp
  rw [restoreStationState_loaded _ stationId now st (by simp [setStationState]) h2
    (by rw [h1]; exact hn)]
  simp only [h1, h3, h4, and_self]

/-- C27 (as stated) fails for an engine position above 210 s: station `S1` on
track 0 of three, 240 s into it, is committed and restored at the same clock
value 5000, and the restore yields track index 1 with a seek to 30 s. -/
theorem C27_counterexample :
    appLongTrackS1.playlist.length = 3 ∧ appLongTrackS1.playlistIndex = 0 ∧
    appLongTrackS1.audioSystem.mainAudio.currentTime = 240 ∧
    (restoreStationState "S1" 5000 (saveStationState "S1" 5000 appLongTrackS1)).1.playlistIndex
      = 1 ∧
    (restoreStationState "S1" 5000 (saveStationState "S1" 5000 appLongTrackS1)).1.playlistIndex
      ≠ appLongTrackS1.playlistIndex ∧
    (restoreStationState "S1" 5000 (saveStationState "S1" 5000 appLongTrackS1)).1.seekToPosition
      = some 30 := by
  obtain ⟨_, _, hi, hseek⟩ := restore_after_save appLongTrackS1 "S1" 5000
    (visitedState 0 0 (tracksS1 3) 1000) (by decide) rfl (by decide)
  have hw : wrapLoop appLongTrackS1.playlist.length
      appLongTrackS1.audioSystem.mainAudio.currentTime appLongTrackS1.playlistIndex 0
      = (30, 1, 1) := by
    have h := wrapLoop_eq 3 1 240 0 0 (by norm_num) (by
      intro j hj
      interval_cases j
      norm_num)
    have e1 : appLongTrackS1.playlist.length = 3 := rfl
    have e2 : appLongTrackS1.audioSystem.mainAudio.currentTime = 240 := rfl
    have e3 : appLongTrackS1.playlistIndex = 0 := rfl
    rw [e1, e2, e3, h]
    refine Prod.ext ?_ (Prod.ext ?_ ?_)
    · norm_num
    · rfl
    · rfl
  rw [hw] at hi hseek
  refine ⟨rfl, rfl, rfl, hi, ?_, ?_⟩
  · rw [hi]
    decide
  · rw [hseek]
    norm_num

/-- C27 (amended). For every non-empty playlist, every playlistIndex `i` and
every engine position `x`, `saveStationState` followed by
`restoreStationState` at the same clock value succeeds, keeps the playlist and
yields the index reached from `i` by `wrapCount x` wrap steps; for every
`x ≤ 210` that is `playlistIndex = i`, with the seek target `min x 180`. -/
theorem C27_save_restore_same_clock (a : App) (stationId : String) (now : Int)
    (st0 : BroadcastState) (hid : stationId ≠ "") (hs : a.stationStates stationId = some st0)
    (hn : 0 < a.playlist.length) :
    (restoreStationState stationId now (saveStationState stationId now a)).2 = true ∧
    (restoreStationState stationId now (saveStationState stationId now a)).1.playlist
      = a.playlist ∧
    (restoreStationState stationId now (saveStationState stationId now a)).1.playlistIndex
      = (wrapStep a.playlist.length)^[wrapCount a.audioSystem.mainAudio.currentTime]
          a.playlistIndex ∧
    (a.audioSystem.mainAudio.currentTime ≤ 210 →
      (restoreStationState stationId now (saveStationState stationId now a)).1.playlistIndex
        = a.playlistIndex ∧
      (restoreStationState stationId now (saveStationState stationId now a)).1.seekToPosition
        = some (min a.audioSystem.mainAudio.currentTime 180)) := by
  obtain ⟨h1, h2, h3, h4⟩ := restore_after_save a stationId now st0 hid hs hn
  refine ⟨h1, h2, ?_, ?_⟩
  · rw [h3, wrapLoop_closed]
  · intro hx
    rw [h3, h4, wrapLoop_no_wrap _ _ _ _ hx]
    exact ⟨rfl, rfl⟩

/-- C27 (amended) at work: `S1` on track 1 of three at 80 s, committed and
restored at clock 5000, resumes track 1 at 80 s. -/
theorem C27_save_restore_same_clock_witness :
    (restoreStationState "S1" 5000 (saveStationState "S1" 5000 appPlayingS1)).1.playlistIndex
      = 1 ∧
    (restoreStationState "S1" 5000 (saveStationState "S1" 5000 appPlayingS1)).1.seekToPosition
      = some (min 80 180) :=
  (C27_save_restore_same_clock appPlayingS1 "S1" 5000 (visitedState 0 0 (tracksS1 3) 1000)
    (by decide) rfl (by decide)).2.2.2 (by norm_num [appPlayingS1, idleAudio])

/-! ## Track lookup -/

/-- C29. For every non-empty playlist of length `n` and every playlistIndex
value (whatever `calculateBroadcastPosition`, `restoreStationState` or
`onTrackEnd` left), the index that `playCurrentTrack` and `playNextTrackEarly`
use to fetch the track is below `n`, the lookup yields a track, and the play
command for that track is issued. -/
theorem C29_lookup_index_in_range (a : App) (hn : 0 < a.playlist.length) :
    normalIndex a.playlist.length a.playlistIndex < a.playlist.length ∧
    (a.playlistIndex < a.playlist.length →
      normalIndex a.playlist.length a.playlistIndex = a.playlistIndex) ∧
    (∃ track : Track,
      a.playlist.get? (normalIndex a.playlist.length a.playlistIndex) = some track ∧
      (playCurrentTrack a).playlistIndex = normalIndex a.playlist.length a.playlistIndex ∧
      (playCurrentTrack a).audioSystem.playCommands
        = a.audioSystem.playCommands ++ [streamUrl track] ∧
      (playNextTrackEarly a).playlistIndex = normalIndex a.playlist.length a.playlistIndex ∧
      (playNextTrackEarly a).audioSystem.playCommands
        = a.audioSystem.playCommands ++ [streamUrl track]) := by
  have hlt : normalIndex a.playlist.length a.playlistIndex < a.playlist.length := by
    unfold normalIndex
    split <;> omega
  refine ⟨hlt, ?_, ?_⟩
  · intro hi
    unfold normalIndex
    rw [if_neg (by omega)]
  · obtain ⟨track, htrack, hc, _, hidx⟩ := playCurrentTrack_commands a hn
    obtain ⟨track2, htrack2, he⟩ := playNextTrackEarly_nonempty a hn
    have : track2 = track := by
      rw [htrack] at htrack2
      exact (Option.some.inj htrack2).symm
    subst this
    refine ⟨track2, htrack, hidx, hc, ?_, ?_⟩
    · rw [he]
    · rw [he]
      rfl

/-- C29 at work: with the stored index 3 on a playlist of three tracks, the
lookup uses index 0 and the play command for track 0 is issued. -/
theorem C29_lookup_index_in_range_witness :
    normalIndex ({ appPlayingS1 with playlistIndex := 3 } : App).playlist.length 3 < 3 ∧
    (playCurrentTrack { appPlayingS1 with playlistIndex := 3 }).playlistIndex = 0 ∧
    (playNextTrackEarly { appPlayingS1 with playlistIndex := 3 }).playlistIndex = 0 := by
  obtain ⟨h1, _, track, _, h2, _, h3, _⟩ :=
    C29_lookup_index_in_range { appPlayingS1 with playlistIndex := 3 } (by decide)
  exact ⟨h1, h2, h3⟩

/-! ## Context sent to the banter generator -/

/-- With the index strictly inside the playlist and not at its start,
`triggerDJTalk` looks up the track before the index and the track at it. -/
theorem banterContextTracks_inside (a : App) (h1 : 0 < a.playlistIndex) :
    banterContextTracks a
      = (a.playlist.get? (a.playlistIndex - 1), a.playlist.get? a.playlistIndex) := by
  unfold banterContextTracks jsIndex
  simp only [h1, if_true]
  have e1 : ¬ ((a.playlistIndex : Int) - 1 < 0) := by omega
  have e2 : ¬ ((a.playlistIndex : Int) < 0) := by omega
  have e3 : ((a.playlistIndex : Int) - 1).toNat = a.playlistIndex - 1 := by omega
  rw [if_neg e1, if_neg e2, e3, Int.toNat_natCast]

/-- With the index equal to the length of a non-empty playlist, the lookup of
the next track is `undefined`, while `playCurrentTrack` starts track 0. -/
theorem banterContextTracks_at_end (a : App) (hn : 0 < a.playlist.length)
    (hi : a.playlistIndex = a.playlist.length) :
    banterContextTracks a = (a.playlist.get? (a.playlist.length - 1), none) ∧
    normalIndex a.playlist.length a.playlistIndex = 0 := by
  constructor
  · rw [banterContextTracks_inside a (by omega), hi]
    congr 1
    exact List.get?_eq_none.mpr (le_refl _)
  · unfold normalIndex
    rw [if_pos (by omega)]

/-- An announced name of a looked-up track is never empty. -/
theorem trackDisplayName_some_ne_empty (info : Track → NowPlayingInfo) (t : Track) :
    trackDisplayName info (some t) ≠ "" := by
  intro h
  have hl := congrArg String.length h
  simp only [trackDisplayName, String.length_append] at hl
  have h4 : " by ".length = 4 := by decide
  have h0 : "".length = 0 := by decide
  rw [h4, h0] at hl
  omega

/-- C26, evaluated at the failing input. Station `S1` plays the last of its
three tracks (index 2); the track ends at clock 4000 and the announcer is due.
`triggerDJTalk` then runs with `playlistIndex = 3`: the previous track it looks
up is track 2, the next track it looks up is `undefined`, so the `nextTrack`
sent to the generator is the empty string, while the track started after the
announcer is track 0, whose name is not empty. -/
theorem C26_next_track_missing_after_last_track :
    appLastTrackS1.playlist.length = 3 ∧ appLastTrackS1.playlistIndex = 2 ∧
    (onTrackEndAdvance 4000 appLastTrackS1).playlistIndex = 3 ∧
    shouldDJTalk DJ_TALK_CONFIG 0 (onTrackEndAdvance 4000 appLastTrackS1) = true ∧
    banterContextTracks (onTrackEndAdvance 4000 appLastTrackS1)
      = ((tracksS1 3).get? 2, none) ∧
    (∀ info : Track → NowPlayingInfo,
      (banterContext info (onTrackEndAdvance 4000 appLastTrackS1)).2 = "") ∧
    (onTrackEnd DJ_TALK_CONFIG 0 BanterResponse.textOnly 4000
        appLastTrackS1).audioSystem.mainAudio.src
      = ((tracksS1 3).get? 0).map streamUrl ∧
    (∀ info : Track → NowPlayingInfo,
      trackDisplayName info ((tracksS1 3).get? 0) ≠ "") := by
  have hdue : shouldDJTalk DJ_TALK_CONFIG 0 (onTrackEndAdvance 4000 appLastTrackS1) = true := by
    unfold shouldDJTalk
    rw [getRandomInt_zero]
    rfl
  have hctx : banterContextTracks (onTrackEndAdvance 4000 appLastTrackS1)
      = ((tracksS1 3).get? 2, none) :=
    (banterContextTracks_at_end (onTrackEndAdvance 4000 appLastTrackS1) (by decide) rfl).1
  refine ⟨rfl, rfl, rfl, hdue, hctx, ?_, ?_, ?_⟩
  · intro info
    unfold banterContext
    rw [hctx]
    rfl
  · rw [onTrackEnd_talk _ _ _ _ _ rfl hdue]
    rfl
  · intro info
    exact trackDisplayName_some_ne_empty info _

/-! ## Paths of the music routes -/

/-- C30, evaluated at failing inputs. With `__dirname = /app/src/backend/routes`
and the station id `70s-1`, the station folder is
`/app/src/music/70s/disco-fever`; the filename `../../../backend/.env` gives
the file path `/app/src/backend/.env` and the filename `..` gives
`/app/src/music/70s`, neither of which lies inside the station folder. -/
theorem C30_filename_escapes_station_folder :
    stationFolderPath ["app", "src", "backend", "routes"] "70s-1"
      = some ["app", "src", "music", "70s", "disco-fever"] ∧
    routeFilePath ["app", "src", "backend", "routes"] "70s-1" "../../../backend/.env"
      = some ["app", "src", "backend", ".env"] ∧
    ¬ (["app", "src", "music", "70s", "disco-fever"] <+: ["app", "src", "backend", ".env"]) ∧
    routeFilePath ["app", "src", "backend", "routes"] "70s-1" ".."
      = some ["app", "src", "music", "70s"] ∧
    ¬ (["app", "src", "music", "70s", "disco-fever"] <+: ["app", "src", "music", "70s"]) ∧
    routeFilePath ["app", "src", "backend", "routes"] "70s-1" "song.mp3"
      = some ["app", "src", "music", "70s", "disco-fever", "song.mp3"] := by
  refine ⟨by decide, by decide, by decide, by decide, by decide, by decide⟩

/-- A character list without the separator is one piece. -/
theorem splitChars_no_sep (sep : Char) (s : List Char) (h : sep ∉ s) :
    splitChars sep s = [s] := by
  induction s with
  | nil => rfl
  | cons c cs ih =>
    have hc : c ≠ sep := fun e => h (by simp [e])
    have hcs : sep ∉ cs := fun e => h (List.mem_cons_of_mem _ e)
    simp only [splitChars, hc, if_false, ih hcs]

/-- For a filename that is a single plain segment (no slash, not empty, not
`.` and not `..`), the file path of the routes is the station folder followed
by the filename. -/
theorem routeFilePath_plain_filename (dirname : List String) (stationId filename : String)
    (folder : String) (hf : STATION_FOLDERS stationId = some folder)
    (hslash : '/' ∉ filename.data) (h0 : filename ≠ "") (h1 : filename ≠ ".")
    (h2 : filename ≠ "..") :
    ∃ dir : List String, stationFolderPath dirname stationId = some dir ∧
      routeFilePath dirname stationId filename = some (dir ++ [filename]) := by
  refine ⟨_, by rw [stationFolderPath, hf], ?_⟩
  rw [routeFilePath, hf]
  have hseg : pathSegments filename = [filename] := by
    unfold pathSegments
    rw [splitChars_no_sep _ _ hslash]
    rfl
  simp only [pathJoin, List.flatMap_cons, List.flatMap_nil, List.append_nil, hseg,
    normalizeSegments]
  rw [← List.append_assoc, ← List.append_assoc, List.foldl_append]
  simp [h0, h1, h2]

/-! ## Lemmas on the filename patterns -/

/-- White space before a string does not change its trimmed form. -/
theorem trim_spaces_append (p s : List Char) (hp : p.all isWhitespace = true) :
    trim (p ++ s) = trim s := by
  induction p with
  | nil => rfl
  | cons c cs ih =>
    rw [List.all_cons, Bool.and_eq_true] at hp
    rw [← ih hp.2]
    unfold trim
    rw [List.cons_append, List.dropWhile_cons_of_pos hp.1]

/-- Dropping white space in front of a white-space string leaves nothing. -/
theorem dropWhile_spaces (w : List Char) (hw : w.all isWhitespace = true) :
    w.dropWhile isWhitespace = [] := by
  rw [List.dropWhile_eq_nil_iff]
  intro c hc
  exact List.all_eq_true.mp hw c hc

/-- Dropping white space skips a white-space string in front. -/
theorem dropWhile_spaces_append (w r : List Char) (hw : w.all isWhitespace = true) :
    (w ++ r).dropWhile isWhitespace = r.dropWhile isWhitespace := by
  induction w with
  | nil => rfl
  | cons x xs ih =>
    rw [List.all_cons, Bool.and_eq_true] at hw
    rw [List.cons_append, List.dropWhile_cons_of_pos hw.1]
    exact ih hw.2

/-- White space after a string does not change its trimmed form. -/
theorem trim_append_spaces (s w : List Char) (hw : w.all isWhitespace = true) :
    trim (s ++ w) = trim s := by
  have hrev : w.reverse.all isWhitespace = true := by
    rw [List.all_eq_true] at hw ⊢
    intro c hc
    exact hw c (List.mem_reverse.mp hc)
  induction s with
  | nil =>
    unfold trim
    rw [List.nil_append, dropWhile_spaces w hw]
    rfl
  | cons c cs ih =>
    unfold trim at ih ⊢
    rw [List.cons_append]
    by_cases hc : isWhitespace c = true
    · rw [List.dropWhile_cons_of_pos hc, List.dropWhile_cons_of_pos hc]
      exact ih
    · rw [List.dropWhile_cons_of_neg hc, List.dropWhile_cons_of_neg hc]
      congr 1
      rw [← List.cons_append, List.reverse_append]
      exact dropWhile_spaces_append _ _ hrev

/-- An audio extension has four characters. -/
theorem isAudioExtension_length (e : List Char) (h : isAudioExtension e = true) :
    e.length = 4 := by
  unfold isAudioExtension at h
  have hm : e.map Char.toLower ∈ [".mp3".data, ".wav".data, ".ogg".data, ".m4a".data] := by
    simpa using h
  have hl : (e.map Char.toLower).length = 4 := by
    simp only [List.mem_cons, List.mem_singleton, List.not_mem_nil, or_false] at hm
    rcases hm with h | h | h | h <;> rw [h] <;> rfl
  simpa using hl

/-- The extension is removed from a name that ends with one. -/
theorem stripAudioExtension_append (s e : List Char) (h : isAudioExtension e = true) :
    stripAudioExtension (s ++ e) = s := by
  have hl := isAudioExtension_length e h
  unfold stripAudioExtension
  have h1 : (s ++ e).length - 4 = s.length := by
    rw [List.length_append, hl]
    omega
  rw [h1, List.drop_left, List.take_left, if_pos]
  refine ⟨?_, h⟩
  rw [List.length_append, hl]
  omega

/-- Removing the extension keeps only characters of the filename. -/
theorem mem_of_mem_stripAudioExtension (s : List Char) (c : Char)
    (h : c ∈ stripAudioExtension s) : c ∈ s := by
  unfold stripAudioExtension at h
  split at h
  · exact List.mem_of_mem_take h
  · exact h

/-- On a non-empty rest without line terminators, `\s*(.+)$` succeeds, and
group 2 is the rest without some leading white space. -/
theorem greedySpaces_matchRest (s : List Char) (hs : s ≠ [])
    (hl : ∀ c ∈ s, isLineTerminator c = false) :
    ∃ p g2 : List Char, greedySpaces matchRest s = some g2 ∧ s = p ++ g2 ∧
      p.all isWhitespace = true := by
  have hrest : matchRest s = some s := by
    unfold matchRest
    rw [if_pos]
    refine ⟨hs, ?_⟩
    rw [List.all_eq_true]
    intro c hc
    simp [hl c hc]
  induction s with
  | nil => exact absurd rfl hs
  | cons c cs ih =>
    unfold greedySpaces
    by_cases hc : isWhitespace c = true
    · rw [if_pos hc]
      by_cases hcs : cs = []
      · subst hcs
        refine ⟨[], [c], ?_, rfl, rfl⟩
        have : greedySpaces matchRest [] = none := rfl
        rw [this]
        exact hrest
      · have hl2 : ∀ x ∈ cs, isLineTerminator x = false :=
          fun x hx => hl x (List.mem_cons_of_mem _ hx)
        have hrest2 : matchRest cs = some cs := by
          unfold matchRest
          rw [if_pos]
          refine ⟨hcs, ?_⟩
          rw [List.all_eq_true]
          intro x hx
          simp [hl2 x hx]
        obtain ⟨p, g2, hg, hsplit, hp⟩ := ih hcs hl2 hrest2
        refine ⟨c :: p, g2, ?_, ?_, ?_⟩
        · rw [hg]
        · rw [hsplit]
          rfl
        · rw [List.all_cons, hc, hp]
          rfl
    · rw [if_neg hc]
      exact ⟨[], c :: cs, hrest, rfl, rfl⟩

/-- The part `\s*SEP\s*(.+)$` in front of the first separator: it succeeds
exactly when only white space stands before the separator. -/
theorem matchSeparator_before_sep (sep : Char) (hsep : isWhitespace sep = false)
    (X R : List Char) (hX : sep ∉ X) :
    matchSeparator sep (X ++ sep :: R)
      = if X.all isWhitespace = true then greedySpaces matchRest R else none := by
  unfold matchSeparator
  induction X with
  | nil =>
    simp only [List.nil_append, greedySpaces, hsep, List.all_nil, if_true]
    simp
  | cons x xs ih =>
    have hx : x ≠ sep := fun e => hX (by simp [e])
    have hxs : sep ∉ xs := fun e => hX (List.mem_cons_of_mem _ e)
    rw [List.cons_append, greedySpaces, ih hxs]
    by_cases hw : isWhitespace x = true
    · simp only [hw, if_true, List.all_cons, Bool.true_and, hx, if_false]
      split <;> simp_all
    · simp [hw, hx]

/-- Without the separator in the input, `\s*SEP\s*(.+)$` fails. -/
theorem matchSeparator_no_sep (sep : Char) (s : List Char) (hs : sep ∉ s) :
    matchSeparator sep s = none := by
  unfold matchSeparator
  induction s with
  | nil => rfl
  | cons x xs ih =>
    have hx : x ≠ sep := fun e => hs (by simp [e])
    have hxs : sep ∉ xs := fun e => hs (List.mem_cons_of_mem _ e)
    rw [greedySpaces, ih hxs]
    simp [hx]

/-- Without the separator in the input, the split pattern fails. -/
theorem matchSplit_no_sep (sep : Char) (s : List Char) (hs : sep ∉ s) :
    ∀ g1 : List Char, matchSplit sep g1 s = none := by
  induction s with
  | nil => intro g1; rfl
  | cons x xs ih =>
    intro g1
    have hxs : sep ∉ xs := fun e => hs (List.mem_cons_of_mem _ e)
    unfold matchSplit
    rw [matchSeparator_no_sep sep xs hxs, ih hxs]
    simp

/-- The split pattern on `T`, a space, the first separator and a rest `R`:
group 1 is `T` and the space without some trailing white space, group 2 is `R`
without some leading white space. -/
theorem matchSplit_first_sep (sep : Char) (hsep : isWhitespace sep = false) (R : List Char)
    (hR : R ≠ []) (hRl : ∀ c ∈ R, isLineTerminator c = false) :
    ∀ (T g1 : List Char), T ≠ [] → sep ∉ T → (∀ c ∈ T, isLineTerminator c = false) →
      ∃ h1 w p g2 : List Char,
        matchSplit sep g1 (T ++ ' ' :: sep :: R) = some (g1 ++ h1, g2) ∧
        T ++ [' '] = h1 ++ w ∧ w.all isWhitespace = true ∧
        R = p ++ g2 ∧ p.all isWhitespace = true := by
  obtain ⟨p, g2, hg, hsplit, hp⟩ := greedySpaces_matchRest R hR hRl
  intro T
  induction T with
  | nil => intro g1 h; exact absurd rfl h
  | cons t ts ih =>
    intro g1 _ hT hTl
    have ht : isLineTerminator t = false := hTl t (List.mem_cons_self _ _)
    have hts : sep ∉ ts := fun e => hT (List.mem_cons_of_mem _ e)
    have htsl : ∀ c ∈ ts, isLineTerminator c = false :=
      fun c hc => hTl c (List.mem_cons_of_mem _ hc)
    have hX : sep ∉ ts ++ [' '] := by
      intro e
      rcases List.mem_append.mp e with e | e
      · exact hts e
      · rw [List.mem_singleton] at e
        rw [e] at hsep
        exact absurd hsep (by decide)
    have hstep : matchSeparator sep (ts ++ ' ' :: sep :: R)
        = if (ts ++ [' ']).all isWhitespace = true then greedySpaces matchRest R else none := by
      have := matchSeparator_before_sep sep hsep (ts ++ [' ']) R hX
      rwa [List.append_assoc, List.singleton_append] at this
    rw [List.cons_append, matchSplit, ht, hstep]
    by_cases hall : (ts ++ [' ']).all isWhitespace = true
    · refine ⟨[t], ts ++ [' '], p, g2, ?_, rfl, hall, hsplit, hp⟩
      simp [hall, hg]
    · have hne : ts ≠ [] := by
        intro e
        rw [e] at hall
        exact hall (by decide)
      obtain ⟨h1, w, p2, g3, hm, hsp, hw, hsp2, hp2⟩ := ih (g1 ++ [t]) hne hts htsl
      refine ⟨t :: h1, w, p2, g3, ?_, ?_, hw, hsp2, hp2⟩
      · simp only [hall, if_false, Bool.false_eq_true]
        rw [hm, List.append_assoc, List.singleton_append]
      · rw [List.cons_append, hsp, List.cons_append]

/-- The result of `parseTrackFilename` on title `T`, a space, the separator, a
space, artist `A` and an extension, when a split pattern for `sep` is reached
and `T` is free of `sep`. -/
theorem matchSplit_title_artist (sep : Char) (hsep : isWhitespace sep = false)
    (T A : List Char) (hT : T ≠ []) (hTs : sep ∉ T)
    (hTl : ∀ c ∈ T, isLineTerminator c = false) (hAl : ∀ c ∈ A, isLineTerminator c = false) :
    ∃ m : List Char × List Char,
      matchSplit sep [] (T ++ ' ' :: sep :: ' ' :: A) = some m ∧
      trim m.1 = trim T ∧ trim m.2 = trim A := by
  have hRl : ∀ c ∈ ' ' :: A, isLineTerminator c = false := by
    intro c hc
    rcases List.mem_cons.mp hc with e | e
    · rw [e]
      decide
    · exact hAl c e
  obtain ⟨h1, w, p, g2, hm, hsp, hw, hsp2, hp⟩ :=
    matchSplit_first_sep sep hsep (' ' :: A) (List.cons_ne_nil _ _) hRl T [] hT hTs hTl
  refine ⟨(h1, g2), by rw [hm, List.nil_append], ?_, ?_⟩
  · show trim h1 = trim T
    rw [← trim_append_spaces h1 w hw, ← hsp, trim_append_spaces T [' '] (by decide)]
  · show trim g2 = trim A
    rw [← trim_spaces_append p g2 hp, ← hsp2]
    exact trim_spaces_append [' '] A (by decide)
/-! ## Track names -/

/-- C23 (as stated) fails for a title with a hyphen in it and for an en dash
separator next to a hyphenated name: `Rock-n-Roll - Elvis.mp3` is split at its
first hyphen into title `Rock` and artist `n-Roll - Elvis`, and
`Song – Jay-Z.mp3` into title `Song – Jay` and artist `Z`. -/
theorem C23_counterexample :
    parseTrackFilename ("Rock-n-Roll" ++ " - " ++ "Elvis" ++ ".mp3")
      = { title := "Rock", artist := "n-Roll - Elvis" } ∧
    parseTrackFilename ("Rock-n-Roll" ++ " - " ++ "Elvis" ++ ".mp3")
      ≠ { title := "Rock-n-Roll", artist := "Elvis" } ∧
    parseTrackFilename ("Song" ++ " – " ++ "Jay-Z" ++ ".mp3")
      = { title := "Song – Jay", artist := "Z" } ∧
    parseTrackFilename ("Song" ++ " – " ++ "Jay-Z" ++ ".mp3")
      ≠ { title := "Song", artist := "Jay-Z" } := by
  refine ⟨by decide, by decide, by decide, by decide⟩

/-- C23 (amended). For every track identifier of the form
`T + " - " + A + extension` (extension `.mp3`, `.wav`, `.ogg` or `.m4a` in any
letter case, `T` non-empty, no hyphen in `T`, no line terminator in `T` or
`A`), `parseTrackFilename` returns title = `T` trimmed and artist = `A`
trimmed; the same holds for the en dash separator when moreover `T` holds no en
dash and `A` no hyphen. -/
theorem C23_split_at_first_hyphen (T A ext : String) (hT : T ≠ "")
    (hTh : '-' ∉ T.data)
    (hTl : ∀ c ∈ T.data, isLineTerminator c = false)
    (hAl : ∀ c ∈ A.data, isLineTerminator c = false)
    (hext : isAudioExtension ext.data = true) :
    parseTrackFilename (T ++ " - " ++ A ++ ext)
      = { title := String.mk (trim T.data), artist := String.mk (trim A.data) } ∧
    (enDash ∉ T.data → '-' ∉ A.data →
      parseTrackFilename (T ++ " – " ++ A ++ ext)
        = { title := String.mk (trim T.data), artist := String.mk (trim A.data) }) := by
  have hT0 : T.data ≠ [] := by
    intro e
    apply hT
    cases T
    simp_all
  constructor
  · obtain ⟨m, hm, h1, h2⟩ := matchSplit_title_artist '-' (by decide) T.data A.data hT0 hTh hTl hAl
    have hname : stripAudioExtension (T ++ " - " ++ A ++ ext).data
        = T.data ++ ' ' :: '-' :: ' ' :: A.data := by
      have : (T ++ " - " ++ A ++ ext).data = (T.data ++ ' ' :: '-' :: ' ' :: A.data) ++ ext.data := by
        simp [String.data_append]
      rw [this, stripAudioExtension_append _ _ hext]
    unfold parseTrackFilename
    simp only [hname, hm, h1, h2]
  · intro hTe hAh
    obtain ⟨m, hm, h1, h2⟩ := matchSplit_title_artist enDash (by decide) T.data A.data hT0 hTe
      hTl hAl
    have hname : stripAudioExtension (T ++ " – " ++ A ++ ext).data
        = T.data ++ ' ' :: enDash :: ' ' :: A.data := by
      have : (T ++ " – " ++ A ++ ext).data
          = (T.data ++ ' ' :: enDash :: ' ' :: A.data) ++ ext.data := by
        have e : " – ".data = [' ', enDash, ' '] := by decide
        simp only [String.data_append, e, List.append_assoc, List.cons_append, List.nil_append]
        rfl
      rw [this, stripAudioExtension_append _ _ hext]
    have hno : '-' ∉ T.data ++ ' ' :: enDash :: ' ' :: A.data := by
      intro e
      rcases List.mem_append.mp e with e | e
      · exact hTh e
      · rcases List.mem_cons.mp e with e | e
        · exact absurd e (by decide)
        · rcases List.mem_cons.mp e with e | e
          · exact absurd e (by decide)
          · rcases List.mem_cons.mp e with e | e
            · exact absurd e (by decide)
            · exact hAh e
    unfold parseTrackFilename
    simp only [hname, matchSplit_no_sep '-' _ hno [], hm, h1, h2]

/-- C23 (amended) at work: `Hey Jude - The Beatles.MP3` and
`Hey Jude – The Beatles.ogg` both give the title `Hey Jude` and the artist
`The Beatles`. -/
theorem C23_split_at_first_hyphen_witness :
    parseTrackFilename ("Hey Jude" ++ " - " ++ "The Beatles" ++ ".MP3")
      = { title := String.mk (trim "Hey Jude".data),
          artist := String.mk (trim "The Beatles".data) } ∧
    String.mk (trim "Hey Jude".data) = "Hey Jude" ∧
    String.mk (trim "The Beatles".data) = "The Beatles" :=
  ⟨(C23_split_at_first_hyphen "Hey Jude" "The Beatles" ".MP3" (by decide) (by decide)
      (by decide) (by decide) (by decide)).1, by decide, by decide⟩

/-- C24 (as stated) fails for an identifier that starts with a digit:
`01 Song.mp3` holds neither a hyphen nor an en dash, and its title is `Song`,
not `01 Song`; `1999.mp3` gets the title `9`. -/
theorem C24_counterexample :
    '-' ∉ "01 Song.mp3".data ∧ enDash ∉ "01 Song.mp3".data ∧
    String.mk (stripAudioExtension "01 Song.mp3".data) = "01 Song" ∧
    parseTrackFilename "01 Song.mp3" = { title := "Song", artist := "Unknown Artist" } ∧
    (parseTrackFilename "01 Song.mp3").title ≠ "01 Song" ∧
    parseTrackFilename "1999.mp3" = { title := "9", artist := "Unknown Artist" } := by
  refine ⟨by decide, by decide, by decide, by decide, by decide, by decide⟩

/-- C24 (amended). For every track identifier that contains neither a hyphen
nor an en dash, `parseTrackFilename` returns artist `Unknown Artist`; the title
equals the identifier with its audio extension removed whenever that does not
start with a digit, and is the trimmed group 2 of the track-number pattern
whenever that pattern matches. -/
theorem C24_no_separator (filename : String) (hh : '-' ∉ filename.data)
    (he : enDash ∉ filename.data) :
    (parseTrackFilename filename).artist = "Unknown Artist" ∧
    ((∀ c ∈ (stripAudioExtension filename.data).head?, isDigit c = false) →
      (parseTrackFilename filename).title = String.mk (stripAudioExtension filename.data)) ∧
    (∀ m : List Char × List Char, matchTrackNumber (stripAudioExtension filename.data) = some m →
      (parseTrackFilename filename).title = String.mk (trim m.2)) := by
  have h1 : matchSplit '-' [] (stripAudioExtension filename.data) = none :=
    matchSplit_no_sep _ _ (fun e => hh (mem_of_mem_stripAudioExtension _ _ e)) []
  have h2 : matchSplit enDash [] (stripAudioExtension filename.data) = none :=
    matchSplit_no_sep _ _ (fun e => he (mem_of_mem_stripAudioExtension _ _ e)) []
  refine ⟨?_, ?_, ?_⟩
  · unfold parseTrackFilename
    simp only [h1, h2]
    split <;> rfl
  · intro hd
    have h3 : matchTrackNumber (stripAudioExtension filename.data) = none := by
      unfold matchTrackNumber
      split
      · rename_i c cs hc
        rw [hc] at hd
        rw [hd c (by simp)]
        simp
      · rfl
    unfold parseTrackFilename
    simp only [h1, h2, h3]
  · intro m hm
    unfold parseTrackFilename
    simp only [h1, h2, hm]

/-- C24 (amended) at work: `Song.m4a` gets the title `Song` and the artist
`Unknown Artist`. -/
theorem C24_no_separator_witness :
    (parseTrackFilename "Song.m4a").artist = "Unknown Artist" ∧
    (parseTrackFilename "Song.m4a").title = String.mk (stripAudioExtension "Song.m4a".data) ∧
    String.mk (stripAudioExtension "Song.m4a".data) = "Song" :=
  ⟨(C24_no_separator "Song.m4a" (by decide) (by decide)).1,
    (C24_no_separator "Song.m4a" (by decide) (by decide)).2.1 (by decide), by decide⟩

end TimeTravelRadio
